import Mathlib

/-!
# libeplayer3: LPCM writer (`output/writer/pcm.cpp`) and player state machine (`player.cpp`)

A shallow embedding of the PCM writer and of the playback state machine, followed by the
properties established about them.

Conventions of the embedding

* C `int` values are `Int`; C `unsigned int` values are `Nat` kept below `2 ^ 32` by an
  explicit `% 4294967296` after each operation that can wrap; bytes are `Nat` below `256`.
* Byte arrays are lists; `memcpy (dst, src, n)` onto the start of an array is
  `src.take n ++ dst.drop n`.
* An unsigned division by zero has no defined result in C.  What the target does there is a
  field of the environment (`Env.divZero`): `none` when the division traps, `some q` when it
  hands back the value `q`.
* `writev` is the only effect on the sink: every call of it is recorded, in order, in
  `State.out`; its return value is supplied by the environment.
* A loop that need not terminate takes a fuel argument and reports `Fault.outOfFuel` when the
  fuel is used up before the loop ends.
-/

namespace Pcm

/-! ## Machine arithmetic -/

/-- Conversion of an `int` to `unsigned int`. -/
def toUInt (x : Int) : Nat := (x % 4294967296).toNat

/-- Conversion of an `unsigned int` to `int` (two's complement). -/
def toInt (n : Nat) : Int := if n % 4294967296 < 2147483648 then (n % 4294967296 : Nat) else (n % 4294967296 : Nat) - 4294967296

/-- Unsigned subtraction `a - b`. -/
def usub (a b : Nat) : Nat := (a + 4294967296 - b % 4294967296) % 4294967296

/-- Ways in which the embedded code can fail to produce a result. -/
inductive Fault where
  | divByZero
  | outOfFuel
  deriving DecidableEq, Repr

/-- Unsigned division `a / b`; for `b = 0` the outcome is the platform's, `dz`. -/
def udiv (dz : Option Nat) (a b : Nat) : Except Fault Nat :=
  if b = 0 then
    match dz with
    | none => Except.error Fault.divByZero
    | some q => Except.ok (q % 4294967296)
  else Except.ok (a / b)

/-! ## Writer state -/

/-- The constant header template `clpcm_prv`. -/
def clpcm_prv : List Nat :=
  [0xA0, 0, 0, 0x0A, 0, 9, 0x00, 0x0F, 0x0F, 0, 0, 0x80, 0, 0]

/-- The file-scope variables of `pcm.cpp`. -/
structure Writer where
  initialHeader : Bool
  SubFrameLen : Nat
  SubFramesPerPES : Nat
  lpcm_prv : List Nat
  breakBuffer : List Nat
  breakBufferFillSize : Nat
  deriving DecidableEq, Repr

/-- The variables as the program starts: `initialHeader = 1`, everything else zero. -/
def Writer.init : Writer :=
  { initialHeader := true
    SubFrameLen := 0
    SubFramesPerPES := 0
    lpcm_prv := List.replicate 14 0
    breakBuffer := List.replicate 8192 0
    breakBufferFillSize := 0 }

/-- The fields of `WriterAVCallData_t` that `writeData` reads.  A null `data` is `none`. -/
structure WriterAVCallData where
  fd : Int
  Pts : Int
  data : Option (List Nat)
  len : Int
  uNoOfChannels : Int
  uSampleRate : Int
  uBitsPerSample : Int
  bLittleEndian : Int
  deriving DecidableEq, Repr

/-- One `writev (fd, iov, 3)`: the PES header, the private header and the payload region. -/
structure Pes where
  header : List Nat
  prv : List Nat
  payload : List Nat
  deriving DecidableEq, Repr

/-- What the code takes from outside: the outcome of a division by zero, `InsertPesHeader`
(applied to the payload size and the PTS; it fills `PesHeader` and its length is the header's)
and the return value of the `k`-th `writev` of the session, counted from 0. -/
structure Env where
  divZero : Option Nat
  InsertPesHeader : Nat → Int → List Nat
  writev : Nat → Int

/-- Writer variables together with the record of the `writev` calls made so far. -/
structure State where
  w : Writer
  out : List Pes
  deriving DecidableEq, Repr

/-- The state of a fresh process. -/
def State.init : State := { w := Writer.init, out := [] }

/-! ## prepareClipPlay -/

/-- The statement `p[i] |= v`. -/
def orAt (p : List Nat) (i v : Nat) : List Nat := p.set i (p.getD i 0 ||| v)

/-- The `switch (uSampleRate)`: the header with its sample-rate bits set, and `SubFrameLen`. -/
def rateSwitch (prv : List Nat) (uSampleRate : Int) : List Nat × Nat :=
  if uSampleRate = 48000 then (prv, 40)
  else if uSampleRate = 96000 then (orAt prv 8 0x10, 80)
  else if uSampleRate = 192000 then (orAt prv 8 0x20, 160)
  else if uSampleRate = 44100 then (orAt prv 8 0x80, 40)
  else if uSampleRate = 88200 then (orAt prv 8 0x90, 80)
  else if uSampleRate = 176400 then (orAt prv 8 0xA0, 160)
  else (prv, 0)

/-- The function `prepareClipPlay`: returns its return value and the new writer variables. -/
def prepareClipPlay (dz : Option Nat) (w : Writer) (uNoOfChannels uSampleRate uBitsPerSample : Int) :
    Except Fault (Int × Writer) :=
  -- SubFrameLen = 0; SubFramesPerPES = 0; breakBufferFillSize = 0; memcpy (lpcm_prv, clpcm_prv)
  let sw := rateSwitch clpcm_prv uSampleRate
  let prv := sw.1
  let len0 := sw.2
  let len1 := (len0 * toUInt uNoOfChannels) % 4294967296
  let len2 := (len1 * toUInt (Int.tdiv uBitsPerSample 8)) % 4294967296
  match udiv dz ((2048 - 18) - 14) len2 with
  | Except.error e => Except.error e
  | Except.ok perPES =>
    let len3 := (len2 * perPES) % 4294967296
    let prv := prv.set 10 (toUInt (uNoOfChannels - 1) % 256)
    let w1 : Writer :=
      { w with SubFrameLen := len3, SubFramesPerPES := perPES, breakBufferFillSize := 0, lpcm_prv := prv }
    if uBitsPerSample = 24 then Except.ok (0, { w1 with lpcm_prv := orAt prv 7 0x20 })
    else if uBitsPerSample = 16 then Except.ok (0, w1)
    else Except.ok (1, w1)

/-- The function `reset`. -/
def reset (s : State) : Int × State := (0, { s with w := { s.w with initialHeader := true } })

/-- The sample rates with a `case` of their own in `prepareClipPlay`. -/
def Supported (rate : Int) : Prop :=
  rate = 48000 ∨ rate = 96000 ∨ rate = 192000 ∨ rate = 44100 ∨ rate = 88200 ∨ rate = 176400

instance (rate : Int) : Decidable (Supported rate) := by unfold Supported; infer_instance

/-- The value `SubFrameLen` is given by the `switch (uSampleRate)`: 40, 80, 160 or 0. -/
def unitLen (rate : Int) : Nat := (rateSwitch clpcm_prv rate).2

/-- The 32-bit value of `SubFrameLen` when `prepareClipPlay` divides by it: the byte length of
one sub-frame. -/
def frameLen (uNoOfChannels uSampleRate uBitsPerSample : Int) : Nat :=
  ((unitLen uSampleRate * toUInt uNoOfChannels) % 4294967296
    * toUInt (Int.tdiv uBitsPerSample 8)) % 4294967296

/-- The sample-rate code of the specification, for the six supported rates. -/
def rateCode (rate : Int) : Nat :=
  if rate = 48000 then 0x00
  else if rate = 96000 then 0x10
  else if rate = 192000 then 0x20
  else if rate = 44100 then 0x80
  else if rate = 88200 then 0x90
  else if rate = 176400 then 0xA0
  else 0

/-- The private header as the specification describes it (reference header builder). -/
def referenceHeader (channelCount rate bits : Int) : List Nat :=
  [0xA0, 0, 0, 0x0A, 0, 9, 0x00, 0x0F ||| (if bits = 24 then 0x20 else 0), 0x0F ||| rateCode rate,
   0, (channelCount - 1).toNat, 0x80, 0, 0]

/-- The header `prepareClipPlay` leaves in `lpcm_prv` when it returns. -/
def headerOf (uNoOfChannels uSampleRate uBitsPerSample : Int) : List Nat :=
  let prv := (rateSwitch clpcm_prv uSampleRate).1.set 10 (toUInt (uNoOfChannels - 1) % 256)
  if uBitsPerSample = 24 then orAt prv 7 0x20 else prv

/-- The value `prepareClipPlay` returns when it returns. -/
def retOf (uBitsPerSample : Int) : Int := if uBitsPerSample = 24 ∨ uBitsPerSample = 16 then 0 else 1

/-! ## The reordering loops of writeData -/

/-- Body of the 16-bit loop at offset `n`: exchange `injectBuffer[n]` and `injectBuffer[n + 1]`. -/
def swapAt (b : List Nat) (n : Nat) : List Nat :=
  let tmp := b.getD n 0
  let b := b.set n (b.getD (n + 1) 0)
  b.set (n + 1) tmp

/-- Body of the 24-bit loop with `p = &injectBuffer[n]`. -/
def permuteAt (b : List Nat) (n : Nat) : List Nat :=
  let t := b.getD (n + 0) 0
  let b := b.set (n + 0) (b.getD (n + 2) 0)
  let b := b.set (n + 2) (b.getD (n + 5) 0)
  let b := b.set (n + 5) (b.getD (n + 7) 0)
  let b := b.set (n + 7) (b.getD (n + 11) 0)
  let b := b.set (n + 11) (b.getD (n + 9) 0)
  let b := b.set (n + 9) (b.getD (n + 3) 0)
  let b := b.set (n + 3) (b.getD (n + 4) 0)
  let b := b.set (n + 4) (b.getD (n + 8) 0)
  b.set (n + 8) t

/-- The loop `for (n = 0; n < SubFrameLen; n += 2)`, started at `n`; `fuel` bounds the number of
passes and `SubFrameLen` passes are always enough. -/
def swapLoop : Nat → Nat → Nat → List Nat → List Nat
  | 0, _, _, b => b
  | fuel + 1, subFrameLen, n, b =>
    if n < subFrameLen then swapLoop fuel subFrameLen (n + 2) (swapAt b n) else b

/-- The loop `for (n = 0; n < SubFrameLen; n += 12)`, started at `n`. -/
def permuteLoop : Nat → Nat → Nat → List Nat → List Nat
  | 0, _, _, b => b
  | fuel + 1, subFrameLen, n, b =>
    if n < subFrameLen then permuteLoop fuel subFrameLen (n + 12) (permuteAt b n) else b

/-- The `if (call->uBitsPerSample == 16) ... else ...` applied to the assembled region. -/
def reorder (uBitsPerSample : Int) (subFrameLen : Nat) (b : List Nat) : List Nat :=
  if uBitsPerSample = 16 then swapLoop subFrameLen subFrameLen 0 b
  else permuteLoop subFrameLen subFrameLen 0 b

/-! ## writeData -/

/-- The first branch of the loop body: `breakBufferFillSize = size - pos` and the `memcpy` of
the tail `&buffer[pos]` onto the start of `breakBuffer`. -/
def stash (buffer : List Nat) (size pos : Nat) (s : State) : State :=
  let fill := usub size pos
  { s with w := { s.w with breakBufferFillSize := fill
                           breakBuffer := (buffer.drop pos).take fill ++ s.w.breakBuffer.drop fill } }

/-- The region assembled in `injectBuffer` (`SubFrameLen` bytes, all of them written): the
carried bytes followed by fresh input, or fresh input alone. -/
def assemble (w : Writer) (buffer : List Nat) (pos : Nat) : List Nat :=
  if w.breakBufferFillSize > 0 then
    w.breakBuffer.take w.breakBufferFillSize
      ++ (buffer.drop pos).take (usub w.SubFrameLen w.breakBufferFillSize)
  else (buffer.drop pos).take w.SubFrameLen

/-- The new `pos`: `pos += (SubFrameLen - breakBufferFillSize)` or `pos += SubFrameLen`. -/
def advance (w : Writer) (pos : Nat) : Nat :=
  if w.breakBufferFillSize > 0 then (pos + usub w.SubFrameLen w.breakBufferFillSize) % 4294967296
  else (pos + w.SubFrameLen) % 4294967296

/-- The statement `lpcm_prv[1] = ((lpcm_prv[1] + SubFramesPerPES) & 0x1F)`. -/
def nextCounter (w : Writer) : List Nat :=
  w.lpcm_prv.set 1 (((w.lpcm_prv.getD 1 0 + w.SubFramesPerPES) % 4294967296) &&& 0x1F)

/-- The three parts handed to `writev` in a pass of the second branch: the PES header built for
the private header and the region, the private header with its counter advanced, and the
region, assembled and reordered. -/
def pesAt (env : Env) (call : WriterAVCallData) (buffer : List Nat) (pos : Nat) (s : State) : Pes :=
  { header := env.InsertPesHeader (14 + s.w.SubFrameLen) call.Pts
    prv := nextCounter s.w
    payload := reorder call.uBitsPerSample s.w.SubFrameLen (assemble s.w buffer pos) }

/-- The second branch of the loop body up to and including the `writev`: the carry-over is
cleared, the counter is advanced and the PES is handed to `writev`. -/
def emitPes (env : Env) (call : WriterAVCallData) (buffer : List Nat) (pos : Nat) (s : State) : State :=
  { w := { s.w with breakBufferFillSize := 0, lpcm_prv := nextCounter s.w }
    out := s.out ++ [pesAt env call buffer pos s] }

/-- One pass through the body of `for (pos = 0; pos < size;)`, entered with `pos < size`.
The result is the new state and the next `pos`, or `none` for it when the pass ends in `break`. -/
def loopBody (env : Env) (call : WriterAVCallData) (buffer : List Nat) (size pos : Nat) (s : State) :
    State × Option Nat :=
  if usub size pos < s.w.SubFrameLen then (stash buffer size pos s, none)
  else if env.writev s.out.length < 0 then (emitPes env call buffer pos s, none)
  else (emitPes env call buffer pos s, some (advance s.w pos))

/-- The loop `for (pos = 0; pos < size;)` from position `pos`. -/
def writeLoop (env : Env) (call : WriterAVCallData) (buffer : List Nat) (size : Nat) :
    Nat → Nat → State → Except Fault State
  | 0, _, _ => Except.error Fault.outOfFuel
  | fuel + 1, pos, s =>
    if pos < size then
      match loopBody env call buffer size pos s with
      | (s1, none) => Except.ok s1
      | (s1, some pos1) => writeLoop env call buffer size fuel pos1 s1
    else Except.ok s

/-- The block `if (initialHeader) { initialHeader = 0; prepareClipPlay (...); }`: the writer
variables with which the loop is entered.  The return value of `prepareClipPlay` is dropped. -/
def initOnce (dz : Option Nat) (w : Writer) (c : WriterAVCallData) : Except Fault Writer :=
  if w.initialHeader then
    match prepareClipPlay dz { w with initialHeader := false }
        c.uNoOfChannels c.uSampleRate c.uBitsPerSample with
    | Except.error e => Except.error e
    | Except.ok r => Except.ok r.2
  else Except.ok w

/-- The function `writeData`; `none` is a null `call`.  Returns its return value and the new state. -/
def writeData (env : Env) (fuel : Nat) (s : State) (call : Option WriterAVCallData) :
    Except Fault (Int × State) :=
  match call with
  | none => Except.ok (0, s)
  | some c =>
    match c.data with
    | none => Except.ok (0, s)
    | some buffer =>
      if c.len ≤ 0 then Except.ok (0, s)
      else if c.fd < 0 then Except.ok (0, s)
      else
        match initOnce env.divZero s.w c with
        | Except.error e => Except.error e
        | Except.ok w =>
          let size := toUInt c.len
          match writeLoop env c buffer size fuel 0 { s with w := w } with
          | Except.error e => Except.error e
          | Except.ok s1 => Except.ok (toInt size, s1)

/-- An operation on the writer: `writeData (call)` or `reset ()`. -/
inductive Op where
  | write (call : Option WriterAVCallData)
  | reset

/-- A sequence of operations, each `writeData` with the same fuel. -/
def run (env : Env) (fuel : Nat) : State → List Op → Except Fault State
  | s, [] => Except.ok s
  | s, Op.write call :: ops =>
    match writeData env fuel s call with
    | Except.error e => Except.error e
    | Except.ok r => run env fuel r.2 ops
  | s, Op.reset :: ops => run env fuel (reset s).2 ops

/-- A call that passes the checks at the head of `writeData` and whose `data` holds `len` bytes. -/
def ValidCall (c : WriterAVCallData) (buffer : List Nat) : Prop :=
  c.data = some buffer ∧ 0 < c.len ∧ c.len < 2147483648 ∧ (buffer.length : Int) = c.len ∧ 0 ≤ c.fd

/-- The carry-over holds less than one region (`SubFrameLen` bytes), or nothing. -/
def FillOk (w : Writer) : Prop :=
  w.breakBufferFillSize = 0 ∨ w.breakBufferFillSize < w.SubFrameLen

/-- What holds of the writer variables between calls: the region length is at most
`2048 - 18 - 14`, the carry-over is shorter than a region, and `breakBuffer` has its 8192
bytes. -/
def Writer.Sound (w : Writer) : Prop :=
  w.SubFrameLen ≤ 2016 ∧ FillOk w ∧ w.breakBuffer.length = 8192

/-- The sub-frame counter of a private header: its byte 1. -/
def counter (prv : List Nat) : Nat := prv.getD 1 0

/-- The counter after the PES number `out.length - n0` counted from position `n0` of the record:
the header in force and the header sent with each PES carry the multiple of `SubFramesPerPES`
that their rank gives, modulo 32. -/
def CounterInv (n0 : Nat) (s : State) : Prop :=
  s.w.lpcm_prv.length = 14 ∧ n0 ≤ s.out.length ∧
  counter s.w.lpcm_prv = ((s.out.length - n0) * s.w.SubFramesPerPES) % 32 ∧
  ∀ i p, s.out[n0 + i]? = some p → counter p.prv = ((i + 1) * s.w.SubFramesPerPES) % 32

/-! ## writeDataIpcm: the output sample rate -/

/-- The array `rates` of `writeDataIpcm`, with the 0 that ends it. -/
def rates : List Int := [48000, 96000, 192000, 44100, 88200, 176400, 0]

/-- The loop `while (*rate && ((*rate / in_rate) * in_rate != *rate) &&
(in_rate / *rate) * *rate != in_rate) rate++;` on the part of the array that starts at `rate`:
the element at which it stops.  The 0 at the end of the array stops it at the latest; the
case of an empty rest is never reached from `rates`. -/
def scanRates : List Int → Int → Int
  | [], _ => 0
  | r :: rs, in_rate =>
    if r ≠ 0 ∧ Int.tdiv r in_rate * in_rate ≠ r ∧ Int.tdiv in_rate r * r ≠ in_rate then
      scanRates rs in_rate
    else r

/-- The value given to `out_sample_rate` when the resampler is created:
`*rate ? *rate : 44100`.  With `in_rate = 0` the loop divides by zero: no value. -/
def chooseRate (in_rate : Int) : Option Int :=
  if in_rate = 0 then none
  else some (if scanRates rates in_rate ≠ 0 then scanRates rates in_rate else 44100)

/-- The preference list of the specification. -/
def preferredRates : List Int := [48000, 96000, 192000, 44100, 88200, 176400]

/-- The output rate as the specification words it: the first preferred rate that is a multiple
of the input rate or of which the input rate is a multiple, and 44100 when there is none. -/
def specRate (in_rate : Int) : Int :=
  (preferredRates.find? (fun r => decide (in_rate ∣ r ∨ r ∣ in_rate))).getD 44100

/-- The first `breakBufferFillSize` bytes of `breakBuffer`: the bytes carried over. -/
def carry (w : Writer) : List Nat := w.breakBuffer.take w.breakBufferFillSize

/-- An environment for examples: division by zero traps, every write succeeds. -/
def env0 : Env := { divZero := none, InsertPesHeader := fun _ _ => [], writev := fun _ => 0 }

/-- The writer variables after initialization at 48000 Hz, mono, 16 bit: sub-frames of 80
bytes, 25 of them in a region of 2000 bytes. -/
def monoWriter : Writer :=
  { Writer.init with initialHeader := false, SubFrameLen := 2000, SubFramesPerPES := 25
                     lpcm_prv := headerOf 1 48000 16 }

/-- An environment in which every `writev` fails. -/
def envFail : Env := { divZero := none, InsertPesHeader := fun _ _ => [], writev := fun _ => -1 }

/-- An environment in which every `writev` is short: it reports one byte written. -/
def envShort : Env := { divZero := none, InsertPesHeader := fun _ _ => [], writev := fun _ => 1 }

/-- A call carrying `data` for the stream parameters given. -/
def mkCall (ch rate bits : Int) (data : List Nat) : WriterAVCallData :=
  { fd := 3, Pts := 0, data := some data, len := data.length
    uNoOfChannels := ch, uSampleRate := rate, uBitsPerSample := bits, bLittleEndian := 1 }

/-- Two call records that `writeData` cannot tell apart once the writer is initialized: the
same descriptor, PTS, data and length, and the same answer to `uBitsPerSample == 16`. -/
def SameStream (c c1 : WriterAVCallData) : Prop :=
  c.fd = c1.fd ∧ c.Pts = c1.Pts ∧ c.data = c1.data ∧ c.len = c1.len ∧
  (c.uBitsPerSample = 16 ↔ c1.uBitsPerSample = 16)

/-- The same for the argument of `writeData`, which may be null. -/
def SameCall : Option WriterAVCallData → Option WriterAVCallData → Prop
  | none, none => True
  | some c, some c1 => SameStream c c1
  | _, _ => False

/-- A first call that carries the single byte 9 at 48000 Hz, mono, 16 bit. -/
def tailCall : WriterAVCallData := mkCall 1 48000 16 [9]

/-- The 2000 bytes 0, 1, 7, 7, ... -/
def regionData : List Nat := 0 :: 1 :: List.replicate 1998 7

/-- A later call with these 2000 bytes and the bit depth given. -/
def laterCall (bits : Int) : WriterAVCallData :=
  { fd := 3, Pts := 0, data := some regionData, len := 2000
    uNoOfChannels := 1, uSampleRate := 48000, uBitsPerSample := bits, bLittleEndian := 1 }

/-- The state after `tailCall` on a fresh writer: the byte 9 is carried over. -/
def carryState : State := stash [9] 1 0 { State.init with w := monoWriter }

/-- A state with the variables of `monoWriter` and nothing written yet. -/
def monoState : State := { State.init with w := monoWriter }

/-- A state outside those the writer reaches: a region length of 2 with 2 bytes carried
over. -/
def fullCarryState : State :=
  { State.init with
    w := { Writer.init with initialHeader := false, SubFrameLen := 2, breakBufferFillSize := 2 } }

/-! ## Instrumented loops: passes counted, array accesses checked -/

/-- The loop `for (pos = 0; pos < size;)` as in `writeLoop`, with the number of passes through
its body counted. -/
def countLoop (env : Env) (call : WriterAVCallData) (buffer : List Nat) (size : Nat) :
    Nat → Nat → State → Except Fault (Nat × State)
  | 0, _, _ => Except.error Fault.outOfFuel
  | fuel + 1, pos, s =>
    if pos < size then
      match loopBody env call buffer size pos s with
      | (s1, none) => Except.ok (1, s1)
      | (s1, some pos1) =>
        match countLoop env call buffer size fuel pos1 s1 with
        | Except.error e => Except.error e
        | Except.ok r => Except.ok (r.1 + 1, r.2)
    else Except.ok (0, s)

end Pcm

/-! # The playback state machine (`player.cpp`) -/

namespace Player

/-- The constant `cMaxSpeed_ff`. -/
def cMaxSpeed_ff : Int := 128

/-- The constant `cMaxSpeed_fr`. -/
def cMaxSpeed_fr : Int := -320

/-- A call made on a collaborator: the output sink or the input. -/
inductive Cmd where
  | outAVSync (enable : Bool)
  | outPlay
  | outPause
  | outContinue
  | outStop
  | outClear
  | outMute (enable : Bool)
  | outFastForward (speed : Int)
  | outSlowMotion (repeats : Int)
  | inStop
  | inInit (url : String)
  | inSeek
  | clearTracks
  | threadCreate
  deriving DecidableEq, Repr

/-- The member variables of `Player` that the operations below read or write, and the record
`cmds` of the calls made on the collaborators, oldest first. -/
structure PlayerState where
  hasThreadStarted : Bool
  isPaused : Bool
  isPlaying : Bool
  isForwarding : Bool
  isBackWard : Bool
  isSlowMotion : Bool
  Speed : Int
  isHttp : Bool
  noprobe : Bool
  abortRequested : Bool
  url : String
  cmds : List Cmd
  deriving DecidableEq, Repr

/-- The constructor `Player::Player`.  The members it leaves unset are given fixed values. -/
def PlayerState.new : PlayerState :=
  { hasThreadStarted := false
    isPaused := false
    isPlaying := false
    isForwarding := false
    isBackWard := false
    isSlowMotion := false
    Speed := 0
    isHttp := false
    noprobe := false
    abortRequested := false
    url := ""
    cmds := [] }

/-- Append a collaborator call to the record. -/
def emit (s : PlayerState) (c : Cmd) : PlayerState := { s with cmds := s.cmds ++ [c] }

/-- The statement `if (isBackWard) { isBackWard = false; output.Mute (false); }`. -/
def endBackWard (s : PlayerState) : PlayerState :=
  if s.isBackWard then emit { s with isBackWard := false } (Cmd.outMute false) else s

/-- The test `strstr (Url, "://") != NULL` on the characters of `Url`. -/
def hasScheme : List Char → Bool
  | [] => false
  | c :: cs => (c == ':' && cs.take 2 == ['/', '/']) || hasScheme cs

/-- The method `Player::Open`; `initOk` is what `input.Init` returns. -/
def Open (s : PlayerState) (Url : String) (noprobe1 : Bool) (initOk : Bool) : Bool × PlayerState :=
  let s := { s with isHttp := false, noprobe := noprobe1, abortRequested := false }
  let s := emit s Cmd.clearTracks
  let classified : Option PlayerState :=
    if Url.data.head? = some '/' then some { s with url := "file://" ++ Url }
    else if Url.data.take 6 = "mms://".data then
      some { s with url := "mmst" ++ String.mk (Url.data.drop 3), isHttp := true }
    else if hasScheme Url.data then some { s with url := Url }
    else none
  match classified with
  | none => (false, s)
  | some s1 =>
    let s2 := emit s1 (Cmd.inInit s1.url)
    if !initOk then (false, s2) else (true, s2)

/-- The method `Player::Close`. -/
def Close (s : PlayerState) : Bool × PlayerState :=
  (true, { s with isPaused := false, isPlaying := false, isForwarding := false, isBackWard := false
                  isSlowMotion := false, Speed := 0, url := "" })

/-- The method `Player::Play`; `playOk` is what `output.Play` returns and `err` what
`pthread_create` returns.  The new thread sets `hasThreadStarted` itself (`playthreadEnter`). -/
def Play (s : PlayerState) (playOk : Bool) (err : Int) : Bool × PlayerState :=
  if !s.isPlaying then
    let s := emit s (Cmd.outAVSync true)
    let s := emit s Cmd.outPlay
    if playOk then
      let s := { s with isPlaying := true, isPaused := false, isForwarding := false }
      let s := endBackWard s
      let s := { s with isSlowMotion := false, Speed := 1 }
      if !s.hasThreadStarted then
        let s := emit s Cmd.threadCreate
        if err ≠ 0 then (false, { s with isPlaying := false }) else (true, s)
      else (true, s)
    else (false, s)
  else (false, s)

/-- The method `Player::Pause`. -/
def Pause (s : PlayerState) : Bool × PlayerState :=
  if s.isPlaying && !s.isPaused then
    let s := if s.isSlowMotion then emit s Cmd.outClear else s
    let s := emit s Cmd.outPause
    let s := { s with isPaused := true, isForwarding := false }
    let s := endBackWard s
    (true, { s with isSlowMotion := false, Speed := 1 })
  else (false, s)

/-- The method `Player::Continue`. -/
def Continue (s : PlayerState) : Bool × PlayerState :=
  if s.isPlaying && (s.isPaused || s.isForwarding || s.isBackWard || s.isSlowMotion) then
    let s := if s.isSlowMotion then emit s Cmd.outClear else s
    let s := emit s Cmd.outContinue
    let s := { s with isPaused := false, isForwarding := false }
    let s := endBackWard s
    (true, { s with isSlowMotion := false, Speed := 1 })
  else (false, s)

/-- The statements of `Player::Stop` before its closing loop: the value of `ret` and the state
with which the loop is reached. -/
def stopBody (s : PlayerState) : Bool × PlayerState :=
  if s.isPlaying then
    let s := { s with isPaused := false, isPlaying := false, isForwarding := false }
    let s := endBackWard s
    let s := { s with isSlowMotion := false, Speed := 0 }
    let s := emit s Cmd.outStop
    (true, emit s Cmd.inStop)
  else (false, s)

/-- The first statement of `playthread`: the new thread announces itself. -/
def playthreadEnter (s : PlayerState) : PlayerState := { s with hasThreadStarted := true }

/-- The end of `playthread`, after `input.Play ()` has returned:
`hasThreadStarted = false; Stop ();`.  The closing loop of that `Stop` reads the flag which the
thread has just cleared, and is left at its first test. -/
def playthreadExit (s : PlayerState) : PlayerState := (stopBody { s with hasThreadStarted := false }).2

/-- What the playback thread does to the state while a `Stop` called from another thread is in
`usleep`: nothing, its first statement, or its last two. -/
inductive ThreadStep where
  | idle
  | enter
  | exit
  deriving DecidableEq, Repr

/-- The state after a step of the playback thread. -/
def threadStep : ThreadStep → PlayerState → PlayerState
  | ThreadStep.idle, s => s
  | ThreadStep.enter, s => playthreadEnter s
  | ThreadStep.exit, s => playthreadExit s

/-- The loop `while (hasThreadStarted) usleep (100000);` at the end of `Player::Stop`, which
does not write the flag: test number `k` reads it in the current state, and during the `usleep`
after a test that reads it as set the playback thread takes the step `thread k`.  The result is
the state in which a test reads the flag as cleared, or `none` when `fuel` tests were not
enough. -/
def stopWait (thread : Nat → ThreadStep) : Nat → Nat → PlayerState → Option PlayerState
  | 0, _, _ => none
  | fuel + 1, k, s =>
    if s.hasThreadStarted then stopWait thread fuel (k + 1) (threadStep (thread k) s) else some s

/-- The method `Player::Stop`, called while the playback thread behaves as `thread` says:
the value returned and the state on return, or `none` when the closing loop has not ended
after `fuel` tests. -/
def Stop (thread : Nat → ThreadStep) (fuel : Nat) (s : PlayerState) : Option (Bool × PlayerState) :=
  match stopWait thread fuel 0 (stopBody s).2 with
  | none => none
  | some t => some ((stopBody s).1, t)

/-- The method `Player::FastForward`; `videoTrack` tells whether `input.videoTrack` is set. -/
def FastForward (s : PlayerState) (videoTrack : Bool) (speed : Int) : Bool × PlayerState :=
  if videoTrack && !s.isHttp && !s.isBackWard && (!s.isPaused || s.isPlaying) then
    if speed ≤ 0 ∨ speed > cMaxSpeed_ff then (false, s)
    else (true, emit { s with isForwarding := true, Speed := speed } (Cmd.outFastForward speed))
  else (false, s)

/-- The method `Player::FastBackward`. -/
def FastBackward (s : PlayerState) (videoTrack : Bool) (speed : Int) : Bool × PlayerState :=
  if videoTrack && !s.isForwarding && (!s.isPaused || s.isPlaying) then
    if speed > 0 ∨ speed < cMaxSpeed_fr then (false, s)
    else
      let s := if speed = 0 then { s with isBackWard := false, Speed := 0 }
               else { s with Speed := speed, isBackWard := true }
      let s := emit s Cmd.outClear
      (true, if s.isBackWard then emit s (Cmd.outMute true) else s)
  else (false, if s.isBackWard then emit s (Cmd.outMute true) else s)

/-- The method `Player::SlowMotion`. -/
def SlowMotion (s : PlayerState) (videoTrack : Bool) (repeats : Int) : Bool × PlayerState :=
  if videoTrack && !s.isHttp && s.isPlaying then
    let s := if s.isPaused then (Continue s).2 else s
    let s := if repeats = 2 ∨ repeats = 4 ∨ repeats = 8 then { s with isSlowMotion := true } else s
    let repeats1 : Int := if repeats = 2 ∨ repeats = 4 ∨ repeats = 8 then repeats else 0
    (true, emit s (Cmd.outSlowMotion repeats1))
  else (false, s)

/-- The method `Player::Seek`; `seekOk` is what `input.Seek` returns. -/
def Seek (s : PlayerState) (seekOk : Bool) : Bool × PlayerState :=
  (seekOk, emit (emit s Cmd.outClear) Cmd.inSeek)

/-- The six mode fields of the state are the same in `s` and `t`. -/
def SameMode (s t : PlayerState) : Prop :=
  t.isPlaying = s.isPlaying ∧ t.isPaused = s.isPaused ∧ t.isForwarding = s.isForwarding ∧
  t.isBackWard = s.isBackWard ∧ t.isSlowMotion = s.isSlowMotion ∧ t.Speed = s.Speed

/-- A call on the player from outside, with what the collaborators answer, or one of the two
steps that the playback thread takes on the state. -/
inductive PlayerOp where
  | opOpen (Url : String) (noprobe1 : Bool) (initOk : Bool)
  | opClose
  | opPlay (playOk : Bool) (err : Int)
  | opPause
  | opContinue
  | opStop (thread : Nat → ThreadStep) (fuel : Nat)
  | opFastForward (videoTrack : Bool) (speed : Int)
  | opFastBackward (videoTrack : Bool) (speed : Int)
  | opSlowMotion (videoTrack : Bool) (repeats : Int)
  | opSeek (seekOk : Bool)
  | opThreadEnter
  | opThreadExit

/-- The state after one operation.  After a `Stop` whose closing loop does not end, the state
is the one in which the caller is left waiting. -/
def step (s : PlayerState) : PlayerOp → PlayerState
  | PlayerOp.opOpen Url noprobe1 initOk => (Open s Url noprobe1 initOk).2
  | PlayerOp.opClose => (Close s).2
  | PlayerOp.opPlay playOk err => (Play s playOk err).2
  | PlayerOp.opPause => (Pause s).2
  | PlayerOp.opContinue => (Continue s).2
  | PlayerOp.opStop thread fuel =>
    match Stop thread fuel s with
    | some r => r.2
    | none => (stopBody s).2
  | PlayerOp.opFastForward videoTrack speed => (FastForward s videoTrack speed).2
  | PlayerOp.opFastBackward videoTrack speed => (FastBackward s videoTrack speed).2
  | PlayerOp.opSlowMotion videoTrack repeats => (SlowMotion s videoTrack repeats).2
  | PlayerOp.opSeek seekOk => (Seek s seekOk).2
  | PlayerOp.opThreadEnter => playthreadEnter s
  | PlayerOp.opThreadExit => playthreadExit s

/-- The state after a sequence of operations, first to last. -/
def runOps (s : PlayerState) (ops : List PlayerOp) : PlayerState := ops.foldl step s

/-- A playback thread that is idle until step `n` and then takes its last step. -/
def exitAfter (n : Nat) : Nat → ThreadStep := fun k => if k = n then ThreadStep.exit else ThreadStep.idle

/-- A new player after a successful Play and the first statement of the playback thread:
playing, with the flag set. -/
def playingState : PlayerState :=
  runOps PlayerState.new [PlayerOp.opPlay true 0, PlayerOp.opThreadEnter]

/-- The relation between the mode flags and the speed that the operations maintain. -/
def ModeInv (s : PlayerState) : Prop :=
  (s.isPaused = true → s.isPlaying = true) ∧
  (s.isForwarding = true → 1 ≤ s.Speed ∧ s.Speed ≤ 128) ∧
  (s.isBackWard = true → -320 ≤ s.Speed ∧ s.Speed ≤ -1)

end Player

/-! # Properties -/

namespace Pcm

/-! ## The 24-bit reordering -/

/-- C1 (the code departs from its comment): the body of the 24-bit loop sends the twelve bytes
`a0 .. a11` of a group to `a2 a1 a5 a4 a8 a7 a6 a11 a0 a3 a10 a9`; on the vector `0 .. 11` the
24-bit path of `writeData` therefore yields `[2,1,5,4,8,7,6,11,0,3,10,9]`, which is not the
documented order `[2,1,5,4,8,7,11,10,0,3,6,9]`: positions 6, 7 and 10 differ. -/
theorem c1_permute_group_code :
    (∀ a0 a1 a2 a3 a4 a5 a6 a7 a8 a9 a10 a11 : Nat,
      permuteAt [a0, a1, a2, a3, a4, a5, a6, a7, a8, a9, a10, a11] 0
        = [a2, a1, a5, a4, a8, a7, a6, a11, a0, a3, a10, a9]) ∧
    reorder 24 12 [0, 1, 2, 3, 4, 5, 6, 7, 8, 9, 10, 11] = [2, 1, 5, 4, 8, 7, 6, 11, 0, 3, 10, 9] ∧
    reorder 24 12 [0, 1, 2, 3, 4, 5, 6, 7, 8, 9, 10, 11] ≠ [2, 1, 5, 4, 8, 7, 11, 10, 0, 3, 6, 9] := by
  refine ⟨?_, ?_, ?_⟩
  · intros; rfl
  · decide
  · decide

/-! ## prepareClipPlay: geometry and header -/

theorem prepareClipPlay_eq (dz : Option Nat) (w : Writer) (ch rate bits : Int) :
    prepareClipPlay dz w ch rate bits =
      match udiv dz 2016 (frameLen ch rate bits) with
      | Except.error e => Except.error e
      | Except.ok perPES =>
        Except.ok (retOf bits,
          { w with SubFrameLen := (frameLen ch rate bits * perPES) % 4294967296, SubFramesPerPES := perPES,
                   breakBufferFillSize := 0, lpcm_prv := headerOf ch rate bits }) := by
  unfold prepareClipPlay
  show (match udiv dz 2016 (frameLen ch rate bits) with
      | Except.error e => Except.error e
      | Except.ok perPES => _) = _
  cases udiv dz 2016 (frameLen ch rate bits) with
  | error e => rfl
  | ok q =>
    by_cases h24 : bits = 24
    · subst h24; rfl
    · by_cases h16 : bits = 16
      · subst h16; rfl
      · show (if bits = 24 then _ else if bits = 16 then _ else _) = _
        rw [if_neg h24, if_neg h16]
        have hr : retOf bits = 1 := by simp [retOf, h24, h16]
        have hh : headerOf ch rate bits
            = (rateSwitch clpcm_prv rate).1.set 10 (toUInt (ch - 1) % 256) := by
          simp [headerOf, h24]
        rw [hr, hh]
        rfl

theorem mul_div_le_2016 (L : Nat) : L * (2016 / L) ≤ 2016 := Nat.mul_div_le 2016 L

theorem prepareClipPlay_pos (dz : Option Nat) (w : Writer) (ch rate bits : Int)
    (h : frameLen ch rate bits ≠ 0) :
    prepareClipPlay dz w ch rate bits =
      Except.ok (retOf bits,
        { w with SubFrameLen := frameLen ch rate bits * (2016 / frameLen ch rate bits)
                 SubFramesPerPES := 2016 / frameLen ch rate bits
                 breakBufferFillSize := 0, lpcm_prv := headerOf ch rate bits }) := by
  rw [prepareClipPlay_eq]
  have hle := mul_div_le_2016 (frameLen ch rate bits)
  have hmod : frameLen ch rate bits * (2016 / frameLen ch rate bits) % 4294967296
      = frameLen ch rate bits * (2016 / frameLen ch rate bits) := Nat.mod_eq_of_lt (by omega)
  simp [udiv, h, hmod]

theorem prepareClipPlay_zero_some (q : Nat) (w : Writer) (ch rate bits : Int)
    (h : frameLen ch rate bits = 0) :
    prepareClipPlay (some q) w ch rate bits =
      Except.ok (retOf bits,
        { w with SubFrameLen := 0, SubFramesPerPES := q % 4294967296
                 breakBufferFillSize := 0, lpcm_prv := headerOf ch rate bits }) := by
  rw [prepareClipPlay_eq]
  simp [udiv, h]

theorem prepareClipPlay_zero_none (w : Writer) (ch rate bits : Int)
    (h : frameLen ch rate bits = 0) :
    prepareClipPlay none w ch rate bits = Except.error Fault.divByZero := by
  rw [prepareClipPlay_eq]
  simp [udiv, h]

theorem unitLen_supported (rate : Int) (h : Supported rate) :
    unitLen rate = 40 ∨ unitLen rate = 80 ∨ unitLen rate = 160 := by
  rcases h with h | h | h | h | h | h <;> subst h <;> decide

theorem unitLen_unsupported (rate : Int) (h : ¬ Supported rate) : unitLen rate = 0 := by
  simp only [Supported, not_or] at h
  obtain ⟨h1, h2, h3, h4, h5, h6⟩ := h
  simp [unitLen, rateSwitch, h1, h2, h3, h4, h5, h6]

theorem frameLen_unsupported (ch rate bits : Int) (h : ¬ Supported rate) : frameLen ch rate bits = 0 := by
  simp [frameLen, unitLen_unsupported rate h]

theorem toUInt_of_nonneg_lt (x : Int) (h0 : 0 ≤ x) (h1 : x < 4294967296) : toUInt x = x.toNat := by
  unfold toUInt
  rw [Int.emod_eq_of_lt h0 h1]

theorem frameLen_exact (ch rate bits : Int) (hc : 1 ≤ ch) (hb : bits = 16 ∨ bits = 24)
    (h : unitLen rate * ch.toNat * (Int.tdiv bits 8).toNat < 4294967296) (hu : unitLen rate ≠ 0) :
    frameLen ch rate bits = unitLen rate * ch.toNat * (Int.tdiv bits 8).toNat := by
  have hupos : 1 ≤ unitLen rate := Nat.one_le_iff_ne_zero.mpr hu
  have hd : 2 ≤ (Int.tdiv bits 8).toNat := by
    rcases hb with hb | hb <;> subst hb <;> decide
  have hdu : toUInt (Int.tdiv bits 8) = (Int.tdiv bits 8).toNat := by
    rcases hb with hb | hb <;> subst hb <;> decide
  have h1 : unitLen rate * ch.toNat ≤ unitLen rate * ch.toNat * (Int.tdiv bits 8).toNat :=
    Nat.le_mul_of_pos_right _ (by omega)
  have h2 : ch.toNat ≤ unitLen rate * ch.toNat := Nat.le_mul_of_pos_left _ hupos
  have hch : ch < 4294967296 := by omega
  unfold frameLen
  rw [toUInt_of_nonneg_lt ch (by omega) hch, hdu]
  rw [Nat.mod_eq_of_lt (a := unitLen rate * ch.toNat) (by omega), Nat.mod_eq_of_lt h]

/-- C5 (amended): for a supported rate, a channel count of at least 1 and a bit depth of 16 or
24 such that the 32-bit sub-frame length `L = frameLen` is not 0, `prepareClipPlay` returns 0
with `SubFramesPerPES = (2048 - 18 - 14) / L`, `SubFrameLen = L * SubFramesPerPES` and
`L * SubFramesPerPES ≤ 2016`; the unit is 40, 80 or 160, and `L` is the exact product
`unit * channels * (bits / 8)` whenever that product is below `2 ^ 32`. -/
theorem c5_geometry (dz : Option Nat) (w : Writer) (ch rate bits : Int)
    (hr : Supported rate) (hc : 1 ≤ ch) (hb : bits = 16 ∨ bits = 24)
    (hL : frameLen ch rate bits ≠ 0) :
    ∃ w1, prepareClipPlay dz w ch rate bits = Except.ok (0, w1) ∧
      w1.SubFramesPerPES = ((2048 - 18) - 14) / frameLen ch rate bits ∧
      w1.SubFrameLen = frameLen ch rate bits * w1.SubFramesPerPES ∧
      frameLen ch rate bits * w1.SubFramesPerPES ≤ 2016 ∧
      (unitLen rate = 40 ∨ unitLen rate = 80 ∨ unitLen rate = 160) ∧
      (unitLen rate * ch.toNat * (Int.tdiv bits 8).toNat < 4294967296 →
        frameLen ch rate bits = unitLen rate * ch.toNat * (Int.tdiv bits 8).toNat) := by
  have hu := unitLen_supported rate hr
  have hret : retOf bits = 0 := by rcases hb with hb | hb <;> subst hb <;> rfl
  refine ⟨{ w with SubFrameLen := frameLen ch rate bits * (2016 / frameLen ch rate bits),
                    SubFramesPerPES := 2016 / frameLen ch rate bits,
                    breakBufferFillSize := 0, lpcm_prv := headerOf ch rate bits },
    ?_, rfl, rfl, ?_, hu, ?_⟩
  · rw [prepareClipPlay_pos dz w ch rate bits hL, hret]
  · exact Nat.mul_div_le 2016 _
  · intro h
    exact frameLen_exact ch rate bits hc hb h (by omega)

/-- Witness for `c5_geometry`: 48000 Hz, 2 channels, 16 bit. -/
theorem c5_geometry_witness :
    ∃ w1, prepareClipPlay none Writer.init 2 48000 16 = Except.ok (0, w1) ∧
      w1.SubFramesPerPES = ((2048 - 18) - 14) / frameLen 2 48000 16 ∧
      w1.SubFrameLen = frameLen 2 48000 16 * w1.SubFramesPerPES ∧
      frameLen 2 48000 16 * w1.SubFramesPerPES ≤ 2016 ∧
      (unitLen 48000 = 40 ∨ unitLen 48000 = 80 ∨ unitLen 48000 = 160) ∧
      (unitLen 48000 * (2 : Int).toNat * (Int.tdiv 16 8).toNat < 4294967296 →
        frameLen 2 48000 16 = unitLen 48000 * (2 : Int).toNat * (Int.tdiv 16 8).toNat) :=
  c5_geometry none Writer.init 2 48000 16 (by decide) (by decide) (by decide) (by decide)

/-- C5 as stated fails: with 214748365 channels at 48000 Hz, 16 bit, the product
`40 * 214748365 * 2` wraps to 16, so `prepareClipPlay` derives 126 sub-frames per PES where
`(2048 - 18 - 14) / (40 * 214748365 * 2)` is 0; with 268435456 channels the product wraps to 0
and the division is by zero. -/
theorem c5_wraparound_counterexample :
    (∃ w1, prepareClipPlay none Writer.init 214748365 48000 16 = Except.ok (0, w1) ∧
      w1.SubFramesPerPES = 126 ∧ w1.SubFrameLen = 2016) ∧
    ((2048 - 18) - 14) / (40 * 214748365 * (16 / 8)) = 0 ∧
    prepareClipPlay none Writer.init 268435456 48000 16 = Except.error Fault.divByZero := by
  refine ⟨⟨_, rfl, rfl, rfl⟩, by decide, rfl⟩

theorem toUInt_pred_byte (ch : Int) (h1 : 1 ≤ ch) (h2 : ch ≤ 256) :
    toUInt (ch - 1) % 256 = (ch - 1).toNat := by
  rw [toUInt_of_nonneg_lt (ch - 1) (by omega) (by omega)]
  exact Nat.mod_eq_of_lt (by omega)

theorem headerOf_eq_reference (ch rate bits : Int) (hr : Supported rate) (h1 : 1 ≤ ch)
    (h2 : ch ≤ 256) (hb : bits = 16 ∨ bits = 24) :
    headerOf ch rate bits = referenceHeader ch rate bits := by
  have hch := toUInt_pred_byte ch h1 h2
  rcases hr with h | h | h | h | h | h <;> rcases hb with hb | hb <;> subst h <;> subst hb <;>
    simp [headerOf, referenceHeader, rateSwitch, clpcm_prv, orAt, rateCode, hch]

theorem frameLen_small_ne_zero (ch rate bits : Int) (hr : Supported rate) (h1 : 1 ≤ ch)
    (h2 : ch ≤ 16) (hb : bits = 16 ∨ bits = 24) : frameLen ch rate bits ≠ 0 := by
  have hu := unitLen_supported rate hr
  have hd : (Int.tdiv bits 8).toNat = 2 ∨ (Int.tdiv bits 8).toNat = 3 := by
    rcases hb with hb | hb <;> subst hb <;> decide
  have hc : 1 ≤ ch.toNat ∧ ch.toNat ≤ 16 := by omega
  have hprod : unitLen rate * ch.toNat * (Int.tdiv bits 8).toNat ≤ 160 * 16 * 3 :=
    Nat.mul_le_mul (Nat.mul_le_mul (by omega) hc.2) (by omega)
  rw [frameLen_exact ch rate bits h1 hb (by omega) (by omega)]
  have : 0 < unitLen rate * ch.toNat * (Int.tdiv bits 8).toNat :=
    Nat.mul_pos (Nat.mul_pos (by omega) (by omega)) (by omega)
  omega

/-- C8: for a supported rate, 1 to 16 channels and 16 or 24 bits `prepareClipPlay` returns 0
and leaves the reference header in `lpcm_prv`, with `channelCount - 1` below 16 and six
pairwise distinct rate codes.  For a bit depth other than 16 and 24 every value it returns is
the error 1 of the `default` case; but the division `2016 / SubFrameLen` stands before that
`switch`, so the error is returned only if the sub-frame length is not 0 or the division by
zero yields a value: otherwise the call traps before the check is reached. -/
theorem c8_header_builder (dz : Option Nat) (w : Writer) (ch rate bits : Int) :
    (Supported rate → 1 ≤ ch → ch ≤ 16 → (bits = 16 ∨ bits = 24) →
      ∃ w1, prepareClipPlay dz w ch rate bits = Except.ok (0, w1) ∧
        w1.lpcm_prv = referenceHeader ch rate bits ∧ (ch - 1).toNat < 16) ∧
    ([48000, 96000, 192000, 44100, 88200, 176400].map rateCode = [0x00, 0x10, 0x20, 0x80, 0x90, 0xA0] ∧
      ([48000, 96000, 192000, 44100, 88200, 176400].map rateCode).Nodup) ∧
    (bits ≠ 16 → bits ≠ 24 →
      (∀ r w1, prepareClipPlay dz w ch rate bits = Except.ok (r, w1) → r = 1) ∧
      (frameLen ch rate bits ≠ 0 ∨ dz ≠ none →
        ∃ w1, prepareClipPlay dz w ch rate bits = Except.ok (1, w1))) := by
  refine ⟨?_, ⟨by decide, by decide⟩, ?_⟩
  · intro hr h1 h2 hb
    have hL := frameLen_small_ne_zero ch rate bits hr h1 h2 hb
    have hret : retOf bits = 0 := by rcases hb with hb | hb <;> subst hb <;> rfl
    rw [prepareClipPlay_pos dz w ch rate bits hL, hret]
    exact ⟨_, rfl, headerOf_eq_reference ch rate bits hr h1 (by omega) hb, by omega⟩
  · intro h16 h24
    have hret : retOf bits = 1 := by simp [retOf, h16, h24]
    by_cases hL : frameLen ch rate bits = 0
    · cases dz with
      | none =>
        rw [prepareClipPlay_zero_none w ch rate bits hL]
        exact ⟨fun r w1 h => (by cases h), fun h => (by simp [hL] at h)⟩
      | some q =>
        rw [prepareClipPlay_zero_some q w ch rate bits hL, hret]
        refine ⟨fun r w1 h => ?_, fun _ => ⟨_, rfl⟩⟩
        injection h with h
        injection h with h _
        exact h.symm
    · rw [prepareClipPlay_pos dz w ch rate bits hL, hret]
      refine ⟨fun r w1 h => ?_, fun _ => ⟨_, rfl⟩⟩
      injection h with h
      injection h with h _
      exact h.symm

/-- Witness for `c8_header_builder`: 96000 Hz, 6 channels, 24 bit; and 8 bit at 48000 Hz,
stereo. -/
theorem c8_header_builder_witness :
    (∃ w1, prepareClipPlay none Writer.init 6 96000 24 = Except.ok (0, w1) ∧
        w1.lpcm_prv = referenceHeader 6 96000 24 ∧ ((6 : Int) - 1).toNat < 16) ∧
    (∃ w1, prepareClipPlay none Writer.init 2 48000 8 = Except.ok (1, w1)) :=
  ⟨(c8_header_builder none Writer.init 6 96000 24).1 (by decide) (by decide) (by decide) (by decide),
   ((c8_header_builder none Writer.init 2 48000 8).2.2 (by decide) (by decide)).2 (Or.inl (by decide))⟩

/-- C8 (the code divides before it checks the bit depth): with 8 bits the `default` case of
the `switch (uBitsPerSample)` is reached and `prepareClipPlay` returns the error 1.  With 0
bits `uBitsPerSample / 8` is 0 and so is the sub-frame length; the `switch` would return 1 as
well (it does where the division yields a value), but the division by the sub-frame length
comes first and, where it traps, `prepareClipPlay` returns no error code: it does not
return. -/
theorem c8_no_error_counterexample :
    (∃ w1, prepareClipPlay none Writer.init 2 48000 8 = Except.ok (1, w1)) ∧
    frameLen 2 48000 0 = 0 ∧
    (∃ w1, prepareClipPlay (some 0) Writer.init 2 48000 0 = Except.ok (1, w1)) ∧
    prepareClipPlay none Writer.init 2 48000 0 = Except.error Fault.divByZero ∧
    ¬ ∃ r w1, prepareClipPlay none Writer.init 2 48000 0 = Except.ok (r, w1) := by
  refine ⟨⟨_, rfl⟩, by decide, ⟨_, rfl⟩, rfl, ?_⟩
  rintro ⟨r, w1, h⟩
  cases h

/-! ## The loop of writeData -/

theorem usub_eq (a b : Nat) (hb : b ≤ a) (ha : a < 4294967296) : usub a b = a - b := by
  unfold usub
  rw [Nat.mod_eq_of_lt (show b < 4294967296 by omega)]
  omega

theorem loopBody_tail (env : Env) (c : WriterAVCallData) (buffer : List Nat) (size pos : Nat)
    (s : State) (h : usub size pos < s.w.SubFrameLen) :
    loopBody env c buffer size pos s = (stash buffer size pos s, none) := by
  simp [loopBody, h]

theorem loopBody_fail (env : Env) (c : WriterAVCallData) (buffer : List Nat) (size pos : Nat)
    (s : State) (h : ¬ usub size pos < s.w.SubFrameLen) (hw : env.writev s.out.length < 0) :
    loopBody env c buffer size pos s = (emitPes env c buffer pos s, none) := by
  simp [loopBody, h, hw]

theorem loopBody_emit (env : Env) (c : WriterAVCallData) (buffer : List Nat) (size pos : Nat)
    (s : State) (h : ¬ usub size pos < s.w.SubFrameLen) (hw : ¬ env.writev s.out.length < 0) :
    loopBody env c buffer size pos s = (emitPes env c buffer pos s, some (advance s.w pos)) := by
  simp [loopBody, h, hw]

/-- Either branch of the loop body gives one of two states. -/
theorem loopBody_state (env : Env) (c : WriterAVCallData) (buffer : List Nat) (size pos : Nat)
    (s : State) :
    (usub size pos < s.w.SubFrameLen ∧ (loopBody env c buffer size pos s).1 = stash buffer size pos s) ∨
    (¬ usub size pos < s.w.SubFrameLen ∧ (loopBody env c buffer size pos s).1 = emitPes env c buffer pos s) := by
  by_cases h : usub size pos < s.w.SubFrameLen
  · left; exact ⟨h, by rw [loopBody_tail env c buffer size pos s h]⟩
  · right
    refine ⟨h, ?_⟩
    by_cases hw : env.writev s.out.length < 0
    · rw [loopBody_fail env c buffer size pos s h hw]
    · rw [loopBody_emit env c buffer size pos s h hw]

theorem writeLoop_zero (env : Env) (c : WriterAVCallData) (buffer : List Nat) (size pos : Nat)
    (s : State) : writeLoop env c buffer size 0 pos s = Except.error Fault.outOfFuel := rfl

theorem writeLoop_done (env : Env) (c : WriterAVCallData) (buffer : List Nat) (size fuel pos : Nat)
    (s : State) (h : ¬ pos < size) : writeLoop env c buffer size (fuel + 1) pos s = Except.ok s := by
  simp [writeLoop, h]

theorem writeLoop_break (env : Env) (c : WriterAVCallData) (buffer : List Nat) (size fuel pos : Nat)
    (s s1 : State) (h : pos < size) (hb : loopBody env c buffer size pos s = (s1, none)) :
    writeLoop env c buffer size (fuel + 1) pos s = Except.ok s1 := by
  simp [writeLoop, h, hb]

theorem writeLoop_next (env : Env) (c : WriterAVCallData) (buffer : List Nat) (size fuel pos pos1 : Nat)
    (s s1 : State) (h : pos < size) (hb : loopBody env c buffer size pos s = (s1, some pos1)) :
    writeLoop env c buffer size (fuel + 1) pos s = writeLoop env c buffer size fuel pos1 s1 := by
  simp [writeLoop, h, hb]

/-- A property kept by every pass of the loop body holds when the loop is left. -/
theorem writeLoop_preserves (env : Env) (c : WriterAVCallData) (buffer : List Nat) (size : Nat)
    (P : State → Prop)
    (hP : ∀ pos s, P s → P (loopBody env c buffer size pos s).1) :
    ∀ fuel pos s s1, P s → writeLoop env c buffer size fuel pos s = Except.ok s1 → P s1 := by
  intro fuel
  induction fuel with
  | zero => intro pos s s1 _ h; cases h
  | succ n ih =>
    intro pos s s1 hs h
    by_cases hlt : pos < size
    · have hb := hP pos s hs
      rcases hbody : loopBody env c buffer size pos s with ⟨s2, _ | pos1⟩
      · rw [writeLoop_break env c buffer size n pos s s2 hlt hbody] at h
        injection h with h
        rw [hbody] at hb
        exact h ▸ hb
      · rw [writeLoop_next env c buffer size n pos pos1 s s2 hlt hbody] at h
        rw [hbody] at hb
        exact ih pos1 s2 s1 hb h
    · rw [writeLoop_done env c buffer size n pos s hlt] at h
      injection h with h
      exact h ▸ hs

/-! ## writeData and sequences of calls -/

theorem toUInt_len (len : Int) (h0 : 0 < len) (h1 : len < 2147483648) :
    toUInt len = len.toNat ∧ toInt (toUInt len) = len := by
  have hu : toUInt len = len.toNat := toUInt_of_nonneg_lt len (by omega) (by omega)
  refine ⟨hu, ?_⟩
  rw [hu]
  unfold toInt
  have hlt : len.toNat < 2147483648 := by omega
  rw [Nat.mod_eq_of_lt (show len.toNat < 4294967296 by omega), if_pos hlt]
  omega

theorem writeData_invalid (env : Env) (fuel : Nat) (s : State) (call : Option WriterAVCallData)
    (h : call = none ∨ ∃ c, call = some c ∧ (c.data = none ∨ c.len ≤ 0 ∨ c.fd < 0)) :
    writeData env fuel s call = Except.ok (0, s) := by
  rcases h with h | ⟨c, hc, h⟩
  · subst h; rfl
  · subst hc
    cases hd : c.data with
    | none => simp only [writeData, hd]
    | some buffer =>
      simp only [writeData, hd]
      rcases h with h | h | h
      · rw [hd] at h; cases h
      · rw [if_pos h]
      · by_cases hl : c.len ≤ 0
        · rw [if_pos hl]
        · rw [if_neg hl, if_pos h]

theorem writeData_valid (env : Env) (fuel : Nat) (s : State) (c : WriterAVCallData)
    (buffer : List Nat) (hd : c.data = some buffer) (hl : 0 < c.len) (hf : 0 ≤ c.fd) :
    writeData env fuel s (some c) =
      match initOnce env.divZero s.w c with
      | Except.error e => Except.error e
      | Except.ok w =>
        match writeLoop env c buffer (toUInt c.len) fuel 0 { s with w := w } with
        | Except.error e => Except.error e
        | Except.ok s1 => Except.ok (toInt (toUInt c.len), s1) := by
  unfold writeData
  simp only [hd]
  rw [if_neg (by omega), if_neg (by omega)]

/-- A call of `writeData` either leaves the state alone, or enters the loop at position 0 with
the writer variables `initOnce` yields and returns the state in which the loop ends. -/
theorem writeData_ok_cases (env : Env) (fuel : Nat) (s : State) (call : Option WriterAVCallData)
    (r : Int × State) (h : writeData env fuel s call = Except.ok r) :
    r = (0, s) ∨
    ∃ c buffer w, call = some c ∧ c.data = some buffer ∧ 0 < c.len ∧ 0 ≤ c.fd ∧
      initOnce env.divZero s.w c = Except.ok w ∧
      writeLoop env c buffer (toUInt c.len) fuel 0 { s with w := w } = Except.ok r.2 ∧
      r.1 = toInt (toUInt c.len) := by
  cases call with
  | none => left; injection h with h; exact h.symm
  | some c =>
    cases hd : c.data with
    | none =>
      rw [writeData_invalid env fuel s (some c) (Or.inr ⟨c, rfl, Or.inl hd⟩)] at h
      left; injection h with h; exact h.symm
    | some buffer =>
      by_cases hl : c.len ≤ 0
      · rw [writeData_invalid env fuel s (some c) (Or.inr ⟨c, rfl, Or.inr (Or.inl hl)⟩)] at h
        left; injection h with h; exact h.symm
      · by_cases hf : c.fd < 0
        · rw [writeData_invalid env fuel s (some c) (Or.inr ⟨c, rfl, Or.inr (Or.inr hf)⟩)] at h
          left; injection h with h; exact h.symm
        · right
          rw [writeData_valid env fuel s c buffer hd (by omega) (by omega)] at h
          cases hi : initOnce env.divZero s.w c with
          | error e => rw [hi] at h; cases h
          | ok w =>
            rw [hi] at h
            cases hw : writeLoop env c buffer (toUInt c.len) fuel 0 { s with w := w } with
            | error e => simp only [hw] at h; cases h
            | ok s1 =>
              simp only [hw] at h
              injection h with h
              subst h
              exact ⟨c, buffer, w, rfl, hd, by omega, by omega, hi, hw, rfl⟩

/-- What `prepareClipPlay` leaves behind whenever it returns. -/
theorem prepareClipPlay_ok (dz : Option Nat) (w : Writer) (ch rate bits : Int) (r : Int × Writer)
    (h : prepareClipPlay dz w ch rate bits = Except.ok r) :
    r.1 = retOf bits ∧ r.2.breakBufferFillSize = 0 ∧ r.2.lpcm_prv = headerOf ch rate bits ∧
    r.2.SubFrameLen ≤ 2016 ∧ r.2.initialHeader = w.initialHeader ∧ r.2.breakBuffer = w.breakBuffer ∧
    r.2.SubFrameLen = frameLen ch rate bits * r.2.SubFramesPerPES % 4294967296 := by
  by_cases hL : frameLen ch rate bits = 0
  · cases dz with
    | none => rw [prepareClipPlay_zero_none w ch rate bits hL] at h; cases h
    | some q =>
      rw [prepareClipPlay_zero_some q w ch rate bits hL] at h
      injection h with h
      subst h
      simp [hL]
  · rw [prepareClipPlay_pos dz w ch rate bits hL] at h
    injection h with h
    subst h
    have := Nat.mul_div_le 2016 (frameLen ch rate bits)
    refine ⟨rfl, rfl, rfl, this, rfl, rfl, ?_⟩
    exact (Nat.mod_eq_of_lt (Nat.lt_of_le_of_lt this (by decide))).symm

theorem initOnce_old (dz : Option Nat) (w : Writer) (c : WriterAVCallData)
    (h : w.initialHeader = false) : initOnce dz w c = Except.ok w := by
  simp [initOnce, h]

theorem initOnce_new (dz : Option Nat) (w : Writer) (c : WriterAVCallData)
    (h : w.initialHeader = true) :
    initOnce dz w c =
      match prepareClipPlay dz { w with initialHeader := false }
          c.uNoOfChannels c.uSampleRate c.uBitsPerSample with
      | Except.error e => Except.error e
      | Except.ok r => Except.ok r.2 := by
  simp [initOnce, h]

/-- The writer variables with which the loop is entered: the old ones, or fresh ones. -/
theorem initOnce_ok (dz : Option Nat) (w w1 : Writer) (c : WriterAVCallData)
    (h : initOnce dz w c = Except.ok w1) :
    (w.initialHeader = false ∧ w1 = w) ∨
    (w.initialHeader = true ∧ ∃ r, prepareClipPlay dz { w with initialHeader := false }
        c.uNoOfChannels c.uSampleRate c.uBitsPerSample = Except.ok (r, w1)) := by
  cases hi : w.initialHeader with
  | false =>
    rw [initOnce_old dz w c hi] at h
    injection h with h
    exact Or.inl ⟨rfl, h.symm⟩
  | true =>
    right
    refine ⟨rfl, ?_⟩
    rw [initOnce_new dz w c hi] at h
    cases hp : prepareClipPlay dz { w with initialHeader := false }
        c.uNoOfChannels c.uSampleRate c.uBitsPerSample with
    | error e => rw [hp] at h; cases h
    | ok r =>
      rw [hp] at h
      injection h with h
      exact ⟨r.1, by rw [← h]⟩

/-- A property kept by `writeData` and by `reset` holds after every sequence of operations. -/
theorem run_preserves (env : Env) (fuel : Nat) (P : State → Prop)
    (hw : ∀ s call r, P s → writeData env fuel s call = Except.ok r → P r.2)
    (hr : ∀ s, P s → P (reset s).2) :
    ∀ ops s s1, P s → run env fuel s ops = Except.ok s1 → P s1 := by
  intro ops
  induction ops with
  | nil => intro s s1 hs h; injection h with h; exact h ▸ hs
  | cons op ops ih =>
    intro s s1 hs h
    cases op with
    | reset => exact ih _ s1 (hr s hs) h
    | write call =>
      cases hwd : writeData env fuel s call with
      | error e => simp only [run, hwd] at h; cases h
      | ok r =>
        simp only [run, hwd] at h
        exact ih _ s1 (hw s call r hs hwd) h

/-! ## The carry-over fill count -/

theorem loopBody_fillOk (env : Env) (c : WriterAVCallData) (buffer : List Nat) (size pos : Nat)
    (s : State) : FillOk (loopBody env c buffer size pos s).1.w := by
  rcases loopBody_state env c buffer size pos s with ⟨h, he⟩ | ⟨_, he⟩
  · rw [he]; exact Or.inr h
  · rw [he]; exact Or.inl rfl

theorem initOnce_fillOk (dz : Option Nat) (w w1 : Writer) (c : WriterAVCallData)
    (hw : FillOk w) (h : initOnce dz w c = Except.ok w1) : FillOk w1 := by
  rcases initOnce_ok dz w w1 c h with ⟨_, he⟩ | ⟨_, r, hp⟩
  · rw [he]; exact hw
  · exact Or.inl (prepareClipPlay_ok dz _ _ _ _ _ hp).2.1

theorem writeData_fillOk (env : Env) (fuel : Nat) (s : State) (call : Option WriterAVCallData)
    (r : Int × State) (hs : FillOk s.w) (h : writeData env fuel s call = Except.ok r) :
    FillOk r.2.w := by
  rcases writeData_ok_cases env fuel s call r h with he | ⟨c, buffer, w, _, _, _, _, hi, hl, _⟩
  · rw [he]; exact hs
  · exact writeLoop_preserves env c buffer (toUInt c.len) (fun t => FillOk t.w)
      (fun pos t _ => loopBody_fillOk env c buffer (toUInt c.len) pos t) fuel 0 _ r.2
      (initOnce_fillOk env.divZero s.w w c hs hi) hl

/-- C6 (amended): after any sequence of `writeData` and `reset` calls on a fresh writer the
carry-over fill count is below `SubFrameLen`, the length of one PES region (sub-frame length
times `SubFramesPerPES`), whenever that length is positive, and is 0 when it is 0: a full
region is never left in the carry-over buffer. -/
theorem c6_fill_below_region (env : Env) (fuel : Nat) (ops : List Op) (s : State)
    (h : run env fuel State.init ops = Except.ok s) :
    (0 < s.w.SubFrameLen → s.w.breakBufferFillSize < s.w.SubFrameLen) ∧
    (s.w.SubFrameLen = 0 → s.w.breakBufferFillSize = 0) := by
  have hinv : FillOk s.w :=
    run_preserves env fuel (fun t => FillOk t.w)
      (fun t call r ht hr => writeData_fillOk env fuel t call r ht hr)
      (fun t ht => ht) ops State.init s (Or.inl rfl) h
  rcases hinv with h0 | hlt
  · exact ⟨fun hp => by omega, fun _ => h0⟩
  · exact ⟨fun _ => hlt, fun hz => by omega⟩

/-- Witness for `c6_fill_below_region`: one 3-byte call at 48000 Hz, mono, 16 bit. -/
theorem c6_fill_below_region_witness :
    ∃ s, run env0 3 State.init [Op.write (some (mkCall 1 48000 16 [1, 2, 3]))] = Except.ok s ∧
      (0 < s.w.SubFrameLen → s.w.breakBufferFillSize < s.w.SubFrameLen) ∧
      (s.w.SubFrameLen = 0 → s.w.breakBufferFillSize = 0) :=
  ⟨_, rfl, c6_fill_below_region env0 3 [Op.write (some (mkCall 1 48000 16 [1, 2, 3]))] _ rfl⟩

set_option maxRecDepth 100000 in
/-- C6 as stated fails: at 48000 Hz, mono, 16 bit one sub-frame has `40 * 1 * 2 = 80` bytes; a
first call with 80 bytes leaves all 80 in the carry-over buffer, a full sub-frame. -/
theorem c6_full_subframe_counterexample :
    (writeData env0 2 State.init (some (mkCall 1 48000 16 (List.replicate 80 7)))).toOption.map
        (fun r => (r.2.w.breakBufferFillSize, carry r.2.w, r.2.out))
      = some (80, List.replicate 80 7, []) ∧
    frameLen 1 48000 16 = 40 * 1 * (16 / 8) ∧ ¬ (80 < 40 * 1 * (16 / 8)) := by
  decide

/-! ## The sub-frame counter -/

theorem rateSwitch_length (rate : Int) : (rateSwitch clpcm_prv rate).1.length = 14 := by
  unfold rateSwitch
  split_ifs <;> simp [clpcm_prv, orAt]

theorem rateSwitch_counter (rate : Int) : (rateSwitch clpcm_prv rate).1.getD 1 0 = 0 := by
  unfold rateSwitch
  split_ifs <;> simp [clpcm_prv, orAt]

theorem headerOf_length (ch rate bits : Int) : (headerOf ch rate bits).length = 14 := by
  unfold headerOf
  split_ifs <;> simp [orAt, rateSwitch_length]

theorem headerOf_counter (ch rate bits : Int) : counter (headerOf ch rate bits) = 0 := by
  have h := rateSwitch_counter rate
  unfold headerOf counter
  split_ifs <;> simp [orAt, List.getD_eq_getElem?_getD, List.getElem?_set] at h ⊢ <;> exact h

theorem land_31 (x : Nat) : (x % 4294967296) &&& 0x1F = x % 32 := by
  have h := Nat.and_pow_two_sub_one_eq_mod (x % 4294967296) 5
  have h2 : x % 4294967296 % 32 = x % 32 := Nat.mod_mod_of_dvd x (by decide)
  simpa [h2] using h

theorem nextCounter_length (w : Writer) : (nextCounter w).length = w.lpcm_prv.length := by
  simp [nextCounter]

theorem nextCounter_counter (w : Writer) (h : w.lpcm_prv.length = 14) :
    counter (nextCounter w) = (counter w.lpcm_prv + w.SubFramesPerPES) % 32 := by
  unfold nextCounter counter
  rw [land_31]
  simp [List.getD_eq_getElem?_getD, List.getElem?_set, h]

theorem loopBody_counterInv (env : Env) (c : WriterAVCallData) (buffer : List Nat)
    (size pos n0 : Nat) (s : State) (hs : CounterInv n0 s) :
    CounterInv n0 (loopBody env c buffer size pos s).1 := by
  obtain ⟨hlen, hn0, hctr, hout⟩ := hs
  rcases loopBody_state env c buffer size pos s with ⟨_, he⟩ | ⟨_, he⟩
  · rw [he]; exact ⟨hlen, hn0, hctr, hout⟩
  · rw [he]
    have hnew : counter (nextCounter s.w)
        = ((s.out.length + 1 - n0) * s.w.SubFramesPerPES) % 32 := by
      rw [nextCounter_counter s.w hlen, hctr]
      have : s.out.length + 1 - n0 = (s.out.length - n0) + 1 := by omega
      rw [this, Nat.add_mul, Nat.one_mul, Nat.mod_add_mod]
    have hout1 : (emitPes env c buffer pos s).out.length = s.out.length + 1 := by
      simp [emitPes]
    have hprv1 : (emitPes env c buffer pos s).w.lpcm_prv = nextCounter s.w := rfl
    have hper1 : (emitPes env c buffer pos s).w.SubFramesPerPES = s.w.SubFramesPerPES := rfl
    refine ⟨?_, ?_, ?_, ?_⟩
    · rw [hprv1, nextCounter_length, hlen]
    · rw [hout1]; omega
    · rw [hprv1, hout1, hper1, hnew]
    · intro i p hp
      rw [hper1]
      by_cases hi : n0 + i < s.out.length
      · have hp1 : s.out[n0 + i]? = some p := by
          have : (emitPes env c buffer pos s).out = s.out ++ [_] := rfl
          rw [this, List.getElem?_append_left hi] at hp
          exact hp
        exact hout i p hp1
      · have hlt : n0 + i < (emitPes env c buffer pos s).out.length := by
          by_contra hge
          rw [List.getElem?_eq_none (by omega)] at hp
          cases hp
        have hidx : n0 + i = s.out.length := by omega
        have hp1 : p.prv = nextCounter s.w := by
          have : (emitPes env c buffer pos s).out = s.out ++ [_] := rfl
          rw [this, hidx, List.getElem?_append_right (Nat.le_refl _)] at hp
          simp at hp
          rw [← hp]
          rfl
        rw [hp1, hnew]
        have : s.out.length + 1 - n0 = i + 1 := by omega
        rw [this]

/-- A property kept by `writeData` holds after every sequence of `writeData` calls. -/
theorem run_writes_preserves (env : Env) (fuel : Nat) (P : State → Prop)
    (hw : ∀ s call r, P s → writeData env fuel s call = Except.ok r → P r.2) :
    ∀ (calls : List (Option WriterAVCallData)) s s1, P s →
      run env fuel s (calls.map Op.write) = Except.ok s1 → P s1 := by
  intro calls
  induction calls with
  | nil => intro s s1 hs h; injection h with h; exact h ▸ hs
  | cons call calls ih =>
    intro s s1 hs h
    cases hwd : writeData env fuel s call with
    | error e => simp only [List.map, run, hwd] at h; cases h
    | ok r =>
      simp only [List.map, run, hwd] at h
      exact ih _ s1 (hw s call r hs hwd) h

theorem loopBody_initialHeader (env : Env) (c : WriterAVCallData) (buffer : List Nat)
    (size pos : Nat) (s : State) :
    (loopBody env c buffer size pos s).1.w.initialHeader = s.w.initialHeader := by
  rcases loopBody_state env c buffer size pos s with ⟨_, he⟩ | ⟨_, he⟩ <;> rw [he] <;> rfl

theorem writeData_session (env : Env) (fuel : Nat) (out0 : List Pes) (s : State)
    (call : Option WriterAVCallData) (r : Int × State)
    (hs : (s.w.initialHeader = true ∧ s.out = out0) ∨
          (s.w.initialHeader = false ∧ CounterInv out0.length s))
    (h : writeData env fuel s call = Except.ok r) :
    (r.2.w.initialHeader = true ∧ r.2.out = out0) ∨
    (r.2.w.initialHeader = false ∧ CounterInv out0.length r.2) := by
  rcases writeData_ok_cases env fuel s call r h with he | ⟨c, buffer, w, _, _, _, _, hi, hl, _⟩
  · rw [he]; exact hs
  · right
    have hentry : w.initialHeader = false ∧ CounterInv out0.length { s with w := w } := by
      rcases initOnce_ok env.divZero s.w w c hi with ⟨hf, he⟩ | ⟨ht, r0, hp⟩
      · rcases hs with ⟨ht, _⟩ | ⟨_, hc⟩
        · rw [ht] at hf; cases hf
        · subst he; exact ⟨hf, hc⟩
      · rcases hs with ⟨_, ho⟩ | ⟨hf, _⟩
        · obtain ⟨_, _, hprv, _, hih, _, _⟩ := prepareClipPlay_ok env.divZero _ _ _ _ _ hp
          refine ⟨hih, ?_, ?_, ?_, ?_⟩
          · show w.lpcm_prv.length = 14
            rw [hprv]; exact headerOf_length _ _ _
          · show out0.length ≤ s.out.length
            rw [ho]
          · show counter w.lpcm_prv = (s.out.length - out0.length) * w.SubFramesPerPES % 32
            rw [hprv, headerOf_counter, ho]; simp
          · intro i p hp1
            change s.out[out0.length + i]? = some p at hp1
            rw [ho, List.getElem?_eq_none (by omega)] at hp1
            cases hp1
        · rw [ht] at hf; cases hf
    exact writeLoop_preserves env c buffer (toUInt c.len)
      (fun t => t.w.initialHeader = false ∧ CounterInv out0.length t)
      (fun pos t ht => ⟨by rw [loopBody_initialHeader]; exact ht.1,
        loopBody_counterInv env c buffer (toUInt c.len) pos out0.length t ht.2⟩)
      fuel 0 _ r.2 hentry hl

/-- C4: in any sequence of `writeData` calls that starts with `initialHeader` set, once the
writer is initialized the counter byte `lpcm_prv[1]` is `(k * SubFramesPerPES) % 32`, where `k`
is the number of PES handed to `writev` since then; it is below 32; and the `(i + 1)`-th of
these PES carries `((i + 1) * SubFramesPerPES) % 32` in byte 1 of its private header. -/
theorem c4_counter_mod_32 (env : Env) (fuel : Nat) (s0 : State)
    (calls : List (Option WriterAVCallData)) (s : State)
    (h0 : s0.w.initialHeader = true)
    (h : run env fuel s0 (calls.map Op.write) = Except.ok s)
    (hi : s.w.initialHeader = false) :
    s0.out.length ≤ s.out.length ∧
    counter s.w.lpcm_prv = ((s.out.length - s0.out.length) * s.w.SubFramesPerPES) % 32 ∧
    counter s.w.lpcm_prv < 32 ∧
    ∀ i p, s.out[s0.out.length + i]? = some p →
      counter p.prv = ((i + 1) * s.w.SubFramesPerPES) % 32 ∧ counter p.prv < 32 := by
  have hinv := run_writes_preserves env fuel
    (fun t => (t.w.initialHeader = true ∧ t.out = s0.out) ∨
      (t.w.initialHeader = false ∧ CounterInv s0.out.length t))
    (fun t call r ht hr => writeData_session env fuel s0.out t call r ht hr)
    calls s0 s (Or.inl ⟨h0, rfl⟩) h
  rcases hinv with ⟨ht, _⟩ | ⟨_, _, hn0, hctr, hout⟩
  · rw [ht] at hi; cases hi
  · refine ⟨hn0, hctr, ?_, fun i p hp => ⟨hout i p hp, ?_⟩⟩
    · rw [hctr]; exact Nat.mod_lt _ (by decide)
    · rw [hout i p hp]; exact Nat.mod_lt _ (by decide)

/-! ## Whole regions: termination and the number of PES -/

theorem swapAt_length (b : List Nat) (n : Nat) : (swapAt b n).length = b.length := by
  simp [swapAt]

theorem permuteAt_length (b : List Nat) (n : Nat) : (permuteAt b n).length = b.length := by
  simp [permuteAt]

theorem swapLoop_length (len : Nat) : ∀ fuel n b, (swapLoop fuel len n b).length = b.length := by
  intro fuel
  induction fuel with
  | zero => intro n b; rfl
  | succ k ih =>
    intro n b
    unfold swapLoop
    split_ifs
    · rw [ih, swapAt_length]
    · rfl

theorem permuteLoop_length (len : Nat) : ∀ fuel n b, (permuteLoop fuel len n b).length = b.length := by
  intro fuel
  induction fuel with
  | zero => intro n b; rfl
  | succ k ih =>
    intro n b
    unfold permuteLoop
    split_ifs
    · rw [ih, permuteAt_length]
    · rfl

theorem reorder_length (bits : Int) (len : Nat) (b : List Nat) : (reorder bits len b).length = b.length := by
  unfold reorder
  split_ifs
  · exact swapLoop_length len len 0 b
  · exact permuteLoop_length len len 0 b

theorem assemble_length (w : Writer) (buffer : List Nat) (pos : Nat)
    (hR : w.SubFrameLen < 4294967296) (hf : FillOk w)
    (hb : w.breakBufferFillSize ≤ w.breakBuffer.length)
    (hpos : pos + (w.SubFrameLen - w.breakBufferFillSize) ≤ buffer.length) :
    (assemble w buffer pos).length = w.SubFrameLen := by
  unfold assemble
  by_cases h0 : w.breakBufferFillSize > 0
  · have hlt : w.breakBufferFillSize < w.SubFrameLen := by
      rcases hf with h | h
      · omega
      · exact h
    rw [if_pos h0, usub_eq _ _ (by omega) hR]
    simp only [List.length_append, List.length_take, List.length_drop]
    omega
  · rw [if_neg h0]
    simp only [List.length_take, List.length_drop]
    omega

theorem advance_eq (w : Writer) (pos size : Nat) (hsize : size < 4294967296)
    (hR : w.SubFrameLen < 4294967296) (hf : FillOk w)
    (hpos : pos + w.SubFrameLen ≤ size) :
    advance w pos = pos + (w.SubFrameLen - w.breakBufferFillSize) := by
  unfold advance
  by_cases h0 : w.breakBufferFillSize > 0
  · have hlt : w.breakBufferFillSize < w.SubFrameLen := by
      rcases hf with h | h
      · omega
      · exact h
    rw [if_pos h0, usub_eq _ _ (by omega) hR]
    exact Nat.mod_eq_of_lt (by omega)
  · rw [if_neg h0]
    have : w.breakBufferFillSize = 0 := by omega
    rw [this]
    exact Nat.mod_eq_of_lt (by omega)

theorem emitPes_out (env : Env) (c : WriterAVCallData) (buffer : List Nat) (pos : Nat) (s : State) :
    (emitPes env c buffer pos s).out = s.out ++ [pesAt env c buffer pos s] := rfl

/-- With a positive region length the loop ends: `size - pos + 1` passes are enough. -/
theorem writeLoop_terminates (env : Env) (c : WriterAVCallData) (buffer : List Nat) (size : Nat)
    (hsize : size < 4294967296) :
    ∀ fuel pos s, 0 < s.w.SubFrameLen → s.w.SubFrameLen < 4294967296 → FillOk s.w →
      pos ≤ size → size - pos < fuel → ∃ s1, writeLoop env c buffer size fuel pos s = Except.ok s1 := by
  intro fuel
  induction fuel with
  | zero => intro pos s _ _ _ _ h; omega
  | succ n ih =>
    intro pos s hR hR32 hf hpos hfuel
    by_cases hlt : pos < size
    · have hus : usub size pos = size - pos := usub_eq size pos (by omega) hsize
      by_cases ht : usub size pos < s.w.SubFrameLen
      · exact ⟨_, writeLoop_break env c buffer size n pos s _ hlt (loopBody_tail env c buffer size pos s ht)⟩
      · by_cases hw : env.writev s.out.length < 0
        · exact ⟨_, writeLoop_break env c buffer size n pos s _ hlt (loopBody_fail env c buffer size pos s ht hw)⟩
        · rw [writeLoop_next env c buffer size n pos _ s _ hlt (loopBody_emit env c buffer size pos s ht hw)]
          have hadv := advance_eq s.w pos size hsize hR32 hf (by omega)
          have hlt2 : s.w.breakBufferFillSize < s.w.SubFrameLen := by
            rcases hf with h | h
            · omega
            · exact h
          apply ih
          · exact hR
          · exact hR32
          · exact Or.inl rfl
          · rw [hadv]; omega
          · rw [hadv]; omega
    · exact ⟨s, writeLoop_done env c buffer size n pos s hlt⟩

theorem initOnce_sound (dz : Option Nat) (w w1 : Writer) (c : WriterAVCallData)
    (hw : w.Sound) (h : initOnce dz w c = Except.ok w1) : w1.Sound := by
  rcases initOnce_ok dz w w1 c h with ⟨_, he⟩ | ⟨_, r, hp⟩
  · rw [he]; exact hw
  · obtain ⟨_, hfill, _, hle, _, hbb, _⟩ := prepareClipPlay_ok dz _ _ _ _ _ hp
    exact ⟨hle, Or.inl hfill, by rw [hbb]; exact hw.2.2⟩

/-- From a position with an empty carry-over, `j` whole regions and a tail of `t` bytes ahead,
and every write succeeding, the loop hands `j` regions of `SubFrameLen` bytes to `writev` and
ends with `t` bytes carried over. -/
theorem writeLoop_regions (env : Env) (c : WriterAVCallData) (buffer : List Nat) (size : Nat)
    (hsize : size < 4294967296) (hbuf : buffer.length = size) (hw : ∀ n, 0 ≤ env.writev n) :
    ∀ j fuel pos s t, s.w.breakBufferFillSize = 0 → 0 < s.w.SubFrameLen →
      s.w.SubFrameLen < 4294967296 → pos + j * s.w.SubFrameLen + t = size → t < s.w.SubFrameLen →
      j < fuel →
      ∃ s1 ps, writeLoop env c buffer size fuel pos s = Except.ok s1 ∧ s1.out = s.out ++ ps ∧
        ps.length = j ∧ (∀ p ∈ ps, p.payload.length = s.w.SubFrameLen) ∧
        s1.w.breakBufferFillSize = t ∧ s1.w.SubFrameLen = s.w.SubFrameLen ∧
        s1.w.SubFramesPerPES = s.w.SubFramesPerPES := by
  intro j
  induction j with
  | zero =>
    intro fuel pos s t hf hR hR32 hsum ht hfuel
    obtain ⟨n, rfl⟩ : ∃ n, fuel = n + 1 := ⟨fuel - 1, by omega⟩
    by_cases hlt : pos < size
    · have hus : usub size pos = t := by rw [usub_eq size pos (by omega) hsize]; omega
      have htail : usub size pos < s.w.SubFrameLen := by rw [hus]; exact ht
      refine ⟨_, [], writeLoop_break env c buffer size n pos s _ hlt
        (loopBody_tail env c buffer size pos s htail), by simp [stash], rfl, by simp, ?_, rfl, rfl⟩
      show usub size pos = t
      exact hus
    · refine ⟨s, [], writeLoop_done env c buffer size n pos s hlt, by simp, rfl, by simp, ?_, rfl, rfl⟩
      rw [hf]; omega
  | succ j ih =>
    intro fuel pos s t hf hR hR32 hsum ht hfuel
    obtain ⟨n, rfl⟩ : ∃ n, fuel = n + 1 := ⟨fuel - 1, by omega⟩
    have hge : pos + s.w.SubFrameLen ≤ size := by
      have : (j + 1) * s.w.SubFrameLen = j * s.w.SubFrameLen + s.w.SubFrameLen := by ring
      omega
    have hlt : pos < size := by omega
    have hnt : ¬ usub size pos < s.w.SubFrameLen := by
      rw [usub_eq size pos (by omega) hsize]; omega
    have hwr : ¬ env.writev s.out.length < 0 := by have := hw s.out.length; omega
    have hadv : advance s.w pos = pos + s.w.SubFrameLen := by
      rw [advance_eq s.w pos size hsize hR32 (Or.inl hf) hge, hf]; rfl
    rw [writeLoop_next env c buffer size n pos _ s _ hlt (loopBody_emit env c buffer size pos s hnt hwr), hadv]
    have hsum2 : pos + s.w.SubFrameLen + j * (emitPes env c buffer pos s).w.SubFrameLen + t = size := by
      show pos + s.w.SubFrameLen + j * s.w.SubFrameLen + t = size
      have : (j + 1) * s.w.SubFrameLen = j * s.w.SubFrameLen + s.w.SubFrameLen := by ring
      omega
    obtain ⟨s1, ps, hloop, hout, hlen, hpay, hfill, hR1, hS1⟩ :=
      ih n (pos + s.w.SubFrameLen) (emitPes env c buffer pos s) t rfl hR hR32 hsum2 ht (by omega)
    refine ⟨s1, pesAt env c buffer pos s :: ps, hloop, ?_, by simp [hlen], ?_, hfill, hR1, hS1⟩
    · rw [hout, emitPes_out]; simp
    · intro p hp
      rcases List.mem_cons.mp hp with h | h
      · rw [h]
        show (reorder _ _ _).length = _
        rw [reorder_length]
        exact assemble_length s.w buffer pos hR32 (Or.inl hf) (by rw [hf]; omega)
          (by rw [hf, hbuf]; omega)
      · exact hpay p h

/-- C3 (amended): for a valid call whose length is `k` times the region length `SubFrameLen`
in force when the loop is entered (`SubFramesPerPES` sub-frames, at most 2016 bytes), with
every write succeeding, `writeData` returns the length, hands exactly `k = size / SubFrameLen`
PES to `writev`, each with a payload of `SubFrameLen` bytes (so `size / L` sub-frames in all
when `SubFrameLen = L * SubFramesPerPES`), and leaves the carry-over fill count as it found
it: empty if it was empty on entry. -/
theorem c3_whole_regions (env : Env) (fuel : Nat) (s : State) (c : WriterAVCallData)
    (buffer : List Nat) (w : Writer) (k : Nat)
    (hs : s.w.Sound) (hv : ValidCall c buffer)
    (hi : initOnce env.divZero s.w c = Except.ok w) (hR : 0 < w.SubFrameLen)
    (hk : buffer.length = k * w.SubFrameLen) (hw : ∀ n, 0 ≤ env.writev n) (hfuel : k < fuel) :
    ∃ s1 ps, writeData env fuel s (some c) = Except.ok (c.len, s1) ∧
      s1.out = s.out ++ ps ∧ ps.length = k ∧ k = buffer.length / w.SubFrameLen ∧
      (∀ p ∈ ps, p.payload.length = w.SubFrameLen) ∧
      s1.w.breakBufferFillSize = w.breakBufferFillSize ∧
      (∀ L, 0 < L → w.SubFrameLen = L * w.SubFramesPerPES →
        ps.length * w.SubFramesPerPES = buffer.length / L) := by
  obtain ⟨hd, hl0, hl1, hbl, hfd⟩ := hv
  obtain ⟨hu, hti⟩ := toUInt_len c.len hl0 hl1
  have hsz : toUInt c.len = buffer.length := by rw [hu]; omega
  obtain ⟨hle, hfo, hbb⟩ := initOnce_sound env.divZero s.w w c hs hi
  have hR32 : w.SubFrameLen < 4294967296 := by omega
  have hsize : buffer.length < 4294967296 := by omega
  have hflt : w.breakBufferFillSize < w.SubFrameLen := by
    rcases hfo with h | h
    · omega
    · exact h
  have hkdiv : k = buffer.length / w.SubFrameLen := by
    rw [hk, Nat.mul_div_cancel k hR]
  have hsub : ∀ L, 0 < L → w.SubFrameLen = L * w.SubFramesPerPES →
      k * w.SubFramesPerPES = buffer.length / L := by
    intro L hL hRL
    have : buffer.length = (k * w.SubFramesPerPES) * L := by rw [hk, hRL]; ring
    rw [this, Nat.mul_div_cancel _ hL]
  rw [writeData_valid env fuel s c buffer hd hl0 hfd, hi, hti, hsz]
  have key : ∃ s1 ps, writeLoop env c buffer buffer.length fuel 0 { s with w := w } = Except.ok s1 ∧
      s1.out = s.out ++ ps ∧ ps.length = k ∧ (∀ p ∈ ps, p.payload.length = w.SubFrameLen) ∧
      s1.w.breakBufferFillSize = w.breakBufferFillSize := by
    by_cases hf0 : w.breakBufferFillSize = 0
    · obtain ⟨s1, ps, h1, h2, h3, h4, h5, _, _⟩ :=
        writeLoop_regions env c buffer buffer.length hsize rfl hw k fuel 0 { s with w := w } 0
          hf0 hR hR32 (by show 0 + k * w.SubFrameLen + 0 = buffer.length; omega) hR hfuel
      exact ⟨s1, ps, h1, h2, h3, h4, by rw [h5, hf0]⟩
    · obtain ⟨n, rfl⟩ : ∃ n, fuel = n + 1 := ⟨fuel - 1, by omega⟩
      obtain ⟨j, rfl⟩ : ∃ j, k = j + 1 := by
        refine ⟨k - 1, ?_⟩
        have : k ≠ 0 := by
          intro h0
          rw [h0, Nat.zero_mul] at hk
          omega
        omega
      have hexp : (j + 1) * w.SubFrameLen = j * w.SubFrameLen + w.SubFrameLen := by ring
      have hlt : 0 < buffer.length := by omega
      have hnt : ¬ usub buffer.length 0 < ({ s with w := w } : State).w.SubFrameLen := by
        rw [usub_eq buffer.length 0 (by omega) hsize]
        show ¬ buffer.length - 0 < w.SubFrameLen
        omega
      have hwr : ¬ env.writev ({ s with w := w } : State).out.length < 0 := by
        have := hw ({ s with w := w } : State).out.length; omega
      have hadv : advance w 0 = 0 + (w.SubFrameLen - w.breakBufferFillSize) :=
        advance_eq w 0 buffer.length hsize hR32 hfo (by omega)
      rw [writeLoop_next env c buffer buffer.length n 0 _ { s with w := w } _ hlt
        (loopBody_emit env c buffer buffer.length 0 { s with w := w } hnt hwr)]
      change ∃ s1 ps, writeLoop env c buffer buffer.length n (advance w 0)
        (emitPes env c buffer 0 { s with w := w }) = Except.ok s1 ∧ _
      rw [hadv]
      obtain ⟨s1, ps, h1, h2, h3, h4, h5, _, _⟩ :=
        writeLoop_regions env c buffer buffer.length hsize rfl hw j n
          (0 + (w.SubFrameLen - w.breakBufferFillSize)) (emitPes env c buffer 0 { s with w := w })
          w.breakBufferFillSize rfl hR hR32
          (by show 0 + (w.SubFrameLen - w.breakBufferFillSize) + j * w.SubFrameLen
                + w.breakBufferFillSize = buffer.length
              omega)
          hflt (by omega)
      refine ⟨s1, pesAt env c buffer 0 { s with w := w } :: ps, h1, ?_, by simp [h3], ?_, h5⟩
      · rw [h2, emitPes_out]; simp
      · intro p hp
        rcases List.mem_cons.mp hp with h | h
        · rw [h]
          show (reorder _ _ _).length = _
          rw [reorder_length]
          exact assemble_length w buffer 0 hR32 hfo (by omega) (by omega)
        · exact h4 p h
  obtain ⟨s1, ps, h1, h2, h3, h4, h5⟩ := key
  refine ⟨s1, ps, by simp only [h1], h2, h3, hkdiv, h4, h5, ?_⟩
  rw [h3]
  exact hsub

/-- Witness for `c3_whole_regions`: a fresh writer at 48000 Hz, mono, 16 bit (a region of 2000
bytes, 25 sub-frames of 80) and a call with 2000 bytes. -/
theorem c3_whole_regions_witness :
    ∃ s1 ps, writeData env0 2 State.init (some (mkCall 1 48000 16 (List.replicate 2000 7)))
        = Except.ok ((mkCall 1 48000 16 (List.replicate 2000 7)).len, s1) ∧
      s1.out = State.init.out ++ ps ∧ ps.length = 1 ∧
      1 = (List.replicate 2000 7).length / monoWriter.SubFrameLen ∧
      (∀ p ∈ ps, p.payload.length = monoWriter.SubFrameLen) ∧
      s1.w.breakBufferFillSize = monoWriter.breakBufferFillSize ∧
      (∀ L, 0 < L → monoWriter.SubFrameLen = L * monoWriter.SubFramesPerPES →
        ps.length * monoWriter.SubFramesPerPES = (List.replicate 2000 7).length / L) :=
  c3_whole_regions env0 2 State.init (mkCall 1 48000 16 (List.replicate 2000 7))
    (List.replicate 2000 7) monoWriter 1
    ⟨by decide, Or.inl rfl, List.length_replicate _ _⟩
    ⟨rfl, by simp only [mkCall, List.length_replicate]; decide,
      by simp only [mkCall, List.length_replicate]; decide, rfl, by decide⟩
    rfl (by decide) (List.length_replicate _ _) (fun _ => Int.le_refl 0) (by decide)

set_option maxRecDepth 100000 in
/-- C3 as stated fails: at 48000 Hz, stereo, 16 bit one sub-frame has `40 * 2 * 2 = 160` bytes;
a first call with 160 bytes, a multiple of that, hands nothing to `writev` and leaves all 160
bytes in the carry-over buffer. -/
theorem c3_one_subframe_counterexample :
    (writeData env0 2 State.init (some (mkCall 2 48000 16 (List.replicate 160 7)))).toOption.map
        (fun r => (r.1, r.2.out.length, r.2.w.breakBufferFillSize)) = some (160, 0, 160) ∧
    frameLen 2 48000 16 = 40 * 2 * (16 / 8) ∧ 160 % (40 * 2 * (16 / 8)) = 0 ∧
    160 / (40 * 2 * (16 / 8)) = 1 := by
  decide

/-! ## The entry checks, the return value and the degenerate geometry -/

/-- With `SubFrameLen = 0`, an empty carry-over and every write succeeding, a pass of the loop
leaves `pos` where it was: the loop never ends. -/
theorem writeLoop_zero_diverges (env : Env) (c : WriterAVCallData) (buffer : List Nat) (size : Nat)
    (hsize : size < 4294967296) (hw : ∀ n, 0 ≤ env.writev n) :
    ∀ fuel pos s, s.w.SubFrameLen = 0 → s.w.breakBufferFillSize = 0 → pos < size →
      writeLoop env c buffer size fuel pos s = Except.error Fault.outOfFuel := by
  intro fuel
  induction fuel with
  | zero => intro pos s _ _ _; rfl
  | succ n ih =>
    intro pos s hR hf hlt
    have hnt : ¬ usub size pos < s.w.SubFrameLen := by rw [hR]; omega
    have hwr : ¬ env.writev s.out.length < 0 := by have := hw s.out.length; omega
    have hadv : advance s.w pos = pos := by
      unfold advance
      rw [if_neg (by omega), hR]
      exact Nat.mod_eq_of_lt (by omega)
    rw [writeLoop_next env c buffer size n pos _ s _ hlt (loopBody_emit env c buffer size pos s hnt hwr),
      hadv]
    exact ih pos (emitPes env c buffer pos s) hR rfl hlt

/-- C7 (amended): `writeData` returns 0 and leaves the whole state, the record of writes
included, as it was when the call record is null, its data is null, its length is not
positive or its descriptor is negative; for every other call each value it returns is the
caller-supplied length, and it does return it whenever the region length in force when the
loop is entered is positive (more than `len` passes of the loop are never needed). -/
theorem c7_entry_and_return (env : Env) (fuel : Nat) (s : State) (call : Option WriterAVCallData) :
    ((call = none ∨ ∃ c, call = some c ∧ (c.data = none ∨ c.len ≤ 0 ∨ c.fd < 0)) →
      writeData env fuel s call = Except.ok (0, s)) ∧
    (∀ c buffer, call = some c → ValidCall c buffer →
      ∀ r s1, writeData env fuel s call = Except.ok (r, s1) → r = c.len) ∧
    (∀ c buffer w, call = some c → ValidCall c buffer → s.w.Sound →
      initOnce env.divZero s.w c = Except.ok w → 0 < w.SubFrameLen → c.len.toNat < fuel →
      ∃ s1, writeData env fuel s call = Except.ok (c.len, s1)) := by
  refine ⟨writeData_invalid env fuel s call, ?_, ?_⟩
  · rintro c buffer rfl ⟨hd, hl0, hl1, _, hfd⟩ r s1 h
    obtain ⟨_, hti⟩ := toUInt_len c.len hl0 hl1
    rcases writeData_ok_cases env fuel s (some c) (r, s1) h with he | ⟨c1, _, _, hc, _, _, _, _, _, hr⟩
    · exfalso
      rw [writeData_valid env fuel s c buffer hd hl0 hfd] at h
      cases hi : initOnce env.divZero s.w c with
      | error e => rw [hi] at h; cases h
      | ok w =>
        rw [hi] at h
        cases hw : writeLoop env c buffer (toUInt c.len) fuel 0 { s with w := w } with
        | error e => simp only [hw] at h; cases h
        | ok s2 =>
          simp only [hw, hti] at h
          injection h with h
          injection h with h _
          injection he with he _
          omega
    · injection hc with hc
      subst hc
      rw [← hti]
      exact hr
  · rintro c buffer w rfl ⟨hd, hl0, hl1, hbl, hfd⟩ hs hi hR hfuel
    obtain ⟨hu, hti⟩ := toUInt_len c.len hl0 hl1
    obtain ⟨hle, hfo, _⟩ := initOnce_sound env.divZero s.w w c hs hi
    obtain ⟨s1, h1⟩ := writeLoop_terminates env c buffer (toUInt c.len) (by rw [hu]; omega) fuel 0
      { s with w := w } hR (by show w.SubFrameLen < 4294967296; omega) hfo (Nat.zero_le _)
      (by rw [hu]; omega)
    refine ⟨s1, ?_⟩
    rw [writeData_valid env fuel s c buffer hd hl0 hfd, hi]
    simp only [h1, hti]

/-- Witness for `c7_entry_and_return`: a null call record, and a 3-byte call on a fresh
writer. -/
theorem c7_entry_and_return_witness :
    writeData env0 4 State.init none = Except.ok (0, State.init) ∧
    (∃ s1, writeData env0 4 State.init (some (mkCall 1 48000 16 [1, 2, 3]))
      = Except.ok ((mkCall 1 48000 16 [1, 2, 3]).len, s1)) :=
  ⟨(c7_entry_and_return env0 4 State.init none).1 (Or.inl rfl),
   (c7_entry_and_return env0 4 State.init (some (mkCall 1 48000 16 [1, 2, 3]))).2.2
      (mkCall 1 48000 16 [1, 2, 3]) [1, 2, 3] monoWriter rfl
      ⟨rfl, by decide, by decide, rfl, by decide⟩
      ⟨by decide, Or.inl rfl, List.length_replicate _ _⟩ rfl (by decide) (by decide)⟩

/-- C7 as stated fails: at 192000 Hz with 8 channels of 16 bit a sub-frame has 2560 bytes, more
than the 2016 a PES can take, so `SubFramesPerPES` and `SubFrameLen` are 0; a first call with
one byte, every write succeeding, then never returns: no amount of fuel yields a result. -/
theorem c7_never_returns_counterexample :
    ¬ ∃ fuel r, writeData env0 fuel State.init (some (mkCall 8 192000 16 [1])) = Except.ok r := by
  rintro ⟨fuel, r, h⟩
  have hi : initOnce env0.divZero State.init.w (mkCall 8 192000 16 [1])
      = Except.ok { Writer.init with initialHeader := false, lpcm_prv := headerOf 8 192000 16 } := rfl
  rw [writeData_valid env0 fuel State.init (mkCall 8 192000 16 [1]) [1] rfl (by decide) (by decide),
    hi] at h
  have hd := writeLoop_zero_diverges env0 (mkCall 8 192000 16 [1]) [1]
    (toUInt (mkCall 8 192000 16 [1]).len) (by decide) (fun _ => Int.le_refl 0) fuel 0
    { State.init with w := { Writer.init with initialHeader := false, lpcm_prv := headerOf 8 192000 16 } }
    rfl rfl (by decide)
  simp only [hd] at h
  cases h

theorem reorder_zero (bits : Int) (b : List Nat) : reorder bits 0 b = b := by
  unfold reorder
  split_ifs <;> rfl

/-- C9 (amended): for a sample rate outside the six supported ones the sub-frame length that
`prepareClipPlay` divides by is 0.  Where that division traps, initialization does not
complete; where it yields a value `q`, `prepareClipPlay` returns with `SubFrameLen = 0`,
`SubFramesPerPES = q` and an empty carry-over, and `writeData` goes on with this geometry: it
enters the loop, and the first pass hands a PES with an empty payload to `writev` and leaves
the read position at 0 when the write succeeds. -/
theorem c9_unsupported_rate (rate : Int) (hr : ¬ Supported rate) :
    (∀ ch bits, frameLen ch rate bits = 0) ∧
    (∀ w ch bits, prepareClipPlay none w ch rate bits = Except.error Fault.divByZero) ∧
    (∀ q w ch bits, ∃ w1, prepareClipPlay (some q) w ch rate bits = Except.ok (retOf bits, w1) ∧
      w1.SubFrameLen = 0 ∧ w1.SubFramesPerPES = q % 4294967296 ∧ w1.breakBufferFillSize = 0) ∧
    (∀ (env : Env) (fuel : Nat) (s : State) (c : WriterAVCallData) (buffer : List Nat) (q : Nat),
      env.divZero = some q → s.w.initialHeader = true → ValidCall c buffer → c.uSampleRate = rate →
      ∃ w1, initOnce env.divZero s.w c = Except.ok w1 ∧ w1.SubFrameLen = 0 ∧
        w1.breakBufferFillSize = 0 ∧
        writeData env fuel s (some c) =
          (match writeLoop env c buffer (toUInt c.len) fuel 0 { s with w := w1 } with
           | Except.error e => Except.error e
           | Except.ok s1 => Except.ok (c.len, s1)) ∧
        loopBody env c buffer (toUInt c.len) 0 { s with w := w1 } =
          (emitPes env c buffer 0 { s with w := w1 },
            if env.writev s.out.length < 0 then none else some 0) ∧
        (pesAt env c buffer 0 { s with w := w1 }).payload = []) := by
  have hz : ∀ ch bits, frameLen ch rate bits = 0 := fun ch bits => frameLen_unsupported ch rate bits hr
  refine ⟨hz, fun w ch bits => prepareClipPlay_zero_none w ch rate bits (hz ch bits),
    fun q w ch bits => ⟨_, prepareClipPlay_zero_some q w ch rate bits (hz ch bits), rfl, rfl, rfl⟩, ?_⟩
  rintro env fuel s c buffer q hq hih ⟨hd, hl0, hl1, _, hfd⟩ hrate
  obtain ⟨_, hti⟩ := toUInt_len c.len hl0 hl1
  have hi : initOnce env.divZero s.w c = Except.ok
      { s.w with initialHeader := false, SubFrameLen := 0, SubFramesPerPES := q % 4294967296
                 breakBufferFillSize := 0
                 lpcm_prv := headerOf c.uNoOfChannels c.uSampleRate c.uBitsPerSample } := by
    rw [initOnce_new env.divZero s.w c hih, hq,
      prepareClipPlay_zero_some q _ _ _ _ (by rw [hrate]; exact hz _ _)]
  refine ⟨_, hi, rfl, rfl, ?_, ?_, ?_⟩
  · rw [writeData_valid env fuel s c buffer hd hl0 hfd, hi, hti]
  · have hnt : ∀ t : State, t.w.SubFrameLen = 0 → ¬ usub (toUInt c.len) 0 < t.w.SubFrameLen := by
      intro t ht; rw [ht]; omega
    by_cases hw : env.writev s.out.length < 0
    · rw [if_pos hw]
      exact loopBody_fail env c buffer (toUInt c.len) 0 _ (hnt _ rfl) hw
    · rw [if_neg hw]
      exact loopBody_emit env c buffer (toUInt c.len) 0 _ (hnt _ rfl) hw
  · show reorder c.uBitsPerSample 0 (assemble _ buffer 0) = []
    rw [reorder_zero]
    simp [assemble]

/-- Witness for `c9_unsupported_rate`: 32000 Hz on a target whose division by zero yields 0. -/
theorem c9_unsupported_rate_witness :
    ∃ w1, prepareClipPlay (some 0) Writer.init 2 32000 16 = Except.ok (retOf 16, w1) ∧
      w1.SubFrameLen = 0 ∧ w1.SubFramesPerPES = 0 % 4294967296 ∧ w1.breakBufferFillSize = 0 :=
  (c9_unsupported_rate 32000 (by decide)).2.2.1 0 Writer.init 2 16

/-- C9 as stated fails where the division by zero traps: at 32000 Hz neither `prepareClipPlay`
nor the `writeData` call that runs it completes. -/
theorem c9_trap_counterexample :
    prepareClipPlay none Writer.init 2 32000 16 = Except.error Fault.divByZero ∧
    writeData env0 4 State.init (some (mkCall 2 32000 16 [1, 2])) = Except.error Fault.divByZero := by
  exact ⟨rfl, rfl⟩

/-! ## Carry-over across short calls -/

/-- C2 (the code loses bytes): on a fresh writer at 48000 Hz, stereo, 16 bit (regions of 1920
bytes) a call with the bytes 1, 2, 3 followed by a call with the bytes 4, 5 hands nothing to
`writev` and ends with only 4, 5 in the carry-over buffer: the second call overwrites the three
bytes carried over from the first, so the emitted regions followed by the carry-over are not
the concatenation 1, 2, 3, 4, 5 of the inputs. -/
theorem c2_short_call_overwrites_carry :
    (run env0 2 State.init
        [Op.write (some (mkCall 2 48000 16 [1, 2, 3])), Op.write (some (mkCall 2 48000 16 [4, 5]))]).toOption.map
      (fun s => (s.out, carry s.w, s.w.SubFrameLen)) = some ([], [4, 5], 1920) ∧
    ([] : List Nat) ++ [4, 5] ≠ [1, 2, 3] ++ [4, 5] := by
  decide

/-! ## The output rate of the resampler -/

theorem tdiv_mul_ne_iff (a b : Int) : Int.tdiv a b * b ≠ a ↔ ¬ b ∣ a := by
  constructor
  · intro h hd
    exact h (Int.tdiv_mul_cancel hd)
  · intro h he
    exact h ⟨Int.tdiv a b, by rw [Int.mul_comm]; exact he.symm⟩

theorem scanRates_find (in_rate : Int) :
    ∀ l : List Int, (∀ r ∈ l, r ≠ 0) →
      scanRates (l ++ [0]) in_rate
        = (l.find? (fun r => decide (in_rate ∣ r ∨ r ∣ in_rate))).getD 0 := by
  intro l
  induction l with
  | nil => intro _; simp [scanRates]
  | cons r rs ih =>
    intro hl
    have hr : r ≠ 0 := hl r (List.mem_cons_self _ _)
    have ih2 := ih (fun x hx => hl x (List.mem_cons_of_mem _ hx))
    have hstep : scanRates (r :: rs ++ [0]) in_rate
        = if r ≠ 0 ∧ ¬ in_rate ∣ r ∧ ¬ r ∣ in_rate then scanRates (rs ++ [0]) in_rate else r := by
      show scanRates (r :: (rs ++ [0])) in_rate = _
      simp only [scanRates, tdiv_mul_ne_iff]
    rw [hstep, List.find?_cons]
    by_cases hp : in_rate ∣ r ∨ r ∣ in_rate
    · have : ¬ (r ≠ 0 ∧ ¬ in_rate ∣ r ∧ ¬ r ∣ in_rate) := by
        rintro ⟨_, h1, h2⟩
        rcases hp with h | h
        · exact h1 h
        · exact h2 h
      rw [if_neg this]
      simp [hp]
    · have : r ≠ 0 ∧ ¬ in_rate ∣ r ∧ ¬ r ∣ in_rate := by
        refine ⟨hr, fun h => hp (Or.inl h), fun h => hp (Or.inr h)⟩
      rw [if_pos this, ih2]
      simp [hp]

/-- C19: for every input sample rate above 0 the rate that `writeDataIpcm` gives the resampler
is the first of 48000, 96000, 192000, 44100, 88200, 176400 that is a multiple of the input
rate or of which the input rate is a multiple, and 44100 when there is none; it is one of the
six rates that `prepareClipPlay` supports. -/
theorem c19_output_rate (in_rate : Int) (h : 0 < in_rate) :
    chooseRate in_rate = some (specRate in_rate) ∧ Supported (specRate in_rate) := by
  have hne : in_rate ≠ 0 := by omega
  have hscan := scanRates_find in_rate preferredRates (by decide)
  have hrates : rates = preferredRates ++ [0] := rfl
  have hmem : ∀ r, preferredRates.find? (fun r => decide (in_rate ∣ r ∨ r ∣ in_rate)) = some r →
      Supported r := by
    intro r hr
    have := List.mem_of_find?_eq_some hr
    simp [preferredRates] at this
    exact this
  unfold chooseRate specRate
  rw [if_neg hne, hrates, hscan]
  cases hf : preferredRates.find? (fun r => decide (in_rate ∣ r ∨ r ∣ in_rate)) with
  | none => exact ⟨by simp, by decide⟩
  | some r =>
    have hs := hmem r hf
    have hr0 : r ≠ 0 := by
      rcases hs with h | h | h | h | h | h <;> rw [h] <;> decide
    exact ⟨by simp [hr0], hs⟩

/-- Witness for `c19_output_rate`: an input rate of 32000 gives 96000. -/
theorem c19_output_rate_witness :
    chooseRate 32000 = some (specRate 32000) ∧ Supported (specRate 32000) ∧ specRate 32000 = 96000 :=
  ⟨(c19_output_rate 32000 (by decide)).1, (c19_output_rate 32000 (by decide)).2, by decide⟩

/-! ## Failed and short writes -/

theorem writeData_ok_len (env : Env) (fuel : Nat) (s : State) (c : WriterAVCallData)
    (buffer : List Nat) (hv : ValidCall c buffer) (r : Int × State)
    (h : writeData env fuel s (some c) = Except.ok r) : r.1 = c.len := by
  obtain ⟨hd, hl0, hl1, _, hfd⟩ := hv
  obtain ⟨_, hti⟩ := toUInt_len c.len hl0 hl1
  rw [writeData_valid env fuel s c buffer hd hl0 hfd] at h
  cases hi : initOnce env.divZero s.w c with
  | error e => rw [hi] at h; cases h
  | ok w =>
    rw [hi] at h
    cases hw : writeLoop env c buffer (toUInt c.len) fuel 0 { s with w := w } with
    | error e => simp only [hw] at h; cases h
    | ok s2 =>
      simp only [hw, hti] at h
      injection h with h
      rw [← h]

/-- A valid call whose first write fails: one PES has been handed to `writev`, the loop is
left and the full length is returned. -/
theorem writeData_first_write_fails (env : Env) (fuel : Nat) (s : State) (c : WriterAVCallData)
    (buffer : List Nat) (w : Writer) (hv : ValidCall c buffer)
    (hi : initOnce env.divZero s.w c = Except.ok w)
    (hge : w.SubFrameLen ≤ buffer.length) (hw : env.writev s.out.length < 0) :
    writeData env (fuel + 1) s (some c)
      = Except.ok (c.len, emitPes env c buffer 0 { s with w := w }) := by
  obtain ⟨hd, hl0, hl1, hbl, hfd⟩ := hv
  obtain ⟨hu, hti⟩ := toUInt_len c.len hl0 hl1
  have hsz : toUInt c.len = buffer.length := by rw [hu]; omega
  have hlt : 0 < toUInt c.len := by rw [hu]; omega
  have hnt : ¬ usub (toUInt c.len) 0 < ({ s with w := w } : State).w.SubFrameLen := by
    rw [usub_eq _ 0 (Nat.zero_le _) (by rw [hu]; omega), hsz]
    show ¬ buffer.length - 0 < w.SubFrameLen
    omega
  rw [writeData_valid env (fuel + 1) s c buffer hd hl0 hfd, hi]
  simp only [writeLoop_break env c buffer (toUInt c.len) fuel 0 { s with w := w } _ hlt
      (loopBody_fail env c buffer (toUInt c.len) 0 { s with w := w } hnt hw), hti]

/-- A valid call on an empty carry-over whose length is `k` regions, with no write failing:
`k` PES are handed to `writev`. -/
theorem writeData_regions (env : Env) (fuel : Nat) (s : State) (c : WriterAVCallData)
    (buffer : List Nat) (w : Writer) (k : Nat) (hv : ValidCall c buffer)
    (hi : initOnce env.divZero s.w c = Except.ok w) (hf : w.breakBufferFillSize = 0)
    (hR : 0 < w.SubFrameLen) (hR32 : w.SubFrameLen < 4294967296)
    (hk : buffer.length = k * w.SubFrameLen) (hw : ∀ n, 0 ≤ env.writev n) (hfuel : k < fuel) :
    ∃ s1 ps, writeData env fuel s (some c) = Except.ok (c.len, s1) ∧ s1.out = s.out ++ ps ∧
      ps.length = k := by
  obtain ⟨hd, hl0, hl1, hbl, hfd⟩ := hv
  obtain ⟨hu, hti⟩ := toUInt_len c.len hl0 hl1
  have hsz : toUInt c.len = buffer.length := by rw [hu]; omega
  obtain ⟨s1, ps, h1, h2, h3, _⟩ :=
    writeLoop_regions env c buffer buffer.length (by omega) rfl hw k fuel 0 { s with w := w } 0
      hf hR hR32 (by show 0 + k * w.SubFrameLen + 0 = buffer.length; omega) hR hfuel
  refine ⟨s1, ps, ?_, h2, h3⟩
  rw [writeData_valid env fuel s c buffer hd hl0 hfd, hi, hti, hsz]
  simp only [h1]

/-- C17 (amended): in a pass of the loop that emits a PES, a `writev` that fails (a negative
result) ends the loop: the PES of that pass is the last one handed to `writev`, the carry-over
is left empty and `breakBuffer` is not written, so the input from the new read position on is
kept nowhere; for a valid call every value returned is the full caller-supplied length, these
bytes included.  A short write (any result that is not negative) does not end the loop: it
goes on from the advanced position. -/
theorem c17_failed_write (env : Env) (c : WriterAVCallData) (buffer : List Nat)
    (size fuel pos : Nat) (t : State) (hlt : pos < size)
    (hnt : ¬ usub size pos < t.w.SubFrameLen) :
    (env.writev t.out.length < 0 →
      writeLoop env c buffer size (fuel + 1) pos t = Except.ok (emitPes env c buffer pos t) ∧
      (emitPes env c buffer pos t).out = t.out ++ [pesAt env c buffer pos t] ∧
      (emitPes env c buffer pos t).w.breakBufferFillSize = 0 ∧
      (emitPes env c buffer pos t).w.breakBuffer = t.w.breakBuffer) ∧
    (0 ≤ env.writev t.out.length →
      writeLoop env c buffer size (fuel + 1) pos t
        = writeLoop env c buffer size fuel (advance t.w pos) (emitPes env c buffer pos t)) ∧
    (∀ s fuel1 r, ValidCall c buffer → writeData env fuel1 s (some c) = Except.ok r → r.1 = c.len) := by
  refine ⟨fun hw => ⟨?_, rfl, rfl, rfl⟩, fun hw => ?_, fun s fuel1 r hv h => ?_⟩
  · exact writeLoop_break env c buffer size fuel pos t _ hlt
      (loopBody_fail env c buffer size pos t hnt hw)
  · exact writeLoop_next env c buffer size fuel pos _ t _ hlt
      (loopBody_emit env c buffer size pos t hnt (by omega))
  · exact writeData_ok_len env fuel1 s c buffer hv r h

/-- Witness for `c17_failed_write`: a region length of 2, three bytes of input, position 0. -/
theorem c17_failed_write_witness :
    (writeLoop envFail (mkCall 1 48000 16 [1, 2, 3]) [1, 2, 3] 3 (0 + 1) 0
        { State.init with w := { Writer.init with SubFrameLen := 2 } }
      = Except.ok (emitPes envFail (mkCall 1 48000 16 [1, 2, 3]) [1, 2, 3] 0
          { State.init with w := { Writer.init with SubFrameLen := 2 } }) ∧
      (emitPes envFail (mkCall 1 48000 16 [1, 2, 3]) [1, 2, 3] 0
          { State.init with w := { Writer.init with SubFrameLen := 2 } }).out
        = ({ State.init with w := { Writer.init with SubFrameLen := 2 } } : State).out
          ++ [pesAt envFail (mkCall 1 48000 16 [1, 2, 3]) [1, 2, 3] 0
            { State.init with w := { Writer.init with SubFrameLen := 2 } }] ∧
      (emitPes envFail (mkCall 1 48000 16 [1, 2, 3]) [1, 2, 3] 0
          { State.init with w := { Writer.init with SubFrameLen := 2 } }).w.breakBufferFillSize = 0 ∧
      (emitPes envFail (mkCall 1 48000 16 [1, 2, 3]) [1, 2, 3] 0
          { State.init with w := { Writer.init with SubFrameLen := 2 } }).w.breakBuffer
        = ({ State.init with w := { Writer.init with SubFrameLen := 2 } } : State).w.breakBuffer) :=
  (c17_failed_write envFail (mkCall 1 48000 16 [1, 2, 3]) [1, 2, 3] 3 0 0
    { State.init with w := { Writer.init with SubFrameLen := 2 } } (by decide) (by decide)).1
    (by decide)

/-- C17 as stated fails.  With every write failing, a first call with 2001 bytes at 48000 Hz,
mono, 16 bit hands one region of 2000 bytes to `writev` and returns 2001 with the carry-over
empty: the last byte is neither carried over nor left out of the count.  With every write
short, a first call with 4000 bytes still hands a second PES to `writev`. -/
theorem c17_lost_bytes_counterexample :
    (writeData envFail 2 State.init (some (mkCall 1 48000 16 (List.replicate 2001 7)))
        = Except.ok ((mkCall 1 48000 16 (List.replicate 2001 7)).len,
            emitPes envFail (mkCall 1 48000 16 (List.replicate 2001 7)) (List.replicate 2001 7) 0
              { State.init with w := monoWriter }) ∧
      (mkCall 1 48000 16 (List.replicate 2001 7)).len = 2001 ∧
      advance monoWriter 0 = 2000 ∧
      (emitPes envFail (mkCall 1 48000 16 (List.replicate 2001 7)) (List.replicate 2001 7) 0
          { State.init with w := monoWriter }).out.length = 1 ∧
      carry (emitPes envFail (mkCall 1 48000 16 (List.replicate 2001 7)) (List.replicate 2001 7) 0
          { State.init with w := monoWriter }).w = []) ∧
    (∃ s1 ps, writeData envShort 3 State.init (some (mkCall 1 48000 16 (List.replicate 4000 7)))
        = Except.ok ((mkCall 1 48000 16 (List.replicate 4000 7)).len, s1) ∧
      s1.out = State.init.out ++ ps ∧ ps.length = 2) := by
  refine ⟨⟨?_, ?_, by decide, rfl, rfl⟩, ?_⟩
  · exact writeData_first_write_fails envFail 1 State.init _ (List.replicate 2001 7) monoWriter
      ⟨rfl, by simp only [mkCall, List.length_replicate]; decide,
        by simp only [mkCall, List.length_replicate]; decide, rfl, by decide⟩
      rfl (by rw [List.length_replicate]; decide) (by decide)
  · simp only [mkCall, List.length_replicate]
    rfl
  · exact writeData_regions envShort 3 State.init _ (List.replicate 4000 7) monoWriter 2
      ⟨rfl, by simp only [mkCall, List.length_replicate]; decide,
        by simp only [mkCall, List.length_replicate]; decide, rfl, by decide⟩
      rfl rfl (by decide) (by decide) (List.length_replicate _ _)
      (fun _ => (by decide : (0 : Int) ≤ 1)) (by decide)

/-! ## Which parameters of a call matter -/

theorem reorder_same (b b1 : Int) (len : Nat) (x : List Nat) (h : b = 16 ↔ b1 = 16) :
    reorder b len x = reorder b1 len x := by
  unfold reorder
  by_cases h16 : b = 16
  · rw [if_pos h16, if_pos (h.mp h16)]
  · rw [if_neg h16, if_neg (fun h1 => h16 (h.mpr h1))]

theorem loopBody_same (env : Env) (c c1 : WriterAVCallData) (hs : SameStream c c1)
    (buffer : List Nat) (size pos : Nat) (s : State) :
    loopBody env c buffer size pos s = loopBody env c1 buffer size pos s := by
  obtain ⟨_, hp, _, _, hb⟩ := hs
  have he : emitPes env c buffer pos s = emitPes env c1 buffer pos s := by
    unfold emitPes pesAt
    rw [hp, reorder_same _ _ _ _ hb]
  unfold loopBody
  rw [he]

theorem writeLoop_same (env : Env) (c c1 : WriterAVCallData) (hs : SameStream c c1)
    (buffer : List Nat) (size : Nat) :
    ∀ fuel pos s, writeLoop env c buffer size fuel pos s = writeLoop env c1 buffer size fuel pos s := by
  intro fuel
  induction fuel with
  | zero => intro pos s; rfl
  | succ n ih =>
    intro pos s
    unfold writeLoop
    rw [loopBody_same env c c1 hs]
    split_ifs
    · rcases loopBody env c1 buffer size pos s with ⟨s2, _ | pos1⟩
      · rfl
      · exact ih pos1 s2
    · rfl

theorem writeData_same (env : Env) (fuel : Nat) (s : State) (call call1 : Option WriterAVCallData)
    (hi : s.w.initialHeader = false) (hs : SameCall call call1) :
    writeData env fuel s call = writeData env fuel s call1 := by
  cases call with
  | none =>
    cases call1 with
    | none => rfl
    | some c1 => exact absurd hs (by simp [SameCall])
  | some c =>
    cases call1 with
    | none => exact absurd hs (by simp [SameCall])
    | some c1 =>
      have hss : SameStream c c1 := hs
      obtain ⟨hfd, hp, hd, hl, hb⟩ := hss
      unfold writeData
      simp only [← hd, ← hl, ← hfd, initOnce_old env.divZero s.w _ hi]
      cases c.data with
      | none => rfl
      | some buffer =>
        simp only [writeLoop_same env c c1 ⟨hfd, hp, hd, hl, hb⟩]

/-- The geometry and the header bytes other than the counter: kept by a pass of the loop. -/
theorem loopBody_frame (env : Env) (c : WriterAVCallData) (buffer : List Nat) (size pos : Nat)
    (s : State) :
    (loopBody env c buffer size pos s).1.w.SubFrameLen = s.w.SubFrameLen ∧
    (loopBody env c buffer size pos s).1.w.SubFramesPerPES = s.w.SubFramesPerPES ∧
    (loopBody env c buffer size pos s).1.w.initialHeader = s.w.initialHeader ∧
    ∀ i, i ≠ 1 → (loopBody env c buffer size pos s).1.w.lpcm_prv.getD i 0 = s.w.lpcm_prv.getD i 0 := by
  rcases loopBody_state env c buffer size pos s with ⟨_, he⟩ | ⟨_, he⟩
  · rw [he]; exact ⟨rfl, rfl, rfl, fun _ _ => rfl⟩
  · rw [he]
    refine ⟨rfl, rfl, rfl, fun i hi => ?_⟩
    show (nextCounter s.w).getD i 0 = _
    unfold nextCounter
    simp [List.getD_eq_getElem?_getD, List.getElem?_set, Ne.symm hi]

/-- The same, for a call of `writeData` on an initialized writer. -/
theorem writeData_frame (env : Env) (fuel : Nat) (s : State) (call : Option WriterAVCallData)
    (r : Int × State) (hi : s.w.initialHeader = false)
    (h : writeData env fuel s call = Except.ok r) :
    r.2.w.SubFrameLen = s.w.SubFrameLen ∧ r.2.w.SubFramesPerPES = s.w.SubFramesPerPES ∧
    r.2.w.initialHeader = false ∧
    ∀ i, i ≠ 1 → r.2.w.lpcm_prv.getD i 0 = s.w.lpcm_prv.getD i 0 := by
  rcases writeData_ok_cases env fuel s call r h with he | ⟨c, buffer, w, _, _, _, _, hio, hl, _⟩
  · rw [he]; exact ⟨rfl, rfl, hi, fun _ _ => rfl⟩
  · rw [initOnce_old env.divZero s.w c hi] at hio
    injection hio with hio
    subst hio
    exact writeLoop_preserves env c buffer (toUInt c.len)
      (fun t => t.w.SubFrameLen = s.w.SubFrameLen ∧ t.w.SubFramesPerPES = s.w.SubFramesPerPES ∧
        t.w.initialHeader = false ∧ ∀ i, i ≠ 1 → t.w.lpcm_prv.getD i 0 = s.w.lpcm_prv.getD i 0)
      (fun pos t ht => by
        obtain ⟨f1, f2, f3, f4⟩ := loopBody_frame env c buffer (toUInt c.len) pos t
        exact ⟨f1.trans ht.1, f2.trans ht.2.1, f3.trans ht.2.2.1,
          fun i hne => (f4 i hne).trans (ht.2.2.2 i hne)⟩)
      fuel 0 _ r.2 ⟨rfl, rfl, hi, fun _ _ => rfl⟩ hl

/-- After a valid call that returns, `initialHeader` is clear. -/
theorem writeData_valid_initialized (env : Env) (fuel : Nat) (s : State) (c : WriterAVCallData)
    (buffer : List Nat) (hv : ValidCall c buffer) (r : Int × State)
    (h : writeData env fuel s (some c) = Except.ok r) : r.2.w.initialHeader = false := by
  obtain ⟨hd, hl0, _, _, hfd⟩ := hv
  rw [writeData_valid env fuel s c buffer hd hl0 hfd] at h
  cases hi : initOnce env.divZero s.w c with
  | error e => rw [hi] at h; cases h
  | ok w =>
    rw [hi] at h
    have hw : w.initialHeader = false := by
      rcases initOnce_ok env.divZero s.w w c hi with ⟨hf, he⟩ | ⟨_, r0, hp⟩
      · rw [he]; exact hf
      · exact (prepareClipPlay_ok env.divZero _ _ _ _ _ hp).2.2.2.2.1
    cases hl : writeLoop env c buffer (toUInt c.len) fuel 0 { s with w := w } with
    | error e => simp only [hl] at h; cases h
    | ok s2 =>
      simp only [hl] at h
      injection h with h
      rw [← h]
      exact writeLoop_preserves env c buffer (toUInt c.len) (fun t => t.w.initialHeader = false)
        (fun pos t ht => (loopBody_initialHeader env c buffer (toUInt c.len) pos t).trans ht)
        fuel 0 _ s2 hw hl

theorem run_same (env : Env) (fuel : Nat) (cs cs1 : List (Option WriterAVCallData))
    (h : List.Forall₂ SameCall cs cs1) :
    ∀ s, s.w.initialHeader = false →
      run env fuel s (cs.map Op.write) = run env fuel s (cs1.map Op.write) := by
  induction h with
  | nil => intro s _; rfl
  | cons hc _ ih =>
    intro s hi
    simp only [List.map, run]
    rw [writeData_same env fuel s _ _ hi hc]
    rename_i a b l1 l2 _
    cases hw : writeData env fuel s b with
    | error e => rfl
    | ok r => exact ih r.2 (writeData_frame env fuel s b r hi hw).2.2.1

theorem run_frame (env : Env) (fuel : Nat) (cs : List (Option WriterAVCallData)) :
    ∀ s s1, s.w.initialHeader = false → run env fuel s (cs.map Op.write) = Except.ok s1 →
      s1.w.SubFrameLen = s.w.SubFrameLen ∧ s1.w.SubFramesPerPES = s.w.SubFramesPerPES ∧
      s1.w.initialHeader = false ∧
      ∀ i, i ≠ 1 → s1.w.lpcm_prv.getD i 0 = s.w.lpcm_prv.getD i 0 := by
  induction cs with
  | nil =>
    intro s s1 hi h
    injection h with h
    subst h
    exact ⟨rfl, rfl, hi, fun _ _ => rfl⟩
  | cons call cs ih =>
    intro s s1 hi h
    simp only [List.map, run] at h
    cases hw : writeData env fuel s call with
    | error e => simp only [hw] at h; cases h
    | ok r =>
      simp only [hw] at h
      obtain ⟨f1, f2, f3, f4⟩ := writeData_frame env fuel s call r hi hw
      obtain ⟨g1, g2, g3, g4⟩ := ih r.2 s1 f3 h
      exact ⟨g1.trans f1, g2.trans f2, g3, fun i hne => (g4 i hne).trans (f4 i hne)⟩

/-- C18 (amended): once the writer is initialized and until `reset`, the geometry and the
header bytes other than the counter do not change, whatever the calls carry; they are the ones
`prepareClipPlay` derived from uNoOfChannels, uSampleRate and uBitsPerSample of the first
valid call, which also zeroes the counter and empties the carry-over.  The reordering of a
region is chosen by the uBitsPerSample of the call that emits it: the pair swap for 16, the
12-byte permutation otherwise.  So two runs with the same first valid call whose later calls
agree in descriptor, PTS, data, length and in whether uBitsPerSample is 16 give the same
output and state.  `reset` sets `initialHeader` and nothing else, so the next valid write
derives header and geometry anew. -/
theorem c18_stream_parameters (env : Env) (fuel : Nat) :
    (∀ (s : State) (cs : List (Option WriterAVCallData)) (s1 : State),
      s.w.initialHeader = false → run env fuel s (cs.map Op.write) = Except.ok s1 →
      s1.w.SubFrameLen = s.w.SubFrameLen ∧ s1.w.SubFramesPerPES = s.w.SubFramesPerPES ∧
      s1.w.initialHeader = false ∧
      ∀ i, i ≠ 1 → s1.w.lpcm_prv.getD i 0 = s.w.lpcm_prv.getD i 0) ∧
    (∀ (w w1 : Writer) (c : WriterAVCallData), w.initialHeader = true →
      initOnce env.divZero w c = Except.ok w1 →
      w1.initialHeader = false ∧
      w1.lpcm_prv = headerOf c.uNoOfChannels c.uSampleRate c.uBitsPerSample ∧
      counter w1.lpcm_prv = 0 ∧ w1.breakBufferFillSize = 0 ∧
      w1.SubFrameLen
        = frameLen c.uNoOfChannels c.uSampleRate c.uBitsPerSample * w1.SubFramesPerPES % 4294967296 ∧
      (frameLen c.uNoOfChannels c.uSampleRate c.uBitsPerSample ≠ 0 →
        w1.SubFramesPerPES = 2016 / frameLen c.uNoOfChannels c.uSampleRate c.uBitsPerSample)) ∧
    (∀ (c : WriterAVCallData) (buffer : List Nat) (pos : Nat) (s : State),
      (pesAt env c buffer pos s).payload =
        if c.uBitsPerSample = 16 then swapLoop s.w.SubFrameLen s.w.SubFrameLen 0 (assemble s.w buffer pos)
        else permuteLoop s.w.SubFrameLen s.w.SubFrameLen 0 (assemble s.w buffer pos)) ∧
    (∀ (s : State) (c : WriterAVCallData) (buffer : List Nat)
        (cs cs1 : List (Option WriterAVCallData)),
      ValidCall c buffer → List.Forall₂ SameCall cs cs1 →
      run env fuel s (Op.write (some c) :: cs.map Op.write)
        = run env fuel s (Op.write (some c) :: cs1.map Op.write)) ∧
    (∀ s, reset s = (0, { s with w := { s.w with initialHeader := true } })) := by
  refine ⟨fun s cs s1 => run_frame env fuel cs s s1, ?_, fun _ _ _ _ => rfl, ?_, fun _ => rfl⟩
  · intro w w1 c hw hi
    rcases initOnce_ok env.divZero w w1 c hi with ⟨hf, _⟩ | ⟨_, r0, hp⟩
    · rw [hw] at hf; cases hf
    · obtain ⟨_, h2, h3, _, h5, _, h7⟩ := prepareClipPlay_ok env.divZero _ _ _ _ _ hp
      refine ⟨h5, h3, by rw [h3]; exact headerOf_counter _ _ _, h2, h7, fun hL => ?_⟩
      rw [prepareClipPlay_pos env.divZero _ _ _ _ hL] at hp
      injection hp with hp
      injection hp with _ hp
      rw [← hp]
  · intro s c buffer cs cs1 hv hsame
    simp only [run]
    cases hw : writeData env fuel s (some c) with
    | error e => rfl
    | ok r =>
      exact run_same env fuel cs cs1 hsame r.2
        (writeData_valid_initialized env fuel s c buffer hv r hw)

/-- Witness for `c18_stream_parameters`: after the one-byte call at 48000 Hz, mono, 16 bit, a
second such call announcing 8 channels at 96000 Hz leaves geometry and header alone. -/
theorem c18_stream_parameters_witness :
    ∃ s1, run env0 3 carryState ([some (mkCall 8 96000 16 [5])].map Op.write) = Except.ok s1 ∧
      s1.w.SubFrameLen = carryState.w.SubFrameLen ∧
      s1.w.SubFramesPerPES = carryState.w.SubFramesPerPES ∧
      s1.w.initialHeader = false ∧
      ∀ i, i ≠ 1 → s1.w.lpcm_prv.getD i 0 = carryState.w.lpcm_prv.getD i 0 :=
  ⟨_, rfl, (c18_stream_parameters env0 3).1 carryState [some (mkCall 8 96000 16 [5])] _ rfl rfl⟩

theorem swapAt_below (b : List Nat) (n i : Nat) (h : i < n) : (swapAt b n).getD i 0 = b.getD i 0 := by
  have h1 : ¬ n = i := by omega
  have h2 : ¬ n + 1 = i := by omega
  simp [swapAt, List.getD_eq_getElem?_getD, List.getElem?_set, h1, h2]

theorem permuteAt_below (b : List Nat) (n i : Nat) (h : i < n) :
    (permuteAt b n).getD i 0 = b.getD i 0 := by
  have h0 : ¬ n = i := by omega
  have h2 : ¬ n + 2 = i := by omega
  have h3 : ¬ n + 3 = i := by omega
  have h4 : ¬ n + 4 = i := by omega
  have h5 : ¬ n + 5 = i := by omega
  have h7 : ¬ n + 7 = i := by omega
  have h8 : ¬ n + 8 = i := by omega
  have h9 : ¬ n + 9 = i := by omega
  have h11 : ¬ n + 11 = i := by omega
  simp [permuteAt, List.getD_eq_getElem?_getD, List.getElem?_set, h0, h2, h3, h4, h5, h7, h8, h9, h11]

theorem swapLoop_below (len : Nat) :
    ∀ fuel n b i, i < n → (swapLoop fuel len n b).getD i 0 = b.getD i 0 := by
  intro fuel
  induction fuel with
  | zero => intro n b i _; rfl
  | succ k ih =>
    intro n b i h
    unfold swapLoop
    split_ifs
    · rw [ih (n + 2) _ i (by omega), swapAt_below b n i h]
    · rfl

theorem permuteLoop_below (len : Nat) :
    ∀ fuel n b i, i < n → (permuteLoop fuel len n b).getD i 0 = b.getD i 0 := by
  intro fuel
  induction fuel with
  | zero => intro n b i _; rfl
  | succ k ih =>
    intro n b i h
    unfold permuteLoop
    split_ifs
    · rw [ih (n + 12) _ i (by omega), permuteAt_below b n i h]
    · rfl

/-- The first byte of a region after the 16-bit reordering is its second byte. -/
theorem reorder16_head (len : Nat) (b : List Nat) (hl : 0 < len) (hb : 0 < b.length) :
    (reorder 16 len b).getD 0 0 = b.getD 1 0 := by
  obtain ⟨k, rfl⟩ : ∃ k, len = k + 1 := ⟨len - 1, by omega⟩
  unfold reorder
  rw [if_pos rfl]
  unfold swapLoop
  rw [if_pos hl, swapLoop_below (k + 1) k 2 _ 0 (by omega)]
  simp [swapAt, List.getD_eq_getElem?_getD, List.getElem?_set, hb]

/-- The first byte of a region after the other reordering is its third byte. -/
theorem reorder24_head (len : Nat) (b : List Nat) (hl : 0 < len) (hb : 0 < b.length) :
    (reorder 24 len b).getD 0 0 = b.getD 2 0 := by
  obtain ⟨k, rfl⟩ : ∃ k, len = k + 1 := ⟨len - 1, by omega⟩
  unfold reorder
  rw [if_neg (by decide)]
  unfold permuteLoop
  rw [if_pos hl, permuteLoop_below (k + 1) k 12 _ 0 (by omega)]
  simp [permuteAt, List.getD_eq_getElem?_getD, List.getElem?_set, hb]

theorem tailCall_result :
    writeData env0 3 State.init (some tailCall) = Except.ok (1, carryState) := by
  rfl

theorem regionData_length : regionData.length = 2000 := by
  simp only [regionData, List.length_cons, List.length_replicate]

theorem laterCall_result (bits : Int) :
    writeData env0 3 carryState (some (laterCall bits))
      = Except.ok (2000, stash regionData 2000 1999
          (emitPes env0 (laterCall bits) regionData 0 carryState)) := by
  have hsz : toUInt (laterCall bits).len = 2000 := by
    show toUInt 2000 = 2000
    decide
  have hti : toInt 2000 = 2000 := by decide
  have hl0 : 0 < (laterCall bits).len := by
    show (0 : Int) < 2000
    decide
  have hfd : 0 ≤ (laterCall bits).fd := by
    show (0 : Int) ≤ 3
    decide
  have hnt0 : ¬ usub 2000 0 < carryState.w.SubFrameLen := by
    show ¬ usub 2000 0 < 2000
    decide
  have hw0 : ¬ env0.writev carryState.out.length < 0 := by
    show ¬ (0 : Int) < 0
    decide
  have hadv : advance carryState.w 0 = 1999 := by
    show (if 1 > 0 then (0 + usub 2000 1) % 4294967296 else (0 + 2000) % 4294967296) = 1999
    decide
  have htail : usub 2000 1999 < (emitPes env0 (laterCall bits) regionData 0 carryState).w.SubFrameLen := by
    show usub 2000 1999 < 2000
    decide
  have h1 : writeLoop env0 (laterCall bits) regionData 2000 3 0 carryState
      = writeLoop env0 (laterCall bits) regionData 2000 2 1999
          (emitPes env0 (laterCall bits) regionData 0 carryState) :=
    writeLoop_next env0 (laterCall bits) regionData 2000 2 0 1999 carryState _ (by decide)
      (by rw [loopBody_emit env0 (laterCall bits) regionData 2000 0 carryState hnt0 hw0, hadv])
  have h2 : writeLoop env0 (laterCall bits) regionData 2000 2 1999
        (emitPes env0 (laterCall bits) regionData 0 carryState)
      = Except.ok (stash regionData 2000 1999 (emitPes env0 (laterCall bits) regionData 0 carryState)) :=
    writeLoop_break env0 (laterCall bits) regionData 2000 1 1999 _ _ (by decide)
      (loopBody_tail env0 (laterCall bits) regionData 2000 1999 _ htail)
  rw [writeData_valid env0 3 carryState (laterCall bits) regionData rfl hl0 hfd,
    initOnce_old env0.divZero carryState.w (laterCall bits) rfl, hsz, hti]
  show (match writeLoop env0 (laterCall bits) regionData 2000 3 0 carryState with
    | Except.error e => Except.error e
    | Except.ok s1 => Except.ok ((2000 : Int), s1)) = _
  rw [h1, h2]

theorem run_write_ok (env : Env) (fuel : Nat) (s : State) (call : Option WriterAVCallData)
    (ops : List Op) (r : Int × State) (h : writeData env fuel s call = Except.ok r) :
    run env fuel s (Op.write call :: ops) = run env fuel r.2 ops := by
  simp only [run, h]

theorem run_tail_later (bits : Int) :
    run env0 3 State.init [Op.write (some tailCall), Op.write (some (laterCall bits))]
      = Except.ok (stash regionData 2000 1999 (emitPes env0 (laterCall bits) regionData 0 carryState)) :=
  (run_write_ok env0 3 State.init (some tailCall) _ (1, carryState) tailCall_result).trans
    (run_write_ok env0 3 carryState (some (laterCall bits)) [] _ (laterCall_result bits))

theorem assemble_carry_heads :
    (assemble carryState.w regionData 0).getD 1 0 = 0 ∧
    (assemble carryState.w regionData 0).getD 2 0 = 1 ∧
    0 < (assemble carryState.w regionData 0).length := by
  refine ⟨by rfl, by rfl, ?_⟩
  have hbb : carryState.w.breakBufferFillSize ≤ carryState.w.breakBuffer.length := by
    show 1 ≤ (List.take 1 (List.drop 0 [9]) ++ List.drop 1 (List.replicate 8192 0)).length
    simp only [List.length_append, List.length_drop, List.length_replicate]
    omega
  rw [assemble_length carryState.w regionData 0 (by decide) (Or.inr (by decide)) hbb
    (by rw [regionData_length]; decide)]
  decide

theorem pesAt_payload (env : Env) (c : WriterAVCallData) (buffer : List Nat) (pos : Nat) (s : State) :
    (pesAt env c buffer pos s).payload
      = reorder c.uBitsPerSample s.w.SubFrameLen (assemble s.w buffer pos) := rfl

/-- C18 as stated fails: after a first call that carries one byte at 48000 Hz, mono, 16 bit,
a second call with 2000 bytes emits a region whose first byte is 0 when the call says 16 bit
and 1 when the same call says 24 bit: two runs that differ only in the bit depth carried by the
later call do not produce the same output. -/
theorem c18_later_bits_counterexample :
    ∃ sA sB,
      run env0 3 State.init [Op.write (some tailCall), Op.write (some (laterCall 16))] = Except.ok sA ∧
      run env0 3 State.init [Op.write (some tailCall), Op.write (some (laterCall 24))] = Except.ok sB ∧
      (sA.out.map (fun p => p.payload.getD 0 0)) = [0] ∧
      (sB.out.map (fun p => p.payload.getD 0 0)) = [1] ∧ sA.out ≠ sB.out := by
  obtain ⟨g1, g2, g3⟩ := assemble_carry_heads
  have hR : 0 < carryState.w.SubFrameLen := by
    show 0 < 2000
    decide
  have hA : (pesAt env0 (laterCall 16) regionData 0 carryState).payload.getD 0 0 = 0 := by
    rw [pesAt_payload]
    exact (reorder16_head carryState.w.SubFrameLen _ hR g3).trans g1
  have hB : (pesAt env0 (laterCall 24) regionData 0 carryState).payload.getD 0 0 = 1 := by
    rw [pesAt_payload]
    exact (reorder24_head carryState.w.SubFrameLen _ hR g3).trans g2
  have hoA : (stash regionData 2000 1999 (emitPes env0 (laterCall 16) regionData 0 carryState)).out
      = [pesAt env0 (laterCall 16) regionData 0 carryState] := rfl
  have hoB : (stash regionData 2000 1999 (emitPes env0 (laterCall 24) regionData 0 carryState)).out
      = [pesAt env0 (laterCall 24) regionData 0 carryState] := rfl
  refine ⟨_, _, run_tail_later 16, run_tail_later 24, ?_, ?_, ?_⟩
  · rw [hoA]
    show [(pesAt env0 (laterCall 16) regionData 0 carryState).payload.getD 0 0] = [0]
    rw [hA]
  · rw [hoB]
    show [(pesAt env0 (laterCall 24) regionData 0 carryState).payload.getD 0 0] = [1]
    rw [hB]
  · rw [hoA, hoB]
    intro h
    have h1 : [(pesAt env0 (laterCall 16) regionData 0 carryState).payload.getD 0 0]
        = [(pesAt env0 (laterCall 24) regionData 0 carryState).payload.getD 0 0] :=
      congrArg (List.map (fun (p : Pes) => p.payload.getD 0 0)) h
    rw [hA, hB] at h1
    exact absurd h1 (by decide)

/-! ## Termination of the loop -/

theorem countLoop_writeLoop (env : Env) (c : WriterAVCallData) (buffer : List Nat) (size : Nat) :
    ∀ fuel pos s,
      writeLoop env c buffer size fuel pos s
        = match countLoop env c buffer size fuel pos s with
          | Except.error e => Except.error e
          | Except.ok r => Except.ok r.2 := by
  intro fuel
  induction fuel with
  | zero => intro pos s; rfl
  | succ n ih =>
    intro pos s
    unfold writeLoop countLoop
    split_ifs
    · rcases loopBody env c buffer size pos s with ⟨s2, _ | pos1⟩
      · rfl
      · simp only [ih pos1 s2]
        cases countLoop env c buffer size n pos1 s2 <;> rfl
    · rfl

/-- With a positive region length and a carry-over below it, the loop makes at most
`size - pos` passes. -/
theorem countLoop_le (env : Env) (c : WriterAVCallData) (buffer : List Nat) (size : Nat)
    (hsize : size < 4294967296) :
    ∀ fuel pos s, 0 < s.w.SubFrameLen → s.w.SubFrameLen < 4294967296 → FillOk s.w →
      pos ≤ size → size - pos < fuel →
      ∃ n s1, countLoop env c buffer size fuel pos s = Except.ok (n, s1) ∧ n ≤ size - pos := by
  intro fuel
  induction fuel with
  | zero => intro pos s _ _ _ _ h; omega
  | succ k ih =>
    intro pos s hR hR32 hf hpos hfuel
    unfold countLoop
    by_cases hlt : pos < size
    · rw [if_pos hlt]
      by_cases ht : usub size pos < s.w.SubFrameLen
      · rw [loopBody_tail env c buffer size pos s ht]
        exact ⟨1, _, rfl, by omega⟩
      · have hus : usub size pos = size - pos := usub_eq size pos (by omega) hsize
        by_cases hw : env.writev s.out.length < 0
        · rw [loopBody_fail env c buffer size pos s ht hw]
          exact ⟨1, _, rfl, by omega⟩
        · rw [loopBody_emit env c buffer size pos s ht hw]
          have hadv := advance_eq s.w pos size hsize hR32 hf (by omega)
          have hlt2 : s.w.breakBufferFillSize < s.w.SubFrameLen := by
            rcases hf with h | h
            · omega
            · exact h
          obtain ⟨n, s1, h1, h2⟩ := ih (advance s.w pos) (emitPes env c buffer pos s) hR hR32
            (Or.inl rfl) (by rw [hadv]; omega) (by rw [hadv]; omega)
          simp only [h1]
          exact ⟨n + 1, s1, rfl, by rw [hadv] at h2; omega⟩
    · rw [if_neg hlt]
      exact ⟨0, s, rfl, Nat.zero_le _⟩

/-- With a positive region length the loop ends from any state and position. -/
theorem writeLoop_terminates_any (env : Env) (c : WriterAVCallData) (buffer : List Nat) (size : Nat)
    (hsize : size < 4294967296) (fuel pos : Nat) (s : State) (hR : 0 < s.w.SubFrameLen)
    (hR32 : s.w.SubFrameLen < 4294967296) (hfuel : size + 1 < fuel) :
    ∃ s1, writeLoop env c buffer size fuel pos s = Except.ok s1 := by
  obtain ⟨k, rfl⟩ : ∃ k, fuel = k + 1 := ⟨fuel - 1, by omega⟩
  by_cases hlt : pos < size
  · by_cases ht : usub size pos < s.w.SubFrameLen
    · exact ⟨_, writeLoop_break env c buffer size k pos s _ hlt (loopBody_tail env c buffer size pos s ht)⟩
    · by_cases hw : env.writev s.out.length < 0
      · exact ⟨_, writeLoop_break env c buffer size k pos s _ hlt
          (loopBody_fail env c buffer size pos s ht hw)⟩
      · rw [writeLoop_next env c buffer size k pos _ s _ hlt (loopBody_emit env c buffer size pos s ht hw)]
        by_cases hp1 : advance s.w pos ≤ size
        · exact writeLoop_terminates env c buffer size hsize k (advance s.w pos)
            (emitPes env c buffer pos s) hR hR32 (Or.inl rfl) hp1 (by omega)
        · obtain ⟨j, rfl⟩ : ∃ j, k = j + 1 := ⟨k - 1, by omega⟩
          exact ⟨_, writeLoop_done env c buffer size j _ _ (by omega)⟩
  · exact ⟨s, writeLoop_done env c buffer size k pos s hlt⟩

theorem frameLen_int (ch rate bits : Int) :
    (frameLen ch rate bits : Int) = ((unitLen rate : Int) * ch * Int.tdiv bits 8) % 4294967296 := by
  have h1 : ((ch % 4294967296).toNat : Int) = ch % 4294967296 :=
    Int.toNat_of_nonneg (Int.emod_nonneg _ (by decide))
  have h2 : ((Int.tdiv bits 8 % 4294967296).toNat : Int) = Int.tdiv bits 8 % 4294967296 :=
    Int.toNat_of_nonneg (Int.emod_nonneg _ (by decide))
  unfold frameLen toUInt
  push_cast
  rw [h1, h2]
  exact Int.ModEq.mul ((Int.mod_modEq _ _).trans (Int.ModEq.mul_left _ (Int.mod_modEq _ _)))
    (Int.mod_modEq _ _)

/-- What `prepareClipPlay` leaves in `SubFrameLen` is positive exactly when the 32-bit sub-frame
length is between 1 and 2016. -/
theorem prepareClipPlay_frame_pos (dz : Option Nat) (w : Writer) (ch rate bits : Int)
    (r : Int × Writer) (h : prepareClipPlay dz w ch rate bits = Except.ok r) :
    0 < r.2.SubFrameLen ↔ 1 ≤ frameLen ch rate bits ∧ frameLen ch rate bits ≤ 2016 := by
  by_cases hL : frameLen ch rate bits = 0
  · cases dz with
    | none => rw [prepareClipPlay_zero_none w ch rate bits hL] at h; cases h
    | some q =>
      rw [prepareClipPlay_zero_some q w ch rate bits hL] at h
      injection h with h
      subst h
      simp [hL]
  · rw [prepareClipPlay_pos dz w ch rate bits hL] at h
    injection h with h
    subst h
    show 0 < frameLen ch rate bits * (2016 / frameLen ch rate bits) ↔ _
    have hpos : 0 < frameLen ch rate bits := Nat.pos_of_ne_zero hL
    constructor
    · intro hp
      have hq : 0 < 2016 / frameLen ch rate bits := Nat.pos_of_mul_pos_left hp
      exact ⟨hpos, (Nat.div_pos_iff hL).mp hq⟩
    · rintro ⟨_, hle⟩
      exact Nat.mul_pos hpos (Nat.div_pos hle hpos)

theorem advance_zero (w : Writer) (pos : Nat) (hR : w.SubFrameLen = 0)
    (hf : w.breakBufferFillSize = 0) (hpos : pos < 4294967296) : advance w pos = pos := by
  unfold advance
  rw [if_neg (by omega), hR]
  exact Nat.mod_eq_of_lt hpos

/-- C21 (amended): `prepareClipPlay`, when it returns, leaves a positive region length
`SubFrameLen` exactly when the 32-bit value of `unit * channels * (bits / 8)` (the product taken
modulo `2 ^ 32`) is between 1 and 2016, which needs a supported rate.  From every state with a
positive region length and for every input the loop of `writeData` ends.  When moreover the
carry-over fill is 0 or below the region length, as in every state the writer reaches, each
pass either stores the tail and leaves the loop, or moves the read position forward by
`SubFrameLen - fill`, at least 1, not past `size`, so that at most `size` passes are made.
With `SubFrameLen = 0` and an empty carry-over a pass whose write succeeds leaves the read
position where it was. -/
theorem c21_loop_terminates (env : Env) (c : WriterAVCallData) (buffer : List Nat) (size : Nat)
    (s : State) (hsize : size < 4294967296) (hR32 : s.w.SubFrameLen < 4294967296) :
    (∀ (dz : Option Nat) (w : Writer) (ch rate bits r : Int) (w1 : Writer),
      prepareClipPlay dz w ch rate bits = Except.ok (r, w1) →
        (0 < w1.SubFrameLen ↔ 1 ≤ frameLen ch rate bits ∧ frameLen ch rate bits ≤ 2016) ∧
        (0 < w1.SubFrameLen → Supported rate) ∧
        (frameLen ch rate bits : Int)
          = ((unitLen rate : Int) * ch * Int.tdiv bits 8) % 4294967296) ∧
    (0 < s.w.SubFrameLen → ∀ fuel pos, size + 1 < fuel →
      ∃ s1, writeLoop env c buffer size fuel pos s = Except.ok s1) ∧
    (0 < s.w.SubFrameLen → FillOk s.w → ∀ pos, pos < size →
      (usub size pos < s.w.SubFrameLen ∧
        loopBody env c buffer size pos s = (stash buffer size pos s, none)) ∨
      (¬ usub size pos < s.w.SubFrameLen ∧
        (loopBody env c buffer size pos s).1 = emitPes env c buffer pos s ∧
        (0 ≤ env.writev s.out.length →
          (loopBody env c buffer size pos s).2 = some (advance s.w pos)) ∧
        advance s.w pos = pos + (s.w.SubFrameLen - s.w.breakBufferFillSize) ∧
        1 ≤ s.w.SubFrameLen - s.w.breakBufferFillSize ∧ advance s.w pos ≤ size)) ∧
    (0 < s.w.SubFrameLen → FillOk s.w → ∀ fuel, size < fuel →
      ∃ n s1, countLoop env c buffer size fuel 0 s = Except.ok (n, s1) ∧
        writeLoop env c buffer size fuel 0 s = Except.ok s1 ∧ n ≤ size) ∧
    (s.w.SubFrameLen = 0 → s.w.breakBufferFillSize = 0 → ∀ pos, pos < size →
      0 ≤ env.writev s.out.length →
      loopBody env c buffer size pos s = (emitPes env c buffer pos s, some pos)) := by
  refine ⟨?_, ?_, ?_, ?_, ?_⟩
  · intro dz w ch rate bits r w1 h
    have hp := prepareClipPlay_frame_pos dz w ch rate bits (r, w1) h
    refine ⟨hp, ?_, frameLen_int ch rate bits⟩
    intro h0
    by_contra hn
    have := frameLen_unsupported ch rate bits hn
    have := (hp.mp h0).1
    omega
  · intro hR fuel pos hfuel
    exact writeLoop_terminates_any env c buffer size hsize fuel pos s hR hR32 hfuel
  · intro hR hf pos hpos
    by_cases ht : usub size pos < s.w.SubFrameLen
    · exact Or.inl ⟨ht, loopBody_tail env c buffer size pos s ht⟩
    · right
      have hus : usub size pos = size - pos := usub_eq size pos (by omega) hsize
      have hadv := advance_eq s.w pos size hsize hR32 hf (by omega)
      have hlt2 : s.w.breakBufferFillSize < s.w.SubFrameLen := by
        rcases hf with h | h
        · omega
        · exact h
      refine ⟨ht, ?_, ?_, hadv, by omega, by omega⟩
      · by_cases hw : env.writev s.out.length < 0
        · rw [loopBody_fail env c buffer size pos s ht hw]
        · rw [loopBody_emit env c buffer size pos s ht hw]
      · intro hw
        rw [loopBody_emit env c buffer size pos s ht (by omega)]
  · intro hR hf fuel hfuel
    obtain ⟨n, s1, h1, h2⟩ := countLoop_le env c buffer size hsize fuel 0 s hR hR32 hf
      (Nat.zero_le _) (by omega)
    refine ⟨n, s1, h1, ?_, by omega⟩
    rw [countLoop_writeLoop, h1]
  · intro hR hf pos hpos hw
    have ht : ¬ usub size pos < s.w.SubFrameLen := by omega
    rw [loopBody_emit env c buffer size pos s ht (by omega),
      advance_zero s.w pos hR hf (by omega)]

/-- Witness for `c21_loop_terminates`: a 3-byte call on the writer initialized at 48000 Hz,
mono, 16 bit. -/
theorem c21_loop_terminates_witness :
    (3 : Nat) < 4294967296 ∧ monoState.w.SubFrameLen < 4294967296 ∧
    ((∀ (dz : Option Nat) (w : Writer) (ch rate bits r : Int) (w1 : Writer),
      prepareClipPlay dz w ch rate bits = Except.ok (r, w1) →
        (0 < w1.SubFrameLen ↔ 1 ≤ frameLen ch rate bits ∧ frameLen ch rate bits ≤ 2016) ∧
        (0 < w1.SubFrameLen → Supported rate) ∧
        (frameLen ch rate bits : Int)
          = ((unitLen rate : Int) * ch * Int.tdiv bits 8) % 4294967296) ∧
    (0 < monoState.w.SubFrameLen → ∀ fuel pos, 3 + 1 < fuel →
      ∃ s1, writeLoop env0 (mkCall 1 48000 16 [1, 2, 3]) [1, 2, 3] 3 fuel pos monoState
        = Except.ok s1) ∧
    (0 < monoState.w.SubFrameLen → FillOk monoState.w → ∀ pos, pos < 3 →
      (usub 3 pos < monoState.w.SubFrameLen ∧
        loopBody env0 (mkCall 1 48000 16 [1, 2, 3]) [1, 2, 3] 3 pos monoState
          = (stash [1, 2, 3] 3 pos monoState, none)) ∨
      (¬ usub 3 pos < monoState.w.SubFrameLen ∧
        (loopBody env0 (mkCall 1 48000 16 [1, 2, 3]) [1, 2, 3] 3 pos monoState).1
          = emitPes env0 (mkCall 1 48000 16 [1, 2, 3]) [1, 2, 3] pos monoState ∧
        (0 ≤ env0.writev monoState.out.length →
          (loopBody env0 (mkCall 1 48000 16 [1, 2, 3]) [1, 2, 3] 3 pos monoState).2
            = some (advance monoState.w pos)) ∧
        advance monoState.w pos
          = pos + (monoState.w.SubFrameLen - monoState.w.breakBufferFillSize) ∧
        1 ≤ monoState.w.SubFrameLen - monoState.w.breakBufferFillSize ∧
        advance monoState.w pos ≤ 3)) ∧
    (0 < monoState.w.SubFrameLen → FillOk monoState.w → ∀ fuel, 3 < fuel →
      ∃ n s1, countLoop env0 (mkCall 1 48000 16 [1, 2, 3]) [1, 2, 3] 3 fuel 0 monoState
          = Except.ok (n, s1) ∧
        writeLoop env0 (mkCall 1 48000 16 [1, 2, 3]) [1, 2, 3] 3 fuel 0 monoState
          = Except.ok s1 ∧ n ≤ 3) ∧
    (monoState.w.SubFrameLen = 0 → monoState.w.breakBufferFillSize = 0 → ∀ pos, pos < 3 →
      0 ≤ env0.writev monoState.out.length →
      loopBody env0 (mkCall 1 48000 16 [1, 2, 3]) [1, 2, 3] 3 pos monoState
        = (emitPes env0 (mkCall 1 48000 16 [1, 2, 3]) [1, 2, 3] pos monoState, some pos))) :=
  ⟨by decide, by decide,
    c21_loop_terminates env0 (mkCall 1 48000 16 [1, 2, 3]) [1, 2, 3] 3 monoState
      (by decide) (by decide)⟩

/-- C21 as stated fails.  With 214748365 channels at 48000 Hz, 16 bit, `prepareClipPlay` leaves
the positive region length 2016 although `40 * 214748365 * (16 / 8)` is not between 1 and 2016:
the product wraps to 16.  And in a state with a positive region length of 2 and 2 bytes carried
over, a pass over a 2-byte input whose write succeeds leaves the read position at 0: it advances
by `SubFrameLen - fill = 0`. -/
theorem c21_wraparound_counterexample :
    (∃ w1, prepareClipPlay none Writer.init 214748365 48000 16 = Except.ok (0, w1) ∧
      w1.SubFrameLen = 2016) ∧
    Supported 48000 ∧
    ¬ (1 ≤ (unitLen 48000 : Int) * 214748365 * Int.tdiv 16 8 ∧
        (unitLen 48000 : Int) * 214748365 * Int.tdiv 16 8 ≤ 2016) ∧
    0 < fullCarryState.w.SubFrameLen ∧
    (loopBody env0 (mkCall 1 48000 16 [1, 2]) [1, 2] 2 0 fullCarryState).2 = some 0 := by
  refine ⟨⟨_, rfl, rfl⟩, by decide, by decide, by decide, by decide⟩

/-! ## The reorder loops stay inside the region -/

theorem stash_fill (buffer : List Nat) (size pos : Nat) (s : State) :
    (stash buffer size pos s).w.breakBufferFillSize = usub size pos := rfl

/-- A valid call on an empty carry-over whose length is `k` regions, with no write failing:
the record grows by `k` PES, and the loop leaves `SubFramesPerPES` and `initialHeader` as they
were on entry. -/
theorem writeData_regions_state (env : Env) (fuel : Nat) (s : State) (c : WriterAVCallData)
    (buffer : List Nat) (w : Writer) (k : Nat) (hv : ValidCall c buffer)
    (hi : initOnce env.divZero s.w c = Except.ok w) (hf : w.breakBufferFillSize = 0)
    (hR : 0 < w.SubFrameLen) (hR32 : w.SubFrameLen < 4294967296)
    (hk : buffer.length = k * w.SubFrameLen) (hw : ∀ n, 0 ≤ env.writev n) (hfuel : k < fuel) :
    ∃ s1, writeData env fuel s (some c) = Except.ok (c.len, s1) ∧
      s1.out.length = s.out.length + k ∧ s1.w.SubFramesPerPES = w.SubFramesPerPES ∧
      s1.w.initialHeader = w.initialHeader := by
  obtain ⟨hd, hl0, hl1, hbl, hfd⟩ := hv
  obtain ⟨hu, hti⟩ := toUInt_len c.len hl0 hl1
  have hsz : toUInt c.len = buffer.length := by rw [hu]; omega
  obtain ⟨s1, ps, h1, h2, h3, _, _, _, h7⟩ :=
    writeLoop_regions env c buffer buffer.length (by omega) rfl hw k fuel 0 { s with w := w } 0
      hf hR hR32 (by show 0 + k * w.SubFrameLen + 0 = buffer.length; omega) hR hfuel
  have h8 : s1.w.initialHeader = w.initialHeader :=
    writeLoop_preserves env c buffer buffer.length (fun t => t.w.initialHeader = w.initialHeader)
      (fun pos t ht => (loopBody_initialHeader env c buffer buffer.length pos t).trans ht)
      fuel 0 _ s1 rfl h1
  refine ⟨s1, ?_, ?_, h7, h8⟩
  · rw [writeData_valid env fuel s c buffer hd hl0 hfd, hi, hti, hsz]
    simp only [h1]
  · rw [h2, List.length_append, h3]

/-- Witness for `c4_counter_mod_32`: a fresh writer and one call with 4000 bytes at 48000 Hz,
mono, 16 bit, every write succeeding.  Two PES of 25 sub-frames each are handed to `writev`;
the second carries the counter `(2 * 25) % 32 = 18`, which is also the counter in force after
the call. -/
theorem c4_counter_mod_32_witness :
    ∃ s, run env0 3 State.init ([some (mkCall 1 48000 16 (List.replicate 4000 7))].map Op.write)
        = Except.ok s ∧
      s.w.initialHeader = false ∧ s.out.length = 2 ∧ s.w.SubFramesPerPES = 25 ∧
      (State.init.out.length ≤ s.out.length ∧
        counter s.w.lpcm_prv = ((s.out.length - State.init.out.length) * s.w.SubFramesPerPES) % 32 ∧
        counter s.w.lpcm_prv < 32 ∧
        ∀ i p, s.out[State.init.out.length + i]? = some p →
          counter p.prv = ((i + 1) * s.w.SubFramesPerPES) % 32 ∧ counter p.prv < 32) ∧
      counter s.w.lpcm_prv = 18 ∧
      (∃ p, s.out[0]? = some p ∧ counter p.prv = 25) ∧
      (∃ p, s.out[1]? = some p ∧ counter p.prv = 18) := by
  obtain ⟨s1, h1, h2, h3, h4⟩ :=
    writeData_regions_state env0 3 State.init (mkCall 1 48000 16 (List.replicate 4000 7))
      (List.replicate 4000 7) monoWriter 2
      ⟨rfl, by simp only [mkCall, List.length_replicate]; decide,
        by simp only [mkCall, List.length_replicate]; decide, rfl, by decide⟩
      rfl rfl (by decide) (by decide) (by rw [List.length_replicate]; decide)
      (fun _ => Int.le_refl 0) (by decide)
  have hrun : run env0 3 State.init
      ([some (mkCall 1 48000 16 (List.replicate 4000 7))].map Op.write) = Except.ok s1 :=
    run_write_ok env0 3 State.init _ [] _ h1
  have hih : s1.w.initialHeader = false := h4
  have hlen : s1.out.length = 2 := h2
  have hper : s1.w.SubFramesPerPES = 25 := h3
  have hc := c4_counter_mod_32 env0 3 State.init
    [some (mkCall 1 48000 16 (List.replicate 4000 7))] s1 rfl hrun hih
  have c2 := hc.2.1
  have c4 := hc.2.2.2
  have h0 : State.init.out.length = 0 := rfl
  have e0 : ∃ p, s1.out[0]? = some p := by
    cases hq : s1.out[0]? with
    | none => rw [List.getElem?_eq_none_iff] at hq; omega
    | some p => exact ⟨p, rfl⟩
  have e1 : ∃ p, s1.out[1]? = some p := by
    cases hq : s1.out[1]? with
    | none => rw [List.getElem?_eq_none_iff] at hq; omega
    | some p => exact ⟨p, rfl⟩
  obtain ⟨p0, hp0⟩ := e0
  obtain ⟨p1, hp1⟩ := e1
  refine ⟨s1, hrun, hih, hlen, hper, hc, ?_, ⟨p0, hp0, ?_⟩, ⟨p1, hp1, ?_⟩⟩
  · rw [c2, hlen, hper, h0]
  · have := (c4 0 p0 (by rw [h0]; exact hp0)).1
    rw [this, hper]
  · have := (c4 1 p1 (by rw [h0]; exact hp1)).1
    rw [this, hper]

end Pcm

namespace Player

/-! ## Stop and its closing loop -/

theorem endBackWard_fields (s : PlayerState) :
    (endBackWard s).isBackWard = false ∧ (endBackWard s).isPlaying = s.isPlaying ∧
    (endBackWard s).isPaused = s.isPaused ∧ (endBackWard s).isForwarding = s.isForwarding ∧
    (endBackWard s).isSlowMotion = s.isSlowMotion ∧ (endBackWard s).Speed = s.Speed ∧
    (endBackWard s).isHttp = s.isHttp ∧ (endBackWard s).hasThreadStarted = s.hasThreadStarted := by
  unfold endBackWard
  cases h : s.isBackWard <;> simp [emit, h]

theorem stopBody_idle (s : PlayerState) (h : s.isPlaying = false) : stopBody s = (false, s) := by
  simp [stopBody, h]

theorem stopBody_ret (s : PlayerState) : (stopBody s).1 = s.isPlaying := by
  cases h : s.isPlaying <;> simp [stopBody, h]

/-- The statements before the loop do not write the flag. -/
theorem stopBody_flag (s : PlayerState) :
    (stopBody s).2.hasThreadStarted = s.hasThreadStarted := by
  cases h : s.isPlaying
  · rw [stopBody_idle s h]
  · have hb := endBackWard_fields { s with isPaused := false, isPlaying := false, isForwarding := false }
    simp only [stopBody, h, if_true, emit]
    exact hb.2.2.2.2.2.2.2

theorem stopBody_modes (s : PlayerState) (h : s.isPlaying = true) :
    (stopBody s).1 = true ∧ (stopBody s).2.isPlaying = false ∧ (stopBody s).2.isPaused = false ∧
    (stopBody s).2.isForwarding = false ∧ (stopBody s).2.isBackWard = false ∧
    (stopBody s).2.isSlowMotion = false ∧ (stopBody s).2.Speed = 0 ∧
    (stopBody s).2.cmds.getLast? = some Cmd.inStop := by
  have hb := endBackWard_fields { s with isPaused := false, isPlaying := false, isForwarding := false }
  simp only [stopBody, h, if_true, emit]
  simp [hb.1, hb.2.1, hb.2.2.1, hb.2.2.2.1]

theorem stopBody_stopped (s : PlayerState) : (stopBody s).2.isPlaying = false := by
  cases h : s.isPlaying
  · rw [stopBody_idle s h]; exact h
  · exact (stopBody_modes s h).2.1

/-- A step of the playback thread on a player that is not playing writes the flag only. -/
theorem threadStep_stopped (st : ThreadStep) (t : PlayerState) (h : t.isPlaying = false) :
    (threadStep st t).isPlaying = false ∧
    { threadStep st t with hasThreadStarted := false } = { t with hasThreadStarted := false } := by
  cases st with
  | idle => exact ⟨h, rfl⟩
  | enter => exact ⟨h, rfl⟩
  | exit =>
    have hi : ({ t with hasThreadStarted := false } : PlayerState).isPlaying = false := h
    have he : threadStep ThreadStep.exit t = { t with hasThreadStarted := false } := by
      show (stopBody { t with hasThreadStarted := false }).2 = _
      rw [stopBody_idle _ hi]
    rw [he]
    exact ⟨h, rfl⟩

theorem threadStep_exit_flag (t : PlayerState) :
    (threadStep ThreadStep.exit t).hasThreadStarted = false := by
  show (stopBody { t with hasThreadStarted := false }).2.hasThreadStarted = false
  rw [stopBody_flag]

theorem threadStep_keeps_flag (st : ThreadStep) (t : PlayerState) (hst : st ≠ ThreadStep.exit)
    (h : t.hasThreadStarted = true) : (threadStep st t).hasThreadStarted = true := by
  cases st with
  | idle => exact h
  | enter => rfl
  | exit => exact absurd rfl hst

theorem flag_cleared_eq (t : PlayerState) (h : t.hasThreadStarted = false) :
    t = { t with hasThreadStarted := false } := by
  rcases t with ⟨ht, pa, pl, fw, bw, sm, sp, http, np, ab, url, cmds⟩
  simp only at h
  subst h
  rfl

/-- The loop is left only in a state whose flag reads cleared; on a player that is not playing
this state differs from the one at the start of the loop in the flag only. -/
theorem stopWait_some (thread : Nat → ThreadStep) :
    ∀ fuel k t u, stopWait thread fuel k t = some u → t.isPlaying = false →
      u.hasThreadStarted = false ∧ u = { t with hasThreadStarted := false } := by
  intro fuel
  induction fuel with
  | zero => intro k t u h; cases h
  | succ f ih =>
    intro k t u h hp
    unfold stopWait at h
    by_cases hf : t.hasThreadStarted = true
    · rw [if_pos hf] at h
      obtain ⟨hp1, he1⟩ := threadStep_stopped (thread k) t hp
      obtain ⟨h1, h2⟩ := ih (k + 1) _ u h hp1
      exact ⟨h1, h2.trans he1⟩
    · rw [if_neg hf] at h
      injection h with h
      subst h
      have hf0 : t.hasThreadStarted = false := by simpa using hf
      exact ⟨hf0, flag_cleared_eq t hf0⟩

/-- A test that reads the flag as cleared ends the loop at once. -/
theorem stopWait_clear (thread : Nat → ThreadStep) (fuel k : Nat) (t : PlayerState)
    (h : t.hasThreadStarted = false) : stopWait thread (fuel + 1) k t = some t := by
  unfold stopWait
  rw [if_neg (by simp [h])]

/-- Once the playback thread has taken its last step the loop ends. -/
theorem stopWait_returns (thread : Nat → ThreadStep) :
    ∀ fuel k0 k t, k0 ≤ k → k + 1 < k0 + fuel → thread k = ThreadStep.exit →
      ∃ u, stopWait thread fuel k0 t = some u := by
  intro fuel
  induction fuel with
  | zero => intro k0 k t h1 h2 _; omega
  | succ f ih =>
    intro k0 k t h1 h2 hk
    by_cases hf : t.hasThreadStarted = true
    · unfold stopWait
      rw [if_pos hf]
      by_cases hkk : k = k0
      · subst hkk
        rw [hk]
        obtain ⟨g, rfl⟩ : ∃ g, f = g + 1 := ⟨f - 1, by omega⟩
        exact ⟨_, stopWait_clear thread g (k + 1) _ (threadStep_exit_flag t)⟩
      · exact ih (k0 + 1) k _ (by omega) (by omega) hk
    · exact ⟨t, stopWait_clear thread f k0 t (by simpa using hf)⟩

/-- While the flag is set and the playback thread does not take its last step, the loop goes
on. -/
theorem stopWait_spins (thread : Nat → ThreadStep) (hth : ∀ k, thread k ≠ ThreadStep.exit) :
    ∀ fuel k t, t.hasThreadStarted = true → stopWait thread fuel k t = none := by
  intro fuel
  induction fuel with
  | zero => intro k t _; rfl
  | succ f ih =>
    intro k t h
    unfold stopWait
    rw [if_pos h]
    exact ih (k + 1) _ (threadStep_keeps_flag (thread k) t (hth k) h)

theorem Stop_some (thread : Nat → ThreadStep) (fuel : Nat) (s : PlayerState) (r : Bool × PlayerState)
    (h : Stop thread fuel s = some r) :
    r.1 = (stopBody s).1 ∧ stopWait thread fuel 0 (stopBody s).2 = some r.2 := by
  unfold Stop at h
  cases hw : stopWait thread fuel 0 (stopBody s).2 with
  | none => rw [hw] at h; cases h
  | some t =>
    rw [hw] at h
    injection h with h
    subst h
    exact ⟨rfl, rfl⟩

/-- Whenever `Stop` returns, whatever the playback thread has done meanwhile: the value is
that of `ret` and the state is the one its statements before the loop leave, with the flag
cleared (by the playback thread). -/
theorem Stop_result (thread : Nat → ThreadStep) (fuel : Nat) (s : PlayerState)
    (r : Bool × PlayerState) (h : Stop thread fuel s = some r) :
    r.1 = s.isPlaying ∧ r.2.hasThreadStarted = false ∧
    r.2 = { (stopBody s).2 with hasThreadStarted := false } := by
  obtain ⟨h1, h2⟩ := Stop_some thread fuel s r h
  obtain ⟨h3, h4⟩ := stopWait_some thread fuel 0 _ r.2 h2 (stopBody_stopped s)
  exact ⟨h1.trans (stopBody_ret s), h3, h4⟩

/-- With the flag cleared on entry `Stop` returns at the first test of its loop. -/
theorem Stop_at_once (thread : Nat → ThreadStep) (fuel : Nat) (s : PlayerState)
    (h : s.hasThreadStarted = false) : Stop thread (fuel + 1) s = some (stopBody s) := by
  unfold Stop
  rw [stopWait_clear thread fuel 0 _ ((stopBody_flag s).trans h)]

/-- The `Stop ()` at the end of `playthread` returns at the first test of its loop, in the
state `playthreadExit` gives. -/
theorem playthreadExit_Stop (thread : Nat → ThreadStep) (fuel : Nat) (s : PlayerState) :
    Stop thread (fuel + 1) { s with hasThreadStarted := false }
      = some ((stopBody { s with hasThreadStarted := false }).1, playthreadExit s) :=
  Stop_at_once thread fuel _ rfl

/-! ## Calls that the state machine rejects -/

theorem Open_mode (s : PlayerState) (Url : String) (np ok : Bool) :
    SameMode s (Open s Url np ok).2 := by
  unfold Open
  simp only [emit]
  split_ifs <;> simp [SameMode]

theorem Play_modeInv (s : PlayerState) (playOk : Bool) (err : Int) (h : ModeInv s) :
    ModeInv (Play s playOk err).2 := by
  rcases s with ⟨ht, pa, pl, fw, bw, sm, sp, http, np, ab, url, cmds⟩
  cases pl <;> cases playOk <;> cases bw <;> cases ht <;>
    simp [ModeInv, Play, endBackWard, emit] at h ⊢ <;>
    first
      | exact h
      | (split_ifs <;> simp)

theorem Pause_modeInv (s : PlayerState) (h : ModeInv s) : ModeInv (Pause s).2 := by
  rcases s with ⟨ht, pa, pl, fw, bw, sm, sp, http, np, ab, url, cmds⟩
  cases pl <;> cases pa <;> cases bw <;> cases sm <;>
    simp [ModeInv, Pause, endBackWard, emit] at h ⊢ <;> exact h

theorem Continue_modeInv (s : PlayerState) (h : ModeInv s) : ModeInv (Continue s).2 := by
  rcases s with ⟨ht, pa, pl, fw, bw, sm, sp, http, np, ab, url, cmds⟩
  cases pl <;> cases pa <;> cases bw <;> cases sm <;> cases fw <;>
    simp [ModeInv, Continue, endBackWard, emit] at h ⊢ <;> exact h

theorem stopBody_modeInv (s : PlayerState) (h : ModeInv s) : ModeInv (stopBody s).2 := by
  rcases s with ⟨ht, pa, pl, fw, bw, sm, sp, http, np, ab, url, cmds⟩
  cases pl <;> cases bw <;>
    simp [ModeInv, stopBody, endBackWard, emit] at h ⊢ <;> exact h

theorem Stop_modeInv (thread : Nat → ThreadStep) (fuel : Nat) (s : PlayerState)
    (r : Bool × PlayerState) (h : ModeInv s) (hr : Stop thread fuel s = some r) : ModeInv r.2 := by
  rw [(Stop_result thread fuel s r hr).2.2]
  exact stopBody_modeInv s h

theorem FastForward_modeInv (s : PlayerState) (v : Bool) (speed : Int) (h : ModeInv s) :
    ModeInv (FastForward s v speed).2 := by
  rcases s with ⟨ht, pa, pl, fw, bw, sm, sp, http, np, ab, url, cmds⟩
  unfold FastForward
  split_ifs with h1 h2
  · exact h
  · simp only [cMaxSpeed_ff, not_or, not_le, not_lt] at h2
    simp [ModeInv, emit] at h h1 ⊢
    refine ⟨h.1, ⟨by omega, by omega⟩, ?_⟩
    intro hb; simp [hb] at h1
  · exact h

theorem FastBackward_modeInv (s : PlayerState) (v : Bool) (speed : Int) (h : ModeInv s) :
    ModeInv (FastBackward s v speed).2 := by
  rcases s with ⟨ht, pa, pl, fw, bw, sm, sp, http, np, ab, url, cmds⟩
  by_cases hr : speed > 0 ∨ speed < cMaxSpeed_fr
  · cases v <;> cases pa <;> cases pl <;> cases fw <;> cases bw <;>
      simp [ModeInv, FastBackward, emit, hr] at h ⊢ <;> exact h
  · have hr2 : -320 ≤ speed ∧ speed ≤ 0 := by
      simp only [cMaxSpeed_fr, not_or, not_lt] at hr; omega
    by_cases h0 : speed = 0
    · cases v <;> cases pa <;> cases pl <;> cases fw <;> cases bw <;>
        simp [ModeInv, FastBackward, emit, hr, h0, cMaxSpeed_fr] at h ⊢ <;> exact h
    · cases v <;> cases pa <;> cases pl <;> cases fw <;> cases bw <;>
        simp [ModeInv, FastBackward, emit, hr, h0] at h ⊢ <;>
        first
          | exact h
          | omega

theorem modeInv_of_fields (s t : PlayerState) (h : ModeInv s)
    (e1 : t.isPaused = s.isPaused) (e2 : t.isPlaying = s.isPlaying)
    (e3 : t.isForwarding = s.isForwarding) (e4 : t.isBackWard = s.isBackWard)
    (e5 : t.Speed = s.Speed) : ModeInv t := by
  unfold ModeInv
  rw [e1, e2, e3, e4, e5]
  exact h

theorem SlowMotion_modeInv (s : PlayerState) (v : Bool) (repeats : Int) (h : ModeInv s) :
    ModeInv (SlowMotion s v repeats).2 := by
  have hc : ModeInv (if s.isPaused = true then (Continue s).2 else s) := by
    split_ifs
    · exact Continue_modeInv s h
    · exact h
  by_cases h1 : (v && !s.isHttp && s.isPlaying) = true
  · apply modeInv_of_fields _ _ hc <;>
      (simp only [SlowMotion, h1, if_true]; split_ifs <;> rfl)
  · simp only [SlowMotion, h1]
    exact h

theorem step_modeInv (s : PlayerState) (op : PlayerOp) (h : ModeInv s) : ModeInv (step s op) := by
  cases op with
  | opOpen Url np ok =>
    obtain ⟨e1, e2, e3, e4, _, e6⟩ := Open_mode s Url np ok
    show ModeInv (Open s Url np ok).2
    unfold ModeInv
    rw [e1, e2, e3, e4, e6]
    exact h
  | opClose => simp [step, Close, ModeInv]
  | opPlay playOk err => exact Play_modeInv s playOk err h
  | opPause => exact Pause_modeInv s h
  | opContinue => exact Continue_modeInv s h
  | opStop thread fuel =>
    show ModeInv (match Stop thread fuel s with
      | some r => r.2
      | none => (stopBody s).2)
    cases hr : Stop thread fuel s with
    | none => exact stopBody_modeInv s h
    | some r => exact Stop_modeInv thread fuel s r h hr
  | opFastForward v sp => exact FastForward_modeInv s v sp h
  | opFastBackward v sp => exact FastBackward_modeInv s v sp h
  | opSlowMotion v r => exact SlowMotion_modeInv s v r h
  | opSeek ok => simpa [step, Seek, ModeInv, emit] using h
  | opThreadEnter => simpa [step, playthreadEnter, ModeInv] using h
  | opThreadExit => exact stopBody_modeInv _ (by simpa [ModeInv] using h)

/-- Every state reached from a new player satisfies the mode invariant. -/
theorem runOps_modeInv (ops : List PlayerOp) : ∀ s, ModeInv s → ModeInv (runOps s ops) := by
  induction ops with
  | nil => intro s h; exact h
  | cons op ops ih => intro s h; exact ih (step s op) (step_modeInv s op h)

theorem new_modeInv : ModeInv PlayerState.new := by
  simp [ModeInv, PlayerState.new]

/-- C20: in every state reached from a new player by Open, Close, Play, Pause, Continue, Stop,
FastForward, FastBackward, SlowMotion and Seek calls, whatever the collaborators answer, and
by the steps of the playback thread: isPaused implies isPlaying, isForwarding implies
`1 ≤ Speed ≤ 128`, isBackWard implies `-320 ≤ Speed ≤ -1`; so forwarding and backward are never
both set and the test `!isPaused || isPlaying` in the guards of FastForward and FastBackward
is always true. -/
theorem c20_reachable_modes (ops : List PlayerOp) :
    ((runOps PlayerState.new ops).isPaused = true → (runOps PlayerState.new ops).isPlaying = true) ∧
    ((runOps PlayerState.new ops).isForwarding = true →
      1 ≤ (runOps PlayerState.new ops).Speed ∧ (runOps PlayerState.new ops).Speed ≤ 128) ∧
    ((runOps PlayerState.new ops).isBackWard = true →
      -320 ≤ (runOps PlayerState.new ops).Speed ∧ (runOps PlayerState.new ops).Speed ≤ -1) ∧
    ¬ ((runOps PlayerState.new ops).isForwarding = true ∧ (runOps PlayerState.new ops).isBackWard = true) ∧
    (!(runOps PlayerState.new ops).isPaused || (runOps PlayerState.new ops).isPlaying) = true := by
  obtain ⟨h1, h2, h3⟩ := runOps_modeInv ops PlayerState.new new_modeInv
  refine ⟨h1, h2, h3, ?_, ?_⟩
  · rintro ⟨hf, hb⟩
    have := h2 hf
    have := h3 hb
    omega
  · cases hp : (runOps PlayerState.new ops).isPaused with
    | false => rfl
    | true => simp [h1 hp]

/-! ## The trick-play operations -/

/-- C11 (amended): in every reachable state with the source not HTTP and the player not in
backward mode, FastForward with a video track and `0 < speed ≤ 128` succeeds, sets
isForwarding and `Speed = speed` and passes the speed to the sink; in any state, for every
`speed ≤ 0` or `speed > 128` it fails and leaves the state as it was. -/
theorem c11_fast_forward (ops : List PlayerOp) (s : PlayerState) (videoTrack : Bool) (speed : Int) :
    (s = runOps PlayerState.new ops → 0 < speed → speed ≤ 128 → s.isHttp = false →
      s.isBackWard = false →
      FastForward s true speed =
        (true, emit { s with isForwarding := true, Speed := speed } (Cmd.outFastForward speed)) ∧
      (FastForward s true speed).2.isForwarding = true ∧ (FastForward s true speed).2.Speed = speed) ∧
    (speed ≤ 0 ∨ 128 < speed → FastForward s videoTrack speed = (false, s)) := by
  constructor
  · intro hs h0 h1 hh hb
    have hinv : ModeInv s := hs ▸ runOps_modeInv ops PlayerState.new new_modeInv
    have hg : (!s.isPaused || s.isPlaying) = true := by
      cases hp : s.isPaused with
      | false => rfl
      | true => simp [hinv.1 hp]
    have hr : ¬ (speed ≤ 0 ∨ speed > cMaxSpeed_ff) := by simp only [cMaxSpeed_ff]; omega
    have he : FastForward s true speed =
        (true, emit { s with isForwarding := true, Speed := speed } (Cmd.outFastForward speed)) := by
      simp only [FastForward, hh, hb, hg, hr]
      rfl
    rw [he]
    exact ⟨rfl, rfl, rfl⟩
  · intro hr
    have hr2 : speed ≤ 0 ∨ speed > cMaxSpeed_ff := by simp only [cMaxSpeed_ff]; omega
    unfold FastForward
    split_ifs <;> rfl

/-- Witness for `c11_fast_forward`: FastForward (64) on a new player, and FastForward (200). -/
theorem c11_fast_forward_witness :
    (FastForward PlayerState.new true 64 =
        (true, emit { PlayerState.new with isForwarding := true, Speed := 64 } (Cmd.outFastForward 64)) ∧
      (FastForward PlayerState.new true 64).2.isForwarding = true ∧
      (FastForward PlayerState.new true 64).2.Speed = 64) ∧
    FastForward PlayerState.new true 200 = (false, PlayerState.new) :=
  ⟨(c11_fast_forward [] PlayerState.new true 64).1 rfl (by decide) (by decide) rfl rfl,
   (c11_fast_forward [] PlayerState.new true 200).2 (Or.inr (by decide))⟩

/-- C11 as stated fails: after `Open ("mms://host/path")` the source is HTTP-like, and
FastForward (64) with a video track, the player not in backward mode, is refused. -/
theorem c11_http_counterexample :
    (runOps PlayerState.new [PlayerOp.opOpen "mms://host/path" false true]).isBackWard = false ∧
    (runOps PlayerState.new [PlayerOp.opOpen "mms://host/path" false true]).isHttp = true ∧
    (FastForward (runOps PlayerState.new [PlayerOp.opOpen "mms://host/path" false true]) true 64).1
      = false := by
  decide

/-! ## Stop -/

/-- C12: whenever `Stop` returns, whatever the playback thread does meanwhile, it returns
`false` when isPlaying was false and `true` when it was true, in which case isPlaying,
isPaused, isForwarding, isBackWard and isSlowMotion are cleared, `Speed = 0` and the sink and
the input have been stopped; in both cases hasThreadStarted is false in the state on return.
`Stop` does not write the flag: it returns at the first test of its closing loop when the flag
is cleared on entry, it returns once the playback thread has taken its last step, and as long
as the flag is set and the thread does not take that step it does not return. -/
theorem c12_stop (thread : Nat → ThreadStep) (fuel : Nat) (s : PlayerState) :
    (∀ r, Stop thread fuel s = some r →
      (s.isPlaying = false → r.1 = false) ∧
      (s.isPlaying = true →
        r.1 = true ∧ r.2.isPlaying = false ∧ r.2.isPaused = false ∧
        r.2.isForwarding = false ∧ r.2.isBackWard = false ∧
        r.2.isSlowMotion = false ∧ r.2.Speed = 0 ∧
        r.2.cmds.getLast? = some Cmd.inStop) ∧
      r.2.hasThreadStarted = false) ∧
    (s.hasThreadStarted = false → 0 < fuel → ∃ r, Stop thread fuel s = some r) ∧
    (∀ k, k + 1 < fuel → thread k = ThreadStep.exit → ∃ r, Stop thread fuel s = some r) ∧
    (s.hasThreadStarted = true → (∀ k, thread k ≠ ThreadStep.exit) → Stop thread fuel s = none) := by
  refine ⟨fun r hr => ?_, fun hf h0 => ?_, fun k hk hth => ?_, fun hf hth => ?_⟩
  · obtain ⟨h1, h2, h3⟩ := Stop_result thread fuel s r hr
    refine ⟨fun h => h1.trans h, fun h => ?_, h2⟩
    obtain ⟨_, m1, m2, m3, m4, m5, m6, m7⟩ := stopBody_modes s h
    rw [h3]
    exact ⟨h1.trans h, m1, m2, m3, m4, m5, m6, m7⟩
  · obtain ⟨g, rfl⟩ : ∃ g, fuel = g + 1 := ⟨fuel - 1, by omega⟩
    exact ⟨_, Stop_at_once thread g s hf⟩
  · obtain ⟨u, hu⟩ := stopWait_returns thread fuel 0 k (stopBody s).2 (Nat.zero_le _) (by omega) hth
    refine ⟨((stopBody s).1, u), ?_⟩
    unfold Stop
    rw [hu]
  · unfold Stop
    rw [stopWait_spins thread hth fuel 0 _ ((stopBody_flag s).trans hf)]

/-- Witness for `c12_stop`: `Stop` on a playing player whose thread is running and takes its
last step during the second `usleep` returns `true` with the mode and the flag cleared; on a
new player it returns `false`; with the thread running and never ending it does not return. -/
theorem c12_stop_witness :
    playingState.isPlaying = true ∧ playingState.hasThreadStarted = true ∧
    (∃ r, Stop (exitAfter 1) 4 playingState = some r ∧
      r.1 = true ∧ r.2.isPlaying = false ∧ r.2.isPaused = false ∧
      r.2.isForwarding = false ∧ r.2.isBackWard = false ∧
      r.2.isSlowMotion = false ∧ r.2.Speed = 0 ∧
      r.2.cmds.getLast? = some Cmd.inStop ∧ r.2.hasThreadStarted = false) ∧
    (∃ r, Stop (fun _ => ThreadStep.idle) 1 PlayerState.new = some r ∧ r.1 = false ∧
      r.2.hasThreadStarted = false) ∧
    Stop (fun _ => ThreadStep.idle) 4 playingState = none := by
  refine ⟨rfl, rfl, ?_, ?_, ?_⟩
  · obtain ⟨r, hr⟩ := (c12_stop (exitAfter 1) 4 playingState).2.2.1 1 (by decide) rfl
    obtain ⟨_, h2, h3⟩ := (c12_stop (exitAfter 1) 4 playingState).1 r hr
    obtain ⟨m0, m1, m2, m3, m4, m5, m6, m7⟩ := h2 rfl
    exact ⟨r, hr, m0, m1, m2, m3, m4, m5, m6, m7, h3⟩
  · obtain ⟨r, hr⟩ := (c12_stop (fun _ => ThreadStep.idle) 1 PlayerState.new).2.1 rfl (by decide)
    obtain ⟨h1, _, h3⟩ := (c12_stop (fun _ => ThreadStep.idle) 1 PlayerState.new).1 r hr
    exact ⟨r, hr, h1 rfl, h3⟩
  · exact (c12_stop (fun _ => ThreadStep.idle) 4 playingState).2.2.2 rfl (fun _ => by decide)

/-- C14 (the code leaves the flag set): after a successful Play and SlowMotion (2), with a
video track and a source that is not HTTP, SlowMotion (3) returns `true` and passes 0 to the
sink, but isSlowMotion, set by SlowMotion (2), is still set after the call although 3 is not
one of 2, 4, 8: the `default` case resets only `repeats`. -/
theorem c14_flag_survives_invalid_repeats :
    (runOps PlayerState.new [PlayerOp.opPlay true 0, PlayerOp.opSlowMotion true 2]).isPlaying = true ∧
    (runOps PlayerState.new [PlayerOp.opPlay true 0, PlayerOp.opSlowMotion true 2]).isHttp = false ∧
    (SlowMotion (runOps PlayerState.new [PlayerOp.opPlay true 0, PlayerOp.opSlowMotion true 2]) true 3).1
      = true ∧
    (SlowMotion (runOps PlayerState.new [PlayerOp.opPlay true 0, PlayerOp.opSlowMotion true 2]) true 3).2.cmds.getLast?
      = some (Cmd.outSlowMotion 0) ∧
    (SlowMotion (runOps PlayerState.new [PlayerOp.opPlay true 0, PlayerOp.opSlowMotion true 2]) true 3).2.isSlowMotion
      = true := by
  decide

/-- C15: a Play that succeeds, a Pause that succeeds and a Continue that succeeds each end with
`Speed = 1` and isForwarding, isBackWard and isSlowMotion cleared.  Play called when not
playing succeeds when the sink starts and the thread, if one has to be created, is created,
and yields isPlaying and not isPaused; Pause succeeds exactly when isPlaying and not isPaused
and yields isPaused, isPlaying kept; Continue succeeds exactly when isPlaying and one of
isPaused, isForwarding, isBackWard, isSlowMotion holds and yields not isPaused, isPlaying
kept. -/
theorem c15_normal_transitions (s : PlayerState) (playOk : Bool) (err : Int) :
    ((Play s playOk err).1 = true →
      (Play s playOk err).2.Speed = 1 ∧ (Play s playOk err).2.isForwarding = false ∧
      (Play s playOk err).2.isBackWard = false ∧ (Play s playOk err).2.isSlowMotion = false ∧
      (Play s playOk err).2.isPlaying = true ∧ (Play s playOk err).2.isPaused = false) ∧
    (s.isPlaying = false → playOk = true → (s.hasThreadStarted = true ∨ err = 0) →
      (Play s playOk err).1 = true) ∧
    ((Pause s).1 = true ↔ (s.isPlaying = true ∧ s.isPaused = false)) ∧
    ((Pause s).1 = true →
      (Pause s).2.Speed = 1 ∧ (Pause s).2.isForwarding = false ∧ (Pause s).2.isBackWard = false ∧
      (Pause s).2.isSlowMotion = false ∧ (Pause s).2.isPaused = true ∧
      (Pause s).2.isPlaying = true) ∧
    ((Continue s).1 = true ↔
      (s.isPlaying = true ∧ (s.isPaused = true ∨ s.isForwarding = true ∨ s.isBackWard = true ∨
        s.isSlowMotion = true))) ∧
    ((Continue s).1 = true →
      (Continue s).2.Speed = 1 ∧ (Continue s).2.isForwarding = false ∧
      (Continue s).2.isBackWard = false ∧ (Continue s).2.isSlowMotion = false ∧
      (Continue s).2.isPaused = false ∧ (Continue s).2.isPlaying = true) := by
  rcases s with ⟨ht, pa, pl, fw, bw, sm, sp, http, np, ab, url, cmds⟩
  refine ⟨?_, ?_, ?_, ?_, ?_, ?_⟩
  · cases pl <;> cases playOk <;> cases bw <;> cases ht <;>
      simp [Play, endBackWard, emit] <;> split_ifs <;> simp
  · intro h1 h2 h3
    simp only at h1 h3
    subst h1; subst h2
    cases bw <;> cases ht <;> simp [Play, endBackWard, emit] at h3 ⊢ <;> simp [h3]
  · cases pl <;> cases pa <;> simp [Pause]
  · cases pl <;> cases pa <;> cases bw <;> cases sm <;> simp [Pause, endBackWard, emit]
  · cases pl <;> cases pa <;> cases fw <;> cases bw <;> cases sm <;> simp [Continue]
  · cases pl <;> cases pa <;> cases fw <;> cases bw <;> cases sm <;>
      simp [Continue, endBackWard, emit]

/-- Witness for `c15_normal_transitions`: Play on a new player, then Pause, then Continue. -/
theorem c15_normal_transitions_witness :
    (Play PlayerState.new true 0).1 = true ∧
    ((Play PlayerState.new true 0).2.Speed = 1 ∧ (Play PlayerState.new true 0).2.isForwarding = false ∧
      (Play PlayerState.new true 0).2.isBackWard = false ∧
      (Play PlayerState.new true 0).2.isSlowMotion = false ∧
      (Play PlayerState.new true 0).2.isPlaying = true ∧
      (Play PlayerState.new true 0).2.isPaused = false) ∧
    ((Pause (Play PlayerState.new true 0).2).2.Speed = 1 ∧
      (Pause (Play PlayerState.new true 0).2).2.isForwarding = false ∧
      (Pause (Play PlayerState.new true 0).2).2.isBackWard = false ∧
      (Pause (Play PlayerState.new true 0).2).2.isSlowMotion = false ∧
      (Pause (Play PlayerState.new true 0).2).2.isPaused = true ∧
      (Pause (Play PlayerState.new true 0).2).2.isPlaying = true) ∧
    ((Continue (Pause (Play PlayerState.new true 0).2).2).2.Speed = 1 ∧
      (Continue (Pause (Play PlayerState.new true 0).2).2).2.isForwarding = false ∧
      (Continue (Pause (Play PlayerState.new true 0).2).2).2.isBackWard = false ∧
      (Continue (Pause (Play PlayerState.new true 0).2).2).2.isSlowMotion = false ∧
      (Continue (Pause (Play PlayerState.new true 0).2).2).2.isPaused = false ∧
      (Continue (Pause (Play PlayerState.new true 0).2).2).2.isPlaying = true) :=
  ⟨(c15_normal_transitions PlayerState.new true 0).2.1 rfl rfl (Or.inr rfl),
   (c15_normal_transitions PlayerState.new true 0).1 (by decide),
   (c15_normal_transitions (Play PlayerState.new true 0).2 true 0).2.2.2.1 (by decide),
   (c15_normal_transitions (Pause (Play PlayerState.new true 0).2).2 true 0).2.2.2.2.2 (by decide)⟩

/-- C16: in every reachable state with the player not forwarding, FastBackward with a video
track and `-320 ≤ speed ≤ 0` succeeds and clears the sink buffers; afterwards isBackWard holds
exactly when `speed ≠ 0`, with `Speed = speed`, and the sink is muted exactly then; in any
state every `speed > 0` or `speed < -320` is refused. -/
theorem c16_fast_backward (ops : List PlayerOp) (s : PlayerState) (videoTrack : Bool) (speed : Int) :
    (s = runOps PlayerState.new ops → -320 ≤ speed → speed ≤ 0 → s.isForwarding = false →
      (FastBackward s true speed).1 = true ∧
      ((FastBackward s true speed).2.isBackWard = true ↔ speed ≠ 0) ∧
      (FastBackward s true speed).2.Speed = speed ∧
      (FastBackward s true speed).2.cmds =
        s.cmds ++ [Cmd.outClear] ++ (if speed ≠ 0 then [Cmd.outMute true] else [])) ∧
    (0 < speed ∨ speed < -320 → (FastBackward s videoTrack speed).1 = false) := by
  constructor
  · intro hs h0 h1 hf
    have hinv : ModeInv s := hs ▸ runOps_modeInv ops PlayerState.new new_modeInv
    have hg : (!s.isPaused || s.isPlaying) = true := by
      cases hp : s.isPaused with
      | false => rfl
      | true => simp [hinv.1 hp]
    have hr : ¬ (speed > 0 ∨ speed < cMaxSpeed_fr) := by simp only [cMaxSpeed_fr]; omega
    by_cases hz : speed = 0
    · simp [FastBackward, hf, hg, hr, hz, emit, cMaxSpeed_fr]
    · simp [FastBackward, hf, hg, hr, hz, emit]
  · intro hr
    have hr2 : speed > 0 ∨ speed < cMaxSpeed_fr := by simp only [cMaxSpeed_fr]; omega
    unfold FastBackward
    split_ifs <;> rfl

/-- Witness for `c16_fast_backward`: FastBackward (-8) on a new player, and FastBackward (5). -/
theorem c16_fast_backward_witness :
    ((FastBackward PlayerState.new true (-8)).1 = true ∧
      ((FastBackward PlayerState.new true (-8)).2.isBackWard = true ↔ (-8 : Int) ≠ 0) ∧
      (FastBackward PlayerState.new true (-8)).2.Speed = -8 ∧
      (FastBackward PlayerState.new true (-8)).2.cmds =
        PlayerState.new.cmds ++ [Cmd.outClear] ++ (if (-8 : Int) ≠ 0 then [Cmd.outMute true] else [])) ∧
    (FastBackward PlayerState.new true 5).1 = false :=
  ⟨(c16_fast_backward [] PlayerState.new true (-8)).1 rfl (by decide) (by decide) rfl,
   (c16_fast_backward [] PlayerState.new true 5).2 (Or.inl (by decide))⟩

/-! ## Open -/

theorem hasScheme_iff (cs : List Char) :
    hasScheme cs = true ↔ ∃ a b, cs = a ++ [':', '/', '/'] ++ b := by
  induction cs with
  | nil =>
    simp only [hasScheme]
    constructor
    · intro h; cases h
    · rintro ⟨a, b, h⟩
      have := congrArg List.length h
      simp at this
      omega
  | cons c cs ih =>
    simp only [hasScheme, Bool.or_eq_true, Bool.and_eq_true, beq_iff_eq]
    constructor
    · rintro (⟨hc, ht⟩ | h)
      · refine ⟨[], cs.drop 2, ?_⟩
        have : cs = cs.take 2 ++ cs.drop 2 := (List.take_append_drop 2 cs).symm
        rw [ht] at this
        rw [hc]
        simpa using this
      · obtain ⟨a, b, hab⟩ := ih.mp h
        exact ⟨c :: a, b, by rw [hab]; simp⟩
    · rintro ⟨a, b, h⟩
      cases a with
      | nil =>
        left
        simp at h
        obtain ⟨hc, hcs⟩ := h
        exact ⟨hc, by rw [hcs]; simp⟩
      | cons x a =>
        right
        simp at h
        exact ih.mpr ⟨a, b, by rw [h.2]; simp⟩

theorem take6_iff (cs : List Char) :
    cs.take 6 = "mms://".data ↔ ∃ t, cs = "mms://".data ++ t := by
  constructor
  · intro h
    exact ⟨cs.drop 6, by rw [← h]; exact (List.take_append_drop 6 cs).symm⟩
  · rintro ⟨t, h⟩
    rw [h]
    exact List.take_left' rfl

/-- C13: `Open` classifies the URL: one that starts with `/` becomes `file://` followed by it;
otherwise one that starts with `mms://` becomes `mmst` followed by the URL without its first
three characters, and the session is marked HTTP-like; otherwise one that contains `://` is
used as it is, the session not HTTP-like; any other is refused, `false` being returned without
`input.Init` being called.  In the three accepted cases `input.Init` is called with the
rewritten URL and `Open` returns what it returns. -/
theorem c13_open_classifies (s : PlayerState) (Url : String) (np initOk : Bool) :
    (Url.data.head? = some '/' →
      (Open s Url np initOk).1 = initOk ∧ (Open s Url np initOk).2.url = "file://" ++ Url ∧
      (Open s Url np initOk).2.isHttp = false ∧
      (Open s Url np initOk).2.cmds = s.cmds ++ [Cmd.clearTracks, Cmd.inInit ("file://" ++ Url)]) ∧
    (Url.data.head? ≠ some '/' → (∃ t, Url.data = "mms://".data ++ t) →
      (Open s Url np initOk).1 = initOk ∧
      (Open s Url np initOk).2.url = "mmst" ++ String.mk (Url.data.drop 3) ∧
      (Open s Url np initOk).2.isHttp = true ∧
      (Open s Url np initOk).2.cmds =
        s.cmds ++ [Cmd.clearTracks, Cmd.inInit ("mmst" ++ String.mk (Url.data.drop 3))]) ∧
    (Url.data.head? ≠ some '/' → (¬ ∃ t, Url.data = "mms://".data ++ t) →
      (∃ a b, Url.data = a ++ "://".data ++ b) →
      (Open s Url np initOk).1 = initOk ∧ (Open s Url np initOk).2.url = Url ∧
      (Open s Url np initOk).2.isHttp = false ∧
      (Open s Url np initOk).2.cmds = s.cmds ++ [Cmd.clearTracks, Cmd.inInit Url]) ∧
    (Url.data.head? ≠ some '/' → (¬ ∃ t, Url.data = "mms://".data ++ t) →
      (¬ ∃ a b, Url.data = a ++ "://".data ++ b) →
      (Open s Url np initOk).1 = false ∧ (Open s Url np initOk).2.url = s.url ∧
      (Open s Url np initOk).2.cmds = s.cmds ++ [Cmd.clearTracks]) := by
  refine ⟨?_, ?_, ?_, ?_⟩
  · intro h1
    cases initOk <;> simp [Open, emit, h1]
  · intro h1 h2
    have h2' := (take6_iff Url.data).mpr h2
    cases initOk <;> simp [Open, emit, h1, h2']
  · intro h1 h2 h3
    have h2' : ¬ Url.data.take 6 = "mms://".data := fun h => h2 ((take6_iff Url.data).mp h)
    have h3' : hasScheme Url.data = true := (hasScheme_iff Url.data).mpr h3
    cases initOk <;> simp [Open, emit, h1, h2', h3']
  · intro h1 h2 h3
    have h2' : ¬ Url.data.take 6 = "mms://".data := fun h => h2 ((take6_iff Url.data).mp h)
    have h3' : hasScheme Url.data = false := by
      cases h : hasScheme Url.data with
      | false => rfl
      | true => exact absurd ((hasScheme_iff Url.data).mp h) h3
    simp [Open, emit, h1, h2', h3']

/-- Witness for `c13_open_classifies`: the four kinds of URL, with an input whose `Init`
succeeds. -/
theorem c13_open_classifies_witness :
    ((Open PlayerState.new "/media/clip.ts" false true).1 = true ∧
      (Open PlayerState.new "/media/clip.ts" false true).2.url = "file://" ++ "/media/clip.ts" ∧
      (Open PlayerState.new "/media/clip.ts" false true).2.isHttp = false ∧
      (Open PlayerState.new "/media/clip.ts" false true).2.cmds =
        PlayerState.new.cmds ++ [Cmd.clearTracks, Cmd.inInit ("file://" ++ "/media/clip.ts")]) ∧
    ((Open PlayerState.new "bogus" false true).1 = false ∧
      (Open PlayerState.new "bogus" false true).2.url = PlayerState.new.url ∧
      (Open PlayerState.new "bogus" false true).2.cmds = PlayerState.new.cmds ++ [Cmd.clearTracks]) ∧
    (Open PlayerState.new "mms://host/path" false true).2.url = "mmst://host/path" ∧
    (Open PlayerState.new "mms://host/path" false true).2.isHttp = true ∧
    (Open PlayerState.new "/media/clip.ts" false true).2.url = "file:///media/clip.ts" ∧
    (Open PlayerState.new "http://host/a" false false) =
      (false, emit (emit { PlayerState.new with url := "http://host/a" } Cmd.clearTracks)
        (Cmd.inInit "http://host/a")) ∧
    (Open PlayerState.new "" false true).1 = false :=
  ⟨(c13_open_classifies PlayerState.new "/media/clip.ts" false true).1 (by decide),
   (c13_open_classifies PlayerState.new "bogus" false true).2.2.2 (by decide)
      (by rw [← take6_iff]; decide) (by rw [← hasScheme_iff]; decide),
   by decide, by decide, by decide, by decide, by decide⟩

end Player
